import Mathlib

/-!
trivy-db-to: label parser, refresh pipeline and schema migration

A shallow embedding of `internal/internal.go` and of the three drivers
(`drivers/mysql`, `drivers/postgres`, `drivers/sqlite`).

Go strings and byte slices holding text are Lean `String`s; a byte slice that
may be `nil` is an `Option String`.
-/

namespace TrivyDbTo

/-! ## Strings (`strings.Split`, `strings.Join`) -/

/-- Character-level worker of `strings.Split(s, sep)` for a one-character
separator: the pieces between consecutive separators, always at least one. -/
def splitChars (sep : Char) : List Char → List (List Char)
  | [] => [[]]
  | c :: cs =>
    if c = sep then [] :: splitChars sep cs
    else
      match splitChars sep cs with
      | [] => [[c]]
      | h :: t => (c :: h) :: t

/-- Go `strings.Split(s, sep)` with `sep` a single character. -/
def Split (s : String) (sep : Char) : List String :=
  (splitChars sep s.data).map String.mk

/-- Character-level worker of `strings.Join(elems, sep)`. -/
def joinChars (sep : Char) : List (List Char) → List Char
  | [] => []
  | [x] => x
  | x :: y :: rest => x ++ sep :: joinChars sep (y :: rest)

/-- Go `strings.Join(elems, sep)` with `sep` a single character. -/
def Join (elems : List String) (sep : Char) : String :=
  String.mk (joinChars sep (elems.map String.data))

/-! ## Regular expressions (`regexp`) -/

/-- Syntax of the regular expressions that occur in the program and in the
examples. `any` is `.` (every character but a newline), `digit` is `\d`. -/
inductive Re where
  | empty : Re
  | eps : Re
  | lit : Char → Re
  | any : Re
  | digit : Re
  | cat : Re → Re → Re
  | alt : Re → Re → Re
  | star : Re → Re

namespace Re

/-- The expression `r+`. -/
def plus (r : Re) : Re := cat r (star r)

/-- The expression matching exactly the characters of `cs` in a row. -/
def lits : List Char → Re
  | [] => eps
  | c :: cs => cat (lit c) (lits cs)

/-- Does `r` accept the empty string? -/
def nullable : Re → Bool
  | empty => false
  | eps => true
  | lit _ => false
  | any => false
  | digit => false
  | cat r s => nullable r && nullable s
  | alt r s => nullable r || nullable s
  | star _ => true

/-- Go `\d`: the ASCII digits `0` to `9`. -/
def isDigit (c : Char) : Bool := decide ('0'.toNat ≤ c.toNat) && decide (c.toNat ≤ '9'.toNat)

/-- Brzozowski derivative of `r` by the character `c`. -/
def deriv : Re → Char → Re
  | empty, _ => empty
  | eps, _ => empty
  | lit a, c => if a = c then eps else empty
  | any, c => if c = '\n' then empty else eps
  | digit, c => if isDigit c then eps else empty
  | cat r s, c => if nullable r then alt (cat (deriv r c) s) (deriv s c) else cat (deriv r c) s
  | alt r s, c => alt (deriv r c) (deriv s c)
  | star r, c => cat (deriv r c) (star r)

/-- Does `r` match the whole of `cs`? -/
def fullMatch : Re → List Char → Bool
  | r, [] => nullable r
  | r, c :: cs => fullMatch (deriv r c) cs

/-- Does `r` match a prefix of `cs`? -/
def prefixMatch : Re → List Char → Bool
  | r, [] => nullable r
  | r, c :: cs => nullable r || prefixMatch (deriv r c) cs

/-- Does `r` match some substring of `cs` (unanchored search)? -/
def search (r : Re) : List Char → Bool
  | [] => prefixMatch r []
  | c :: cs => prefixMatch r (c :: cs) || search r cs

end Re

/-- A compiled `*regexp.Regexp`, seen through the one method the program
calls on it. -/
structure Regexp where
  /-- Go `re.MatchString(s)`: does the expression match a substring of `s`? -/
  MatchString : String → Bool

/-- The compiled form of an expression given by its syntax. -/
def Regexp.ofRe (r : Re) : Regexp := ⟨fun s => Re.search r s.data⟩

/-- The package variable `numRe = regexp.MustCompile("\d+")`. -/
def numRe : Regexp := Regexp.ofRe (Re.plus Re.digit)

/-! ## The label parser -/

/-- The constant `alpineEdgeSegment` of `parsePlatformAndSegment`. -/
def alpineEdgeSegment : String := "edge"

/-- Go `parsePlatformAndSegment(s)`; both results are non-nil byte slices. -/
def parsePlatformAndSegment (s : String) : String × String :=
  let platform := s
  let segment := ""
  let splited := Split s ' '
  if 1 < splited.length then
    let last := splited.getLastD ""
    if numRe.MatchString last || last == alpineEdgeSegment then
      (Join (splited.take (splited.length - 1)) ' ', last)
    else (platform, segment)
  else (platform, segment)

/-! ## The snapshot (`bbolt`) -/

/-- Go `error` values. -/
abbrev Error := String

/-- Go `[]byte` that may be `nil`. -/
abbrev Bytes := Option String

/-- A record handed to a driver, Go `[][]byte`. -/
abbrev Tuple := List Bytes

/-- A batch of records, Go `[][][]byte`. -/
abbrev Batch := List Tuple

/-- What a key of a bucket holds: a plain value, or a nested bucket, given by
the key/value pairs a cursor over it yields. -/
inductive Item where
  | value : String → Item
  | bucket : List (String × Bytes) → Item

/-- The value a cursor reports for an item: `nil` for a nested bucket. -/
def Item.cursorValue : Item → Bytes
  | Item.value v => some v
  | Item.bucket _ => none

/-- A `*bolt.Bucket`: its entries in key order. -/
structure Bucket where
  entries : List (String × Item)

/-- A read transaction `*bolt.Tx`: the top-level buckets in key order. -/
structure Tx where
  buckets : List (String × Bucket)

/-- Go `tx.Bucket(name)`: `nil` when there is no such top-level bucket. -/
def Tx.getBucket (tx : Tx) (name : String) : Option Bucket :=
  (tx.buckets.find? fun p => p.1 == name).map Prod.snd

/-- Go `b.Bucket(name)`: the nested bucket under `name`, `nil` when the key is
absent or holds a plain value. -/
def Bucket.getBucket (b : Bucket) (name : String) : Option (List (String × Bytes)) :=
  match b.entries.find? fun p => p.1 == name with
  | some (_, Item.bucket es) => some es
  | _ => none

/-- A `*bolt.Cursor`: the pairs of its bucket and those after its position. -/
structure Cursor where
  entries : List (String × Bytes)
  rest : List (String × Bytes)

/-- Go `b.Cursor()`. -/
def Bucket.newCursor (b : Bucket) : Cursor :=
  ⟨b.entries.map fun p => (p.1, p.2.cursorValue), []⟩

/-- Go `c.First()`: the first pair, or `(nil, nil)` on an empty bucket. -/
def Cursor.First (c : Cursor) : (Bytes × Bytes) × Cursor :=
  match c.entries with
  | [] => ((none, none), { c with rest := [] })
  | (k, v) :: t => ((some k, v), { c with rest := t })

/-- Go `c.Next()`: the next pair, or `(nil, nil)` past the last one. -/
def Cursor.Next (c : Cursor) : (Bytes × Bytes) × Cursor :=
  match c.rest with
  | [] => ((none, none), c)
  | (k, v) :: t => ((some k, v), { c with rest := t })

/-! ## `lo.Chunk` -/

/-- The loop of `lo.Chunk`: chunk `i` is `collection[i*size : last]` with
`last = min ((i+1)*size) len`. -/
def chunkList {α : Type} (collection : List α) (size : Nat) : List (List α) :=
  let chunksNum := collection.length / size + (if collection.length % size ≠ 0 then 1 else 0)
  (List.range chunksNum).map fun i =>
    let last := if collection.length < (i + 1) * size then collection.length else (i + 1) * size
    (collection.take last).drop (i * size)

/-- Go `lo.Chunk(collection, size)`; `none` is the panic on `size <= 0`. -/
def Chunk {α : Type} (collection : List α) (size : Nat) : Option (List (List α)) :=
  if size = 0 then none else some (chunkList collection size)

/-! ## The driver interface and the refresh -/

/-- The constants of `internal.go`. -/
def chunkSize : Nat := 5000

/-- Name of the top-level bucket of vulnerability records. -/
def vulnBucket : String := "vulnerability"

/-- Name of the top-level bucket of data-source records. -/
def dataSourceBucket : String := "data-source"

/-- The operations of `drivers.Driver` that a refresh calls. -/
inductive Call where
  | TruncateVulns : Call
  | InsertVuln : Batch → Call
  | TruncateDataSource : Call
  | InsertDataSource : Batch → Call
  | TruncateVulnAdvisories : Call
  | InsertVulnAdvisory : Batch → Call
  deriving DecidableEq

/-- What a refresh does that can be observed from outside: a driver call, or
the log line `Writing security advisory: <source> ...`. -/
inductive Event where
  | call : Call → Event
  | writing : String → Event
  deriving DecidableEq

/-- A `drivers.Driver` over a destination of state `σ`: each call answers
with an error or `nil` and leaves a new state. -/
structure Driver (σ : Type) where
  exec : Call → σ → Option Error × σ

/-- The destination together with the events so far. -/
structure Run (σ : Type) where
  db : σ
  trace : List Event
  deriving DecidableEq

/-- How a call of `UpdateDB` ends: it returns (an error or `nil`), the process
exits through `log.Logger.Fatalf`, or it panics. -/
inductive Outcome where
  | returned : Option Error → Outcome
  | fatal : String → Outcome
  | panic : Outcome
  deriving DecidableEq

/-- One driver call, recorded in the trace. -/
def invoke {σ : Type} (d : Driver σ) (c : Call) (st : Run σ) : Option Error × Run σ :=
  ((d.exec c st.db).1, ⟨(d.exec c st.db).2, st.trace ++ [Event.call c]⟩)

/-- The inner loop `for i := 0; i < chunkSize; i++` of the flat walks: up to
`n` calls of `c.Next()`, stopping with `ended = true` at a `nil` key. -/
def nextLoop : Nat → Cursor → Batch → Batch × Cursor × Bool
  | 0, c, acc => (acc, c, false)
  | i + 1, c, acc =>
    match c.Next with
    | ((none, _), c') => (acc, c', true)
    | ((some k, v), c') => nextLoop i c' (acc ++ [[some k, v]])

/-- The outer loop `for { ... }` of the flat walks of `UpdateDB` and
`updateDataSource` (the two are the same up to the insert operation `ins`).
`none` is an iteration budget that ran out. -/
def flatLoop {σ : Type} (chunk : Nat) (d : Driver σ) (ins : Batch → Call) :
    Nat → Bool → Cursor → Run σ → Option (Option Error × Run σ)
  | 0, _, _, _ => none
  | fuel + 1, started, c, st =>
    let first : Batch × Cursor :=
      if started then ([], c) else ([[c.First.1.1, c.First.1.2]], c.First.2)
    let r := nextLoop chunk first.2 first.1
    let ans := if 0 < r.1.length then invoke d (ins r.1) st else (none, st)
    match ans.1 with
    | some e => some (some e, ans.2)
    | none => if r.2.2 then some (none, ans.2) else flatLoop chunk d ins fuel true r.2.1 ans.2

/-- Go `updateDataSource`. -/
def updateDataSource {σ : Type} (chunk fuel : Nat) (d : Driver σ) (tx : Tx) (st : Run σ) :
    Option (Outcome × Run σ) :=
  match invoke d Call.TruncateDataSource st with
  | (some e, st1) => some (Outcome.returned (some e), st1)
  | (none, st1) =>
    match tx.getBucket dataSourceBucket with
    | none => some (Outcome.panic, st1)
    | some b =>
      match flatLoop chunk d Call.InsertDataSource fuel false b.newCursor st1 with
      | none => none
      | some (e, st2) => some (Outcome.returned e, st2)

/-- The loop `for _, s := range targetSources` compiling the allow-list. -/
def compileAll (Compile : String → Except Error Regexp) :
    List String → Except Error (List Regexp)
  | [] => Except.ok []
  | s :: rest =>
    match Compile s with
    | Except.error e => Except.error e
    | Except.ok re =>
      match compileAll Compile rest with
      | Except.error e => Except.error e
      | Except.ok res => Except.ok (re :: res)

/-- The loop `for _, re := range sourceRe` setting `found`. -/
def foundIn : List Regexp → String → Bool
  | [], _ => false
  | re :: rest, s => if re.MatchString s then true else foundIn rest s

/-- The loop over `cbc`, the cursor of one package bucket. -/
def walkVulns (s pkg : String) : List (String × Bytes) → Batch → Batch
  | [], secAdv => secAdv
  | (vID, v) :: rest, secAdv =>
    walkVulns s pkg rest
      (secAdv ++ [[some vID, some (parsePlatformAndSegment s).1,
        some (parsePlatformAndSegment s).2, some pkg, v]])

/-- The loop over `c`, the cursor of one source bucket `b`. -/
def walkPackages (s : String) (b : Bucket) : List (String × Bytes) → Batch → Batch
  | [], secAdv => secAdv
  | (pkg, _) :: rest, secAdv =>
    match b.getBucket pkg with
    | none => walkPackages s b rest secAdv
    | some cb => walkPackages s b rest (walkVulns s pkg cb secAdv)

/-- The loop `for _, c := range chunked`. -/
def insertChunks {σ : Type} (d : Driver σ) : List Batch → Run σ → Option Error × Run σ
  | [], st => (none, st)
  | c :: rest, st =>
    match invoke d (Call.InsertVulnAdvisory c) st with
    | (some e, st1) => (some e, st1)
    | (none, st1) => insertChunks d rest st1

/-- The function passed to `tx.ForEach` in `UpdateDB`. -/
def walkSource {σ : Type} (chunk : Nat) (d : Driver σ) (sourceRe : List Regexp)
    (source : String) (b : Bucket) (st : Run σ) : Outcome × Run σ :=
  let s := source
  if s = vulnBucket then (Outcome.returned none, st)
  else if 0 < sourceRe.length && !foundIn sourceRe s then (Outcome.returned none, st)
  else
    let st1 : Run σ := ⟨st.db, st.trace ++ [Event.writing s]⟩
    let secAdv := walkPackages s b b.newCursor.entries []
    match Chunk secAdv chunk with
    | none => (Outcome.panic, st1)
    | some chunked =>
      ((Outcome.returned (insertChunks d chunked st1).1), (insertChunks d chunked st1).2)

/-- Go `tx.ForEach(fn)`: `fn` on every top-level bucket in key order, up to
the first one that does not return `nil`. -/
def forEach {σ : Type} (fn : String → Bucket → Run σ → Outcome × Run σ) :
    List (String × Bucket) → Run σ → Outcome × Run σ
  | [], st => (Outcome.returned none, st)
  | (name, b) :: rest, st =>
    match fn name b st with
    | (Outcome.returned none, st1) => forEach fn rest st1
    | (o, st1) => (o, st1)

/-- The advisory part of `UpdateDB`: compile the allow-list, truncate, walk. -/
def updateAdvisories {σ : Type} (chunk : Nat) (d : Driver σ)
    (Compile : String → Except Error Regexp) (tx : Tx) (targetSources : List String)
    (st : Run σ) : Outcome × Run σ :=
  match compileAll Compile targetSources with
  | Except.error e => (Outcome.returned (some e), st)
  | Except.ok sourceRe =>
    match invoke d Call.TruncateVulnAdvisories st with
    | (some e, st1) => (Outcome.returned (some e), st1)
    | (none, st1) => forEach (walkSource chunk d sourceRe) tx.buckets st1

/-- The function `UpdateDB` passes to `trivyDb.View`, with the batch size
`chunk` and the iteration budget `fuel` of the flat loops as parameters.
Opening the destination and the snapshot is left out. -/
def UpdateDBWith {σ : Type} (chunk fuel : Nat) (d : Driver σ)
    (Compile : String → Except Error Regexp) (tx : Tx) (targetSources : List String)
    (st : Run σ) : Option (Outcome × Run σ) :=
  match invoke d Call.TruncateVulns st with
  | (some e, st1) => some (Outcome.returned (some e), st1)
  | (none, st1) =>
    match tx.getBucket vulnBucket with
    | none => some (Outcome.panic, st1)
    | some b =>
      match flatLoop chunk d Call.InsertVuln fuel false b.newCursor st1 with
      | none => none
      | some (some e, st2) => some (Outcome.returned (some e), st2)
      | some (none, st2) =>
        match updateDataSource chunk fuel d tx st2 with
        | none => none
        | some (Outcome.returned (some e), st3) =>
          some (Outcome.fatal ("Failed to update data-source table:" ++ e), st3)
        | some (Outcome.returned none, st3) =>
          some (updateAdvisories chunk d Compile tx targetSources st3)
        | some (o, st3) => some (o, st3)

/-- Go `UpdateDB`, at the batch size `chunkSize` of the program. -/
def UpdateDB {σ : Type} (fuel : Nat) (d : Driver σ)
    (Compile : String → Except Error Regexp) (tx : Tx) (targetSources : List String)
    (st : Run σ) : Option (Outcome × Run σ) :=
  UpdateDBWith chunkSize fuel d Compile tx targetSources st

/-- A driver none of whose calls fails. -/
def okDriver : Driver Unit := ⟨fun _ _ => (none, ())⟩

/-- The record `[][]byte{k, v}` built from a pair the cursor yields. -/
def pairTuple (p : String × Bytes) : Tuple := [some p.1, p.2]

/-- Calls of the insert operation `ins` on the batches in order, up to the
first one that fails. -/
def insertSeq {σ : Type} (d : Driver σ) (ins : Batch → Call) :
    List Batch → Run σ → Option Error × Run σ
  | [], st => (none, st)
  | b :: rest, st =>
    match (invoke d (ins b) st).1 with
    | some e => (some e, (invoke d (ins b) st).2)
    | none => insertSeq d ins rest (invoke d (ins b) st).2

/-- The batches a flat walk submits for a bucket whose cursor yields `es`
(see `flatLoop_eq`): what `c.First()` gave together with the next `chunk`
pairs, then the remaining pairs in groups of `chunk`. -/
def flatBatches (chunk : Nat) : List (String × Bytes) → List Batch
  | [] => [[[none, none]]]
  | e :: t =>
    (pairTuple e :: (t.take chunk).map pairTuple) ::
      chunkList ((t.drop chunk).map pairTuple) chunk

/-- No call of the driver fails. -/
def Driver.neverFails {σ : Type} (d : Driver σ) : Prop :=
  ∀ (c : Call) (s : σ), (d.exec c s).1 = none

/-- The batch of an event that is a call of `InsertVuln`. -/
def Event.vulnBatch : Event → Option Batch
  | Event.call (Call.InsertVuln b) => some b
  | _ => none

/-- The batch of an event that is a call of `InsertDataSource`. -/
def Event.dataSourceBatch : Event → Option Batch
  | Event.call (Call.InsertDataSource b) => some b
  | _ => none

/-- The batch of an event that is a call of `InsertVulnAdvisory`. -/
def Event.advisoryBatch : Event → Option Batch
  | Event.call (Call.InsertVulnAdvisory b) => some b
  | _ => none

/-- The source of an event that is the log line of the nested walk. -/
def Event.source : Event → Option String
  | Event.writing s => some s
  | _ => none

/-- The batches passed to `InsertVuln`, in call order. -/
def vulnBatches (trace : List Event) : List Batch := trace.filterMap Event.vulnBatch

/-- The batches passed to `InsertDataSource`, in call order. -/
def dataSourceBatches (trace : List Event) : List Batch := trace.filterMap Event.dataSourceBatch

/-- The batches passed to `InsertVulnAdvisory`, in call order. -/
def advisoryBatches (trace : List Event) : List Batch := trace.filterMap Event.advisoryBatch

/-- The sources the nested walk went into (wrote its log line for), in order. -/
def walked (trace : List Event) : List String := trace.filterMap Event.source

/-- The events of the advisory part of a refresh. -/
def Event.isAdvisory : Event → Bool
  | Event.call Call.TruncateVulnAdvisories => true
  | Event.call (Call.InsertVulnAdvisory _) => true
  | Event.writing _ => true
  | _ => false

/-- The pairs a cursor over the bucket yields, in order. -/
def Bucket.pairs (b : Bucket) : List (String × Bytes) := b.newCursor.entries

/-- The events of the function passed to `tx.ForEach` for one top-level bucket
when no driver call fails (see `walkSource_ok`). -/
def walkEvents (chunk : Nat) (sourceRe : List Regexp) (p : String × Bucket) : List Event :=
  if p.1 = vulnBucket then []
  else if 0 < sourceRe.length && !foundIn sourceRe p.1 then []
  else
    Event.writing p.1 ::
      (chunkList (walkPackages p.1 p.2 p.2.pairs []) chunk).map
        fun c => Event.call (Call.InsertVulnAdvisory c)

/-- The events of the two flat walks when no driver call fails (see
`UpdateDBWith_flat`). -/
def flatEvents (chunk : Nat) (vb dsb : Bucket) : List Event :=
  Event.call Call.TruncateVulns ::
    (flatBatches chunk vb.pairs).map (fun b => Event.call (Call.InsertVuln b)) ++
  Event.call Call.TruncateDataSource ::
    (flatBatches chunk dsb.pairs).map (fun b => Event.call (Call.InsertDataSource b))

/-- An allow-list compiler for runs with an empty allow-list. -/
def noCompile : String → Except Error Regexp := fun s => Except.error ("unused: " ++ s)

/-- A snapshot whose vulnerability bucket holds 5001 records
`CVE-2024-10000` to `CVE-2024-15000`. -/
def tx5001 : Tx :=
  ⟨[("data-source", ⟨[("alpine 3.15", Item.value "\x7b\"ID\":\"alpine\"\x7d")]⟩),
    ("vulnerability",
      ⟨(List.range 5001).map fun i => ("CVE-2024-" ++ toString (10000 + i), Item.value "{}")⟩)]⟩

/-- A snapshot whose vulnerability and data-source buckets exist and are
empty, and that has no other bucket. -/
def txEmpty : Tx := ⟨[("data-source", ⟨[]⟩), ("vulnerability", ⟨[]⟩)]⟩

/-- A small snapshot: two advisory sources, one data source, five
vulnerability records. -/
def txSmall : Tx :=
  ⟨[("alpine 3.15",
      ⟨[("musl", Item.bucket [("CVE-1", some "a1"), ("CVE-2", some "a2")]),
        ("zlib", Item.bucket [("CVE-3", some "a3")])]⟩),
    ("data-source", ⟨[("alpine 3.15", Item.value "\x7b\"ID\":\"alpine\"\x7d")]⟩),
    ("debian 10", ⟨[("bash", Item.bucket [("CVE-4", some "d4")])]⟩),
    ("vulnerability",
      ⟨[("CVE-1", Item.value "v1"), ("CVE-2", Item.value "v2"), ("CVE-3", Item.value "v3"),
        ("CVE-4", Item.value "v4"), ("CVE-5", Item.value "v5")]⟩)]⟩

/-- The allow-list patterns of the examples, compiled: `alpine.*` and `.*`. -/
def exampleCompile (s : String) : Except Error Regexp :=
  if s = "alpine.*" then Except.ok (Regexp.ofRe (Re.cat (Re.lits "alpine".data) (Re.star Re.any)))
  else if s = ".*" then Except.ok (Regexp.ofRe (Re.star Re.any))
  else Except.error ("pattern not modelled: " ++ s)

/-- The records expected from one entry of a source bucket: one per pair of
the package bucket, none for a key that holds a plain value. -/
def itemTuples (source : String) (p : String × Item) : Batch :=
  match p.2 with
  | Item.value _ => []
  | Item.bucket es =>
    es.map fun q =>
      [some q.1, some (parsePlatformAndSegment source).1,
       some (parsePlatformAndSegment source).2, some p.1, q.2]

/-- The records expected from a source bucket: packages outer, vulnerability
ids inner, both in cursor order. -/
def advisoryTuples (source : String) (b : Bucket) : Batch :=
  b.entries.flatMap (itemTuples source)

/-! ## The destination schema and the statements of the drivers -/

/-- A column as a table definition declares it: name, type, and the text of
its constraints (`NOT NULL`, `DEFAULT ...`, `PRIMARY KEY ...`). -/
structure Column where
  name : String
  type : String
  constraints : String
  deriving DecidableEq

/-- An index: its name and the columns it covers (`USING BTREE`, the default
method, is not recorded). -/
structure Index where
  name : String
  columns : List String
  deriving DecidableEq

/-- A table: name, columns, indexes and table comment (storage options such as
`ENGINE` and `CHARSET` are not recorded). -/
structure Table where
  name : String
  columns : List Column
  indexes : List Index
  comment : String
  deriving DecidableEq

/-- The schema of a destination: its tables and its temporary tables. -/
structure DB where
  tables : List Table
  temp : List Table
  deriving DecidableEq

/-- The three backends. -/
inductive Backend where
  | mysql : Backend
  | postgres : Backend
  | sqlite : Backend
  deriving DecidableEq

/-- The statements the drivers send, by what they do to the schema. -/
inductive Stmt where
  /-- `CREATE [TEMPORARY] TABLE [IF NOT EXISTS] name (columns) [COMMENT = ...]`. -/
  | createTable (ifNotExists temporary : Bool) (name : String) (columns : List Column)
      (comment : String) : Stmt
  /-- `CREATE INDEX [IF NOT EXISTS] name ON table(columns)`. -/
  | createIndex (ifNotExists : Bool) (name table : String) (columns : List String) : Stmt
  /-- MySQL `ALTER TABLE table MODIFY column type constraints`. -/
  | modifyColumn (table column type constraints : String) : Stmt
  /-- PostgreSQL `ALTER TABLE table ALTER COLUMN column TYPE type USING ...`. -/
  | alterColumnType (table column type : String) : Stmt
  /-- PostgreSQL `COMMENT ON TABLE table IS comment`. -/
  | commentOnTable (table comment : String) : Stmt
  /-- `DROP TABLE [IF EXISTS] name`. -/
  | dropTable (ifExists : Bool) (name : String) : Stmt
  /-- `INSERT INTO target SELECT * FROM source`. -/
  | insertSelect (target source : String) : Stmt
  /-- `TRUNCATE TABLE name`. -/
  | truncateTable (name : String) : Stmt
  /-- `PRAGMA ...`, `BEGIN TRANSACTION`, `COMMIT`: no effect on the schema. -/
  | control (text : String) : Stmt
  deriving DecidableEq

/-- Is the statement a `CREATE`, an `ALTER` or a `DROP`? -/
def Stmt.isDDL : Stmt → Bool
  | Stmt.createTable _ _ _ _ _ => true
  | Stmt.createIndex _ _ _ _ => true
  | Stmt.modifyColumn _ _ _ _ => true
  | Stmt.alterColumnType _ _ _ => true
  | Stmt.dropTable _ _ => true
  | _ => false

/-- Is there a table of this name among `ts`? -/
def hasTable (ts : List Table) (name : String) : Bool := ts.any fun t => t.name == name

/-- Apply `f` to the table of this name. -/
def onTable (name : String) (f : Table → Table) (ts : List Table) : List Table :=
  ts.map fun t => if t.name = name then f t else t

/-- Does the table of this name have all of the columns `cols`? -/
def hasColumns (ts : List Table) (name : String) (cols : List String) : Bool :=
  ts.any fun t => t.name == name && cols.all fun c => t.columns.any fun k => k.name == c

/-- Is the index name taken? Index names are per table in MySQL and per schema
in PostgreSQL and SQLite. -/
def indexTaken (backend : Backend) (ts : List Table) (table index : String) : Bool :=
  ts.any fun t =>
    (backend != Backend.mysql || t.name == table) && t.indexes.any fun i => i.name == index

/-- The effect of one statement on the schema, or the error it is refused
with. A name is looked up among the temporary tables first. -/
def Stmt.run (backend : Backend) : Stmt → DB → Except Error DB
  | Stmt.createTable ifNotExists temporary name columns comment, db =>
    if temporary then
      if hasTable db.temp name then
        if ifNotExists then Except.ok db else Except.error ("table exists: " ++ name)
      else Except.ok { db with temp := db.temp ++ [⟨name, columns, [], comment⟩] }
    else
      if hasTable db.tables name then
        if ifNotExists then Except.ok db else Except.error ("table exists: " ++ name)
      else Except.ok { db with tables := db.tables ++ [⟨name, columns, [], comment⟩] }
  | Stmt.createIndex ifNotExists name table columns, db =>
    if indexTaken backend db.tables table name then
      if ifNotExists then Except.ok db else Except.error ("index exists: " ++ name)
    else if hasColumns db.tables table columns then
      Except.ok ⟨onTable table (fun t => { t with indexes := t.indexes ++ [⟨name, columns⟩] })
        db.tables, db.temp⟩
    else Except.error ("no such table or column: " ++ table)
  | Stmt.modifyColumn table column type constraints, db =>
    if hasColumns db.tables table [column] then
      Except.ok ⟨onTable table (fun t => { t with columns := t.columns.map fun k =>
        if k.name = column then ⟨column, type, constraints⟩ else k }) db.tables, db.temp⟩
    else Except.error ("no such table or column: " ++ table)
  | Stmt.alterColumnType table column type, db =>
    if hasColumns db.tables table [column] then
      Except.ok ⟨onTable table (fun t => { t with columns := t.columns.map fun k =>
        if k.name = column then { k with type := type } else k }) db.tables, db.temp⟩
    else Except.error ("no such table or column: " ++ table)
  | Stmt.commentOnTable table comment, db =>
    if hasTable db.tables table then
      Except.ok ⟨onTable table (fun t => { t with comment := comment }) db.tables, db.temp⟩
    else Except.error ("no such table: " ++ table)
  | Stmt.dropTable ifExists name, db =>
    if hasTable db.temp name then
      Except.ok { db with temp := db.temp.filter fun t => t.name != name }
    else if hasTable db.tables name then
      Except.ok { db with tables := db.tables.filter fun t => t.name != name }
    else if ifExists then Except.ok db
    else Except.error ("no such table: " ++ name)
  | Stmt.insertSelect target source, db =>
    if (hasTable db.temp target || hasTable db.tables target) &&
        (hasTable db.temp source || hasTable db.tables source) then Except.ok db
    else Except.error ("no such table: " ++ target ++ " or " ++ source)
  | Stmt.truncateTable name, db =>
    if hasTable db.tables name then Except.ok db else Except.error ("no such table: " ++ name)
  | Stmt.control _, db => Except.ok db

/-- The statements of one statement string, run in order up to the first one
that is refused. -/
def runScript (backend : Backend) : List Stmt → DB → Option Error × DB
  | [], db => (none, db)
  | stmt :: rest, db =>
    match stmt.run backend db with
    | Except.error e => (some e, db)
    | Except.ok db1 => runScript backend rest db1

/-- A connection `*sql.DB`: the schema behind it and the statement strings
sent through `Exec` so far. -/
structure Conn where
  db : DB
  issued : List (List Stmt)
  deriving DecidableEq

/-- Go `m.db.Exec(stmt)`. -/
def Exec (backend : Backend) (stmt : List Stmt) (c : Conn) : Option Error × Conn :=
  ((runScript backend stmt c.db).1, ⟨(runScript backend stmt c.db).2, c.issued ++ [stmt]⟩)

/-- A run of `if _, err := m.db.Exec(stmt); err != nil { return err }` steps. -/
def execAll (backend : Backend) : List (List Stmt) → Conn → Option Error × Conn
  | [], c => (none, c)
  | stmt :: rest, c =>
    match Exec backend stmt c with
    | (some e, c1) => (some e, c1)
    | (none, c1) => execAll backend rest c1

/-- The `SELECT COUNT(*) ... AND table_name IN (...)` query of `Migrate`: how
many tables of the schema bear one of the names. -/
def countTables (c : Conn) (names : List String) : Nat :=
  (c.db.tables.filter fun t => names.contains t.name).length

/-- The table names a driver is built with (`New`). -/
structure Names where
  vulnerabilitiesTableName : String
  advisoryTableName : String
  dataSourceTableName : String

/-- Go `(*Mysql).Migrate`. -/
def Mysql.Migrate (m : Names) (c : Conn) : Option Error × Conn :=
  let count := countTables c [m.vulnerabilitiesTableName, m.advisoryTableName,
    m.dataSourceTableName]
  if count = 3 then
    execAll Backend.mysql
      [[Stmt.modifyColumn m.vulnerabilitiesTableName "vulnerability_id" "varchar (128)" "NOT NULL"],
       [Stmt.modifyColumn m.advisoryTableName "vulnerability_id" "varchar (128)" "NOT NULL"],
       [Stmt.modifyColumn m.dataSourceTableName "source_key" "varchar (128)" "NOT NULL"]] c
  else if count = 1 then (some "invalid table schema", c)
  else
    execAll Backend.mysql
      [[Stmt.createTable false false m.vulnerabilitiesTableName
          [⟨"id", "int", "PRIMARY KEY AUTO_INCREMENT"⟩,
           ⟨"vulnerability_id", "varchar (128)", "NOT NULL"⟩,
           ⟨"value", "json", "NOT NULL"⟩,
           ⟨"created_at", "datetime", "NOT NULL DEFAULT CURRENT_TIMESTAMP"⟩]
          "vulnerabilities obtained via Trivy DB"],
       [Stmt.createIndex false "v_vulnerability_id_idx" m.vulnerabilitiesTableName
          ["vulnerability_id"]],
       [Stmt.createTable false false m.advisoryTableName
          [⟨"id", "int", "PRIMARY KEY AUTO_INCREMENT"⟩,
           ⟨"vulnerability_id", "varchar (128)", "NOT NULL"⟩,
           ⟨"platform", "varchar (50)", "NOT NULL"⟩,
           ⟨"segment", "varchar (50)", "NOT NULL"⟩,
           ⟨"package", "varchar (100)", "NOT NULL"⟩,
           ⟨"value", "json", "NOT NULL"⟩,
           ⟨"created_at", "datetime", "NOT NULL DEFAULT CURRENT_TIMESTAMP"⟩]
          "vulnerability advisories obtained via Trivy DB"],
       [Stmt.createIndex false "va_vulnerability_advisories_idx" m.advisoryTableName
          ["vulnerability_id", "platform", "segment", "package"]],
       [Stmt.createIndex false "va_vulnerability_id_idx" m.advisoryTableName ["vulnerability_id"]],
       [Stmt.createIndex false "va_platform_idx" m.advisoryTableName ["platform"]],
       [Stmt.createIndex false "va_source_idx" m.advisoryTableName ["platform", "segment"]],
       [Stmt.createIndex false "va_source_package_idx" m.advisoryTableName
          ["platform", "segment", "package"]],
       [Stmt.createTable false false m.dataSourceTableName
          [⟨"id", "int", "PRIMARY KEY AUTO_INCREMENT"⟩,
           ⟨"source_key", "varchar (128)", "NOT NULL"⟩,
           ⟨"source_id", "varchar (128)", "NOT NULL"⟩,
           ⟨"source_name", "varchar (128)", "NOT NULL"⟩,
           ⟨"source_url", "varchar (128)", "NOT NULL"⟩,
           ⟨"created_at", "datetime", "NOT NULL DEFAULT CURRENT_TIMESTAMP"⟩]
          "data sources via Trivy DB"],
       [Stmt.createIndex false "v_key_idx" m.dataSourceTableName ["source_key"]]] c

/-- Go `(*Postgres).Migrate`. -/
def Postgres.Migrate (m : Names) (c : Conn) : Option Error × Conn :=
  let count := countTables c [m.vulnerabilitiesTableName, m.advisoryTableName,
    m.dataSourceTableName]
  if count = 3 then
    execAll Backend.postgres
      [[Stmt.alterColumnType m.vulnerabilitiesTableName "vulnerability_id" "varchar (128)"],
       [Stmt.alterColumnType m.advisoryTableName "vulnerability_id" "varchar (128)"],
       [Stmt.alterColumnType m.dataSourceTableName "source_key" "varchar (128)"]] c
  else if count = 1 then (some "invalid table schema", c)
  else
    execAll Backend.postgres
      [[Stmt.createTable false false m.vulnerabilitiesTableName
          [⟨"id", "serial", "PRIMARY KEY"⟩,
           ⟨"vulnerability_id", "varchar (128)", "NOT NULL"⟩,
           ⟨"value", "json", "NOT NULL"⟩,
           ⟨"created_at", "timestamp", "NOT NULL DEFAULT CURRENT_TIMESTAMP"⟩] ""],
       [Stmt.commentOnTable m.vulnerabilitiesTableName "vulnerability obtained via Trivy DB"],
       [Stmt.createIndex false "v_vulnerability_id_idx" m.vulnerabilitiesTableName
          ["vulnerability_id"]],
       [Stmt.createTable false false m.advisoryTableName
          [⟨"id", "serial", "PRIMARY KEY"⟩,
           ⟨"vulnerability_id", "varchar (128)", "NOT NULL"⟩,
           ⟨"platform", "varchar (50)", "NOT NULL"⟩,
           ⟨"segment", "varchar (50)", "NOT NULL"⟩,
           ⟨"package", "varchar (100)", "NOT NULL"⟩,
           ⟨"value", "json", "NOT NULL"⟩,
           ⟨"created_at", "timestamp", "NOT NULL DEFAULT CURRENT_TIMESTAMP"⟩] ""],
       [Stmt.commentOnTable m.advisoryTableName "vulnerability advisories obtained via Trivy DB"],
       [Stmt.createIndex false "va_vulnerability_advisories_idx" m.advisoryTableName
          ["vulnerability_id", "platform", "segment", "package"]],
       [Stmt.createIndex false "va_vulnerability_id_idx" m.advisoryTableName ["vulnerability_id"]],
       [Stmt.createIndex false "va_platform_idx" m.advisoryTableName ["platform"]],
       [Stmt.createIndex false "va_source_idx" m.advisoryTableName ["platform", "segment"]],
       [Stmt.createIndex false "va_source_package_idx" m.advisoryTableName
          ["platform", "segment", "package"]],
       [Stmt.createTable false false m.dataSourceTableName
          [⟨"id", "serial", "PRIMARY KEY"⟩,
           ⟨"source_key", "varchar (128)", "NOT NULL"⟩,
           ⟨"source_id", "varchar (128)", "NOT NULL"⟩,
           ⟨"source_name", "varchar (128)", "NOT NULL"⟩,
           ⟨"source_url", "varchar (128)", "NOT NULL"⟩,
           ⟨"created_at", "timestamp", "NOT NULL DEFAULT CURRENT_TIMESTAMP"⟩] ""],
       [Stmt.commentOnTable m.dataSourceTableName "Data Source obtained via Trivy DB"],
       [Stmt.createIndex false "v_source_key_idx" m.dataSourceTableName ["source_key"]]] c

/-- Go `(*Sqlite).createVulnerabilitiesTable`. -/
def Sqlite.createVulnerabilitiesTable (m : Names) (c : Conn) : Option Error × Conn :=
  execAll Backend.sqlite
    [[Stmt.createTable true false m.vulnerabilitiesTableName
        [⟨"id", "INTEGER", "PRIMARY KEY AUTOINCREMENT"⟩,
         ⟨"vulnerability_id", "TEXT", "NOT NULL"⟩,
         ⟨"value", "TEXT", "NOT NULL"⟩,
         ⟨"created_at", "TIMESTAMP", "DEFAULT CURRENT_TIMESTAMP"⟩] ""],
     [Stmt.createIndex true "v_vulnerability_id_idx" m.vulnerabilitiesTableName
        ["vulnerability_id"]]] c

/-- Go `(*Sqlite).createAdvisoryTable`. -/
def Sqlite.createAdvisoryTable (m : Names) (c : Conn) : Option Error × Conn :=
  execAll Backend.sqlite
    [[Stmt.createTable true false m.advisoryTableName
        [⟨"id", "INTEGER", "PRIMARY KEY AUTOINCREMENT"⟩,
         ⟨"vulnerability_id", "TEXT", "NOT NULL"⟩,
         ⟨"platform", "TEXT", "NOT NULL"⟩,
         ⟨"segment", "TEXT", "NOT NULL"⟩,
         ⟨"package", "TEXT", "NOT NULL"⟩,
         ⟨"value", "TEXT", "NOT NULL"⟩,
         ⟨"created_at", "TIMESTAMP", "DEFAULT CURRENT_TIMESTAMP"⟩] ""],
     [Stmt.createIndex true "va_vulnerability_advisories_idx" m.advisoryTableName
        ["vulnerability_id", "platform", "segment", "package"]],
     [Stmt.createIndex true "va_vulnerability_id_idx" m.advisoryTableName ["vulnerability_id"]],
     [Stmt.createIndex true "va_platform_idx" m.advisoryTableName ["platform"]],
     [Stmt.createIndex true "va_source_idx" m.advisoryTableName ["platform", "segment"]],
     [Stmt.createIndex true "va_source_package_idx" m.advisoryTableName
        ["platform", "segment", "package"]]] c

/-- Go `(*Sqlite).createDataSourceTable`. -/
def Sqlite.createDataSourceTable (m : Names) (c : Conn) : Option Error × Conn :=
  execAll Backend.sqlite
    [[Stmt.createTable true false m.dataSourceTableName
        [⟨"id", "INTEGER", "PRIMARY KEY AUTOINCREMENT"⟩,
         ⟨"source_key", "TEXT", "NOT NULL"⟩,
         ⟨"source_id", "TEXT", "NOT NULL"⟩,
         ⟨"source_name", "TEXT", "NOT NULL"⟩,
         ⟨"source_url", "TEXT", "NOT NULL"⟩,
         ⟨"created_at", "TIMESTAMP", "DEFAULT CURRENT_TIMESTAMP"⟩] ""],
     [Stmt.createIndex true "v_source_key_idx" m.dataSourceTableName ["source_key"]]] c

/-- Go `(*Sqlite).createTables`. -/
def Sqlite.createTables (m : Names) (c : Conn) : Option Error × Conn :=
  match Sqlite.createVulnerabilitiesTable m c with
  | (some e, c1) => (some e, c1)
  | (none, c1) =>
    match Sqlite.createAdvisoryTable m c1 with
    | (some e, c2) => (some e, c2)
    | (none, c2) => Sqlite.createDataSourceTable m c2

/-- The statement string with which `(*Sqlite).Migrate` rebuilds one table
through a temporary copy `<name>_backup`. -/
def Sqlite.rebuild (name : String) (columns : List Column) : List Stmt :=
  [Stmt.control "PRAGMA foreign_keys=off",
   Stmt.control "BEGIN TRANSACTION",
   Stmt.createTable false true (name ++ "_backup") columns "",
   Stmt.insertSelect (name ++ "_backup") name,
   Stmt.dropTable false name,
   Stmt.createTable false false name columns "",
   Stmt.insertSelect name (name ++ "_backup"),
   Stmt.dropTable false (name ++ "_backup"),
   Stmt.control "COMMIT",
   Stmt.control "PRAGMA foreign_keys=on"]

/-- Go `(*Sqlite).Migrate`. -/
def Sqlite.Migrate (m : Names) (c : Conn) : Option Error × Conn :=
  let count := countTables c [m.vulnerabilitiesTableName, m.advisoryTableName,
    m.dataSourceTableName]
  if count = 3 then
    execAll Backend.sqlite
      [Sqlite.rebuild m.vulnerabilitiesTableName
         [⟨"id", "INTEGER", "PRIMARY KEY AUTOINCREMENT"⟩,
          ⟨"vulnerability_id", "TEXT", ""⟩,
          ⟨"value", "TEXT", ""⟩,
          ⟨"created_at", "TIMESTAMP", ""⟩],
       Sqlite.rebuild m.advisoryTableName
         [⟨"id", "INTEGER", "PRIMARY KEY AUTOINCREMENT"⟩,
          ⟨"vulnerability_id", "TEXT", ""⟩,
          ⟨"platform", "TEXT", ""⟩,
          ⟨"segment", "TEXT", ""⟩,
          ⟨"package", "TEXT", ""⟩,
          ⟨"value", "TEXT", ""⟩,
          ⟨"created_at", "TIMESTAMP", ""⟩],
       Sqlite.rebuild m.dataSourceTableName
         [⟨"id", "INTEGER", "PRIMARY KEY AUTOINCREMENT"⟩,
          ⟨"source_key", "TEXT", ""⟩,
          ⟨"source_id", "TEXT", ""⟩,
          ⟨"source_name", "TEXT", ""⟩,
          ⟨"source_url", "TEXT", ""⟩,
          ⟨"created_at", "TIMESTAMP", ""⟩]] c
  else if count = 1 then (some "invalid table schema", c)
  else Sqlite.createTables m c

/-- Go `Migrate` of the driver for a backend. -/
def Migrate (backend : Backend) (m : Names) (c : Conn) : Option Error × Conn :=
  match backend with
  | Backend.mysql => Mysql.Migrate m c
  | Backend.postgres => Postgres.Migrate m c
  | Backend.sqlite => Sqlite.Migrate m c

/-- Table names for the examples. -/
def exampleNames : Names := ⟨"vulnerabilities", "vulnerability_advisories", "data_sources"⟩

/-- A destination with no table, and nothing sent yet. -/
def emptyConn : Conn := ⟨⟨[], []⟩, []⟩

/-- The destination a first `Migrate` leaves, with one table removed and
nothing sent yet: two of the three tables exist. -/
def twoTableConn (backend : Backend) (missing : String) : Conn :=
  ⟨⟨(Migrate backend exampleNames emptyConn).2.db.tables.filter fun t => t.name != missing,
    []⟩, []⟩

/-- The statements sent so far, one by one. -/
def Conn.statements (c : Conn) : List Stmt := c.issued.flatten

/-- The label parser as the specification words it: the last token becomes
the segment when it consists only of digits or is the word `edge`. -/
def parseAsSpecified (s : String) : String × String :=
  let tokens := Split s ' '
  if 1 < tokens.length then
    let last := tokens.getLastD ""
    if last.data.all Re.isDigit || last == "edge" then (Join tokens.dropLast ' ', last)
    else (s, "")
  else (s, "")

/-! ## The shape of the events of a refresh -/

/-- A batch a driver can take: not empty, every record of `width` fields. -/
def goodBatch (width : Nat) (b : Batch) : Prop := b ≠ [] ∧ ∀ t ∈ b, t.length = width

/-- An event of the vulnerability walk: an `InsertVuln` call on a good batch. -/
def vulnEvent (e : Event) : Prop := ∃ b, e = Event.call (Call.InsertVuln b) ∧ goodBatch 2 b

/-- An event of the data-source walk: an `InsertDataSource` call on a good
batch. -/
def dataSourceEvent (e : Event) : Prop :=
  ∃ b, e = Event.call (Call.InsertDataSource b) ∧ goodBatch 2 b

/-- An event of the nested walk: its log line, or an `InsertVulnAdvisory` call
on a good batch. -/
def advisoryEvent (e : Event) : Prop :=
  (∃ s, e = Event.writing s) ∨ ∃ b, e = Event.call (Call.InsertVulnAdvisory b) ∧ goodBatch 5 b

/-- The events of a refresh, however far it gets: `TruncateVulns` and the
vulnerability inserts; then, if reached, `TruncateDataSource` and the
data-source inserts; then, if reached, `TruncateVulnAdvisories` and the events
of the nested walk. -/
def refreshShape (trace : List Event) : Prop :=
  ∃ V D A : List Event,
    trace = Event.call Call.TruncateVulns :: (V ++ (D ++ A)) ∧
    (∀ e ∈ V, vulnEvent e) ∧
    (D = [] ∨ ∃ D1, D = Event.call Call.TruncateDataSource :: D1 ∧ ∀ e ∈ D1, dataSourceEvent e) ∧
    (A = [] ∨ ∃ A1, A = Event.call Call.TruncateVulnAdvisories :: A1 ∧
      ∀ e ∈ A1, advisoryEvent e)

/-! ## The insert operations of the drivers -/

/-- A value bound to a placeholder, Go `interface{}`: here a byte slice or a
string. -/
inductive Value where
  | bytes : Bytes → Value
  | str : String → Value
  deriving DecidableEq

/-- What an insert operation does on the connection: `db.Prepare(query)` and
`ins.Exec(values...)` on the prepared statement. -/
inductive SqlOp where
  | prepare : String → SqlOp
  | exec : String → List Value → SqlOp
  deriving DecidableEq

/-- The answers of the destination to `Prepare` and to `Exec`. -/
structure SqlDB where
  Prepare : String → Option Error
  Exec : String → List Value → Option Error

/-- A call of an insert operation: how it ends and what it did. -/
structure InsertRun where
  outcome : Outcome
  ops : List SqlOp
  deriving DecidableEq

/-- How gathering the values of a batch ends: a panic (index out of range), a
decoding error, or the values. -/
inductive Gathered where
  | panic : Gathered
  | error : Error → Gathered
  | values : List Value → Gathered

/-- The string `s` repeated `n` times. -/
def repeatString (s : String) : Nat → String
  | 0 => ""
  | n + 1 => s ++ repeatString s n

/-- Go `strings.Repeat(s, count)`; `none` is the panic on a negative count. -/
def Repeat (s : String) (count : Int) : Option String :=
  if count < 0 then none else some (repeatString s count.toNat)

/-- The part shared by the insert operations once the query is built: prepare
the statement, gather the values, execute. -/
def prepareAndExec (db : SqlDB) (query : String) (gathered : Gathered) : InsertRun :=
  match db.Prepare query with
  | some err => ⟨Outcome.returned (some err), [SqlOp.prepare query]⟩
  | none =>
    match gathered with
    | Gathered.panic => ⟨Outcome.panic, [SqlOp.prepare query]⟩
    | Gathered.error err => ⟨Outcome.returned (some err), [SqlOp.prepare query]⟩
    | Gathered.values values =>
      ⟨Outcome.returned (db.Exec query values), [SqlOp.prepare query, SqlOp.exec query values]⟩

/-- The loop `for _, vuln := range vulns` of `InsertVuln`, appending `vuln[0]`
and `vuln[1]`. -/
def vulnValues : Batch → Gathered
  | [] => Gathered.values []
  | vuln :: rest =>
    match vuln[0]?, vuln[1]? with
    | some v0, some v1 =>
      match vulnValues rest with
      | Gathered.values values => Gathered.values (Value.bytes v0 :: Value.bytes v1 :: values)
      | other => other
    | _, _ => Gathered.panic

/-- The loop `for _, secAdvisory := range secAdvisories` of
`InsertVulnAdvisory`, appending `secAdvisory[0]` to `secAdvisory[4]`. -/
def advisoryValues : Batch → Gathered
  | [] => Gathered.values []
  | secAdvisory :: rest =>
    match secAdvisory[0]?, secAdvisory[1]?, secAdvisory[2]?, secAdvisory[3]?,
        secAdvisory[4]? with
    | some v0, some v1, some v2, some v3, some v4 =>
      match advisoryValues rest with
      | Gathered.values values =>
        Gathered.values (Value.bytes v0 :: Value.bytes v1 :: Value.bytes v2 :: Value.bytes v3 ::
          Value.bytes v4 :: values)
      | other => other
    | _, _, _, _, _ => Gathered.panic

/-- The type `Item` local to `InsertDataSource`. -/
structure SourceItem where
  ID : String
  Name : String
  URL : String
  deriving DecidableEq

/-- What a JSON document holds under the keys `ID`, `Name` and `URL`; `none`
for a key the document does not have. -/
structure Document where
  ID : Option String
  Name : Option String
  URL : Option String

/-- Go `json.Unmarshal(data, &item)`, over a decoder `decode` of the bytes:
the fields the document has are stored, the others are left as they are. -/
def Unmarshal (decode : Bytes → Except Error Document) (data : Bytes) (item : SourceItem) :
    Except Error SourceItem :=
  match decode data with
  | Except.error err => Except.error err
  | Except.ok doc => Except.ok ⟨doc.ID.getD item.ID, doc.Name.getD item.Name, doc.URL.getD item.URL⟩

/-- The loop `for _, dataSource := range dataSources` of `InsertDataSource`:
decode `dataSource[1]` into a fresh `item`, append `dataSource[0]`, `item.ID`,
`item.Name`, `item.URL`. -/
def dataSourceValues (decode : Bytes → Except Error Document) : Batch → Gathered
  | [] => Gathered.values []
  | dataSource :: rest =>
    match dataSource[1]? with
    | none => Gathered.panic
    | some doc =>
      match Unmarshal decode doc ⟨"", "", ""⟩ with
      | Except.error err => Gathered.error err
      | Except.ok item =>
        match dataSource[0]? with
        | none => Gathered.panic
        | some key =>
          match dataSourceValues decode rest with
          | Gathered.values values =>
            Gathered.values (Value.bytes key :: Value.str item.ID :: Value.str item.Name ::
              Value.str item.URL :: values)
          | other => other

/-- Go `(*Mysql).InsertVuln`. -/
def Mysql.InsertVuln (m : Names) (db : SqlDB) (vulns : Batch) : InsertRun :=
  match Repeat ", (?,?)" ((vulns.length : Int) - 1) with
  | none => ⟨Outcome.panic, []⟩
  | some rest =>
    prepareAndExec db
      ("INSERT INTO " ++ m.vulnerabilitiesTableName ++ "(vulnerability_id,value) VALUES (?,?)" ++
        rest)
      (vulnValues vulns)

/-- Go `(*Mysql).InsertVulnAdvisory`. -/
def Mysql.InsertVulnAdvisory (m : Names) (db : SqlDB) (secAdvisories : Batch) : InsertRun :=
  match Repeat ", (?,?,?,?,?)" ((secAdvisories.length : Int) - 1) with
  | none => ⟨Outcome.panic, []⟩
  | some rest =>
    prepareAndExec db
      ("INSERT INTO " ++ m.advisoryTableName ++
        "(vulnerability_id,platform,segment,package,value) VALUES (?,?,?,?,?)" ++ rest)
      (advisoryValues secAdvisories)

/-- Go `(*Mysql).InsertDataSource`. -/
def Mysql.InsertDataSource (m : Names) (db : SqlDB) (decode : Bytes → Except Error Document)
    (dataSources : Batch) : InsertRun :=
  match Repeat ", (?,?,?,?)" ((dataSources.length : Int) - 1) with
  | none => ⟨Outcome.panic, []⟩
  | some rest =>
    prepareAndExec db
      ("INSERT INTO " ++ m.dataSourceTableName ++
        "(source_key,source_id,source_name,source_url) VALUES (?,?,?,?)" ++ rest)
      (dataSourceValues decode dataSources)

/-- Go `(*Postgres).InsertVuln`: the groups `($1, $2)`, `($3, $4)`, ... joined
by commas. -/
def Postgres.InsertVuln (m : Names) (db : SqlDB) (vulns : Batch) : InsertRun :=
  let iv := (List.range vulns.length).map fun i =>
    "($" ++ toString (i * 2 + 1) ++ ", $" ++ toString (i * 2 + 2) ++ ")"
  prepareAndExec db
    ("INSERT INTO " ++ m.vulnerabilitiesTableName ++ "(vulnerability_id,value) VALUES " ++
      Join iv ',')
    (vulnValues vulns)

/-- Go `(*Postgres).InsertVulnAdvisory`. -/
def Postgres.InsertVulnAdvisory (m : Names) (db : SqlDB) (secAdvisories : Batch) : InsertRun :=
  let iv := (List.range secAdvisories.length).map fun i =>
    "($" ++ toString (i * 5 + 1) ++ ", $" ++ toString (i * 5 + 2) ++ ", $" ++
      toString (i * 5 + 3) ++ ", $" ++ toString (i * 5 + 4) ++ ", $" ++ toString (i * 5 + 5) ++ ")"
  prepareAndExec db
    ("INSERT INTO " ++ m.advisoryTableName ++
      "(vulnerability_id,platform,segment,package,value) VALUES " ++ Join iv ',')
    (advisoryValues secAdvisories)

/-- Go `(*Postgres).InsertDataSource`. -/
def Postgres.InsertDataSource (m : Names) (db : SqlDB) (decode : Bytes → Except Error Document)
    (dataSources : Batch) : InsertRun :=
  let iv := (List.range dataSources.length).map fun i =>
    "($" ++ toString (i * 4 + 1) ++ ", $" ++ toString (i * 4 + 2) ++ ", $" ++
      toString (i * 4 + 3) ++ ", $" ++ toString (i * 4 + 4) ++ ")"
  prepareAndExec db
    ("INSERT INTO " ++ m.dataSourceTableName ++
      "(source_key,source_id,source_name,source_url) VALUES " ++ Join iv ',')
    (dataSourceValues decode dataSources)

/-- Go `(*Sqlite).InsertVuln`, the same text as `(*Postgres).InsertVuln`. -/
def Sqlite.InsertVuln (m : Names) (db : SqlDB) (vulns : Batch) : InsertRun :=
  Postgres.InsertVuln m db vulns

/-- Go `(*Sqlite).InsertVulnAdvisory`, the same text as
`(*Postgres).InsertVulnAdvisory`. -/
def Sqlite.InsertVulnAdvisory (m : Names) (db : SqlDB) (secAdvisories : Batch) : InsertRun :=
  Postgres.InsertVulnAdvisory m db secAdvisories

/-- Go `(*Sqlite).InsertDataSource`, the same text as
`(*Postgres).InsertDataSource`. -/
def Sqlite.InsertDataSource (m : Names) (db : SqlDB) (decode : Bytes → Except Error Document)
    (dataSources : Batch) : InsertRun :=
  Postgres.InsertDataSource m db decode dataSources

/-- Go `InsertVuln` of the driver for a backend. -/
def InsertVuln (backend : Backend) (m : Names) (db : SqlDB) (vulns : Batch) : InsertRun :=
  match backend with
  | Backend.mysql => Mysql.InsertVuln m db vulns
  | Backend.postgres => Postgres.InsertVuln m db vulns
  | Backend.sqlite => Sqlite.InsertVuln m db vulns

/-- Go `InsertVulnAdvisory` of the driver for a backend. -/
def InsertVulnAdvisory (backend : Backend) (m : Names) (db : SqlDB) (secAdvisories : Batch) :
    InsertRun :=
  match backend with
  | Backend.mysql => Mysql.InsertVulnAdvisory m db secAdvisories
  | Backend.postgres => Postgres.InsertVulnAdvisory m db secAdvisories
  | Backend.sqlite => Sqlite.InsertVulnAdvisory m db secAdvisories

/-- Go `InsertDataSource` of the driver for a backend. -/
def InsertDataSource (backend : Backend) (m : Names) (db : SqlDB)
    (decode : Bytes → Except Error Document) (dataSources : Batch) : InsertRun :=
  match backend with
  | Backend.mysql => Mysql.InsertDataSource m db decode dataSources
  | Backend.postgres => Postgres.InsertDataSource m db decode dataSources
  | Backend.sqlite => Sqlite.InsertDataSource m db decode dataSources

/-- A destination that accepts every statement. -/
def okSqlDB : SqlDB := ⟨fun _ => none, fun _ _ => none⟩

/-! ## The statement and the values an insert is expected to give -/

/-- The placeholder of the value at position `k` (from 0): `?` in MySQL, `$k+1`
in PostgreSQL and SQLite. -/
def placeholder (backend : Backend) (k : Nat) : String :=
  match backend with
  | Backend.mysql => "?"
  | _ => "$" ++ toString (k + 1)

/-- The strings put in a row with `sep` between neighbours. -/
def joinWith (sep : String) : List String → String
  | [] => ""
  | [x] => x
  | x :: y :: rest => x ++ sep ++ joinWith sep (y :: rest)

/-- The placeholders of `n` records of `w` fields: one group per record, in
row-major order. -/
def placeholderGroups (backend : Backend) (n w : Nat) : List (List String) :=
  (List.range n).map fun i => (List.range w).map fun j => placeholder backend (i * w + j)

/-- The groups as they stand in the statement: `(?,?), (?,?)` in MySQL,
`($1, $2),($3, $4)` in PostgreSQL and SQLite. -/
def renderGroups (backend : Backend) (groups : List (List String)) : String :=
  match backend with
  | Backend.mysql => joinWith ", " (groups.map fun g => "(" ++ joinWith "," g ++ ")")
  | _ => joinWith "," (groups.map fun g => "(" ++ joinWith ", " g ++ ")")

/-- The one `INSERT` statement for `n` records of `w` fields. -/
def insertQuery (backend : Backend) (table columns : String) (n w : Nat) : String :=
  "INSERT INTO " ++ table ++ "(" ++ columns ++ ") VALUES " ++
    renderGroups backend (placeholderGroups backend n w)

/-- The values of a batch in row-major order: field `j` of record `i` at
position `i * w + j`. -/
def boundValues (b : Batch) : List Value := b.flatten.map Value.bytes

/-- The document of a data-source record, as far as it decodes. -/
def docOf (decode : Bytes → Except Error Document) (t : Tuple) : Document :=
  match decode (t.getD 1 none) with
  | Except.ok doc => doc
  | Except.error _ => ⟨none, none, none⟩

/-- The values expected for one data-source record: source key, ID, Name, URL,
a field the document lacks being the empty string. -/
def boundRow (decode : Bytes → Except Error Document) (t : Tuple) : List Value :=
  [Value.bytes (t.getD 0 none), Value.str ((docOf decode t).ID.getD ""),
   Value.str ((docOf decode t).Name.getD ""), Value.str ((docOf decode t).URL.getD "")]

/-- What is expected of an insert of the batch `b` of records of `w` fields:
one statement is prepared and, unless preparing fails, executed once; it has one
group of `w` placeholders per record; as many values are bound as there are
fields, field `j` of record `i` at position `i * w + j`; and in PostgreSQL and
SQLite the placeholder at that position is `$(i*w+j+1)`. -/
def insertsRowMajor (backend : Backend) (table columns : String) (w : Nat) (db : SqlDB)
    (b : Batch) (run : InsertRun) : Prop :=
  run.ops =
    SqlOp.prepare (insertQuery backend table columns b.length w) ::
      (match db.Prepare (insertQuery backend table columns b.length w) with
        | some _ => []
        | none => [SqlOp.exec (insertQuery backend table columns b.length w) (boundValues b)]) ∧
  (placeholderGroups backend b.length w).length = b.length ∧
  (∀ g ∈ placeholderGroups backend b.length w, g.length = w) ∧
  (boundValues b).length = b.length * w ∧
  ∀ i j : Nat, i < b.length → j < w →
    (boundValues b)[i * w + j]? = ((b[i]?).bind fun t => t[j]?).map Value.bytes ∧
    (backend ≠ Backend.mysql →
      ((placeholderGroups backend b.length w)[i]?).bind (fun g => g[j]?) =
        some ("$" ++ toString (i * w + j + 1)))

/-- A decoder for the examples: one document with the key `ID` only, every
other input refused. -/
def exampleDecode (data : Bytes) : Except Error Document :=
  if data = some "\x7b\"ID\":\"alpine\"\x7d" then Except.ok ⟨some "alpine", none, none⟩
  else Except.error "invalid character"

/-! ## The truncate operations of the sqlite driver -/

/-- Go `(*Sqlite).TruncateVulns`: drop the table, then create it again. -/
def Sqlite.TruncateVulns (m : Names) (c : Conn) : Option Error × Conn :=
  match Exec Backend.sqlite [Stmt.dropTable true m.vulnerabilitiesTableName] c with
  | (some e, c1) => (some e, c1)
  | (none, c1) => Sqlite.createVulnerabilitiesTable m c1

/-- Go `(*Sqlite).TruncateVulnAdvisories`. -/
def Sqlite.TruncateVulnAdvisories (m : Names) (c : Conn) : Option Error × Conn :=
  match Exec Backend.sqlite [Stmt.dropTable true m.advisoryTableName] c with
  | (some e, c1) => (some e, c1)
  | (none, c1) => Sqlite.createAdvisoryTable m c1

/-- Go `(*Sqlite).TruncateDataSource`. -/
def Sqlite.TruncateDataSource (m : Names) (c : Conn) : Option Error × Conn :=
  match Exec Backend.sqlite [Stmt.dropTable true m.dataSourceTableName] c with
  | (some e, c1) => (some e, c1)
  | (none, c1) => Sqlite.createDataSourceTable m c1

/-- The table of this name in the schema. -/
def DB.table (db : DB) (name : String) : Option Table :=
  db.tables.find? fun t => t.name == name

/-- The sqlite destination after `Migrate` on a destination with no table
(full create). -/
def sqliteCreated : Conn := (Sqlite.Migrate exampleNames emptyConn).2

/-- The sqlite destination after a second `Migrate` (three tables found, rebuild
branch). -/
def sqliteRebuilt : Conn := (Sqlite.Migrate exampleNames sqliteCreated).2

/-- A driver whose calls fail, with the same error, exactly on the calls that
`p` picks. -/
def failOn (p : Call → Bool) : Driver Unit :=
  ⟨fun c _ => (if p c then some "connection lost" else none, ())⟩

/-! ## The rows of the advisory table, and drivers to run a refresh on -/

/-- The column list of the statement of `InsertVulnAdvisory`,
`INSERT INTO %s(vulnerability_id,platform,segment,package,value)`, column by
column (see `InsertVulnAdvisory_ops` for the statement the driver builds). -/
def advisoryColumns : List String :=
  ["vulnerability_id", "platform", "segment", "package", "value"]

/-- The rows expected from a source bucket, each value under its column. -/
def advisoryRows (source : String) (b : Bucket) : List (List (String × Value)) :=
  b.entries.flatMap fun p =>
    match p.2 with
    | Item.value _ => []
    | Item.bucket es =>
      es.map fun q =>
        [("vulnerability_id", Value.bytes (some q.1)),
         ("platform", Value.bytes (some (parsePlatformAndSegment source).1)),
         ("segment", Value.bytes (some (parsePlatformAndSegment source).2)),
         ("package", Value.bytes (some p.1)),
         ("value", Value.bytes q.2)]

/-- The error an insert operation hands back; a panic, which no batch of a
refresh causes, is shown as an error. -/
def InsertRun.error (r : InsertRun) : Option Error :=
  match r.outcome with
  | Outcome.returned e => e
  | Outcome.fatal msg => some msg
  | Outcome.panic => some "panic"

/-- A decoder that refuses a `nil` document as `json.Unmarshal` does. -/
def decodeNil (data : Bytes) : Except Error Document :=
  match data with
  | none => Except.error "unexpected end of JSON input"
  | some doc => exampleDecode (some doc)

/-- The driver of a backend on a destination that accepts every statement:
the truncate operations succeed, the insert operations answer as the insert
operations of the backend do. -/
def backendDriver (backend : Backend) (m : Names) (decode : Bytes → Except Error Document) :
    Driver Unit :=
  ⟨fun c _ =>
    (match c with
      | Call.InsertVuln b => (InsertVuln backend m okSqlDB b).error
      | Call.InsertDataSource b => (InsertDataSource backend m okSqlDB decode b).error
      | Call.InsertVulnAdvisory b => (InsertVulnAdvisory backend m okSqlDB b).error
      | _ => none, ())⟩

/-! ## Lemmas: the expression `\d+` -/

theorem prefixMatch_of_nullable (r : Re) (cs : List Char) (h : Re.nullable r = true) :
    Re.prefixMatch r cs = true := by
  cases cs <;> simp [Re.prefixMatch, h]

theorem prefixMatch_cat_empty (r : Re) (cs : List Char) :
    Re.prefixMatch (Re.cat Re.empty r) cs = false := by
  induction cs with
  | nil => simp [Re.prefixMatch, Re.nullable]
  | cons c cs ih => simpa [Re.prefixMatch, Re.nullable, Re.deriv] using ih

theorem prefixMatch_plus_digit (c : Char) (cs : List Char) :
    Re.prefixMatch (Re.plus Re.digit) (c :: cs) = Re.isDigit c := by
  by_cases h : Re.isDigit c = true
  · simp [Re.plus, Re.prefixMatch, Re.nullable, Re.deriv, h,
      prefixMatch_of_nullable (Re.cat Re.eps (Re.star Re.digit)) cs (by simp [Re.nullable])]
  · simp [Re.plus, Re.prefixMatch, Re.nullable, Re.deriv, h, prefixMatch_cat_empty]

theorem search_plus_digit (cs : List Char) :
    Re.search (Re.plus Re.digit) cs = cs.any Re.isDigit := by
  induction cs with
  | nil => simp [Re.search, Re.prefixMatch, Re.plus, Re.nullable]
  | cons c cs ih => rw [Re.search, prefixMatch_plus_digit, ih, List.any_cons]

theorem numRe_MatchString (t : String) : numRe.MatchString t = t.data.any Re.isDigit := by
  simp [numRe, Regexp.ofRe, search_plus_digit]

/-! ## Lemmas: `lo.Chunk` -/

theorem chunkList_nil {α : Type} (size : Nat) : chunkList ([] : List α) size = [] := by
  simp [chunkList]

theorem chunksNum_step (L size : Nat) (hs : 0 < size) (hL : 0 < L) :
    L / size + (if L % size ≠ 0 then 1 else 0) =
      ((L - size) / size + (if (L - size) % size ≠ 0 then 1 else 0)) + 1 := by
  rcases Nat.lt_or_ge L size with h | h
  · have h0 : L - size = 0 := by omega
    have h1 : L / size = 0 := Nat.div_eq_of_lt h
    have h2 : L % size = L := Nat.mod_eq_of_lt h
    have h3 : L ≠ 0 := by omega
    simp [h0, h1, h2, h3]
  · have h1 : L / size = (L - size) / size + 1 := by
      rw [Nat.div_eq_sub_div hs h]
    have h2 : L % size = (L - size) % size := by
      rw [Nat.mod_eq_sub_mod h]
    rw [h1, h2]; omega

theorem chunkList_cons {α : Type} (l : List α) (size : Nat) (hs : 0 < size) (hl : l ≠ []) :
    chunkList l size = l.take size :: chunkList (l.drop size) size := by
  have hL : 0 < l.length := List.length_pos.mpr hl
  unfold chunkList
  simp only [List.length_drop]
  rw [chunksNum_step l.length size hs hL, List.range_succ_eq_map, List.map_cons, List.map_map]
  congr 1
  · rcases Nat.lt_or_ge l.length size with h | h
    · have h' : l.length < (0 + 1) * size := by simpa using h
      simp only [h', if_true, Nat.zero_mul, List.drop_zero]
      rw [List.take_of_length_le (Nat.le_refl _), List.take_of_length_le (Nat.le_of_lt h)]
    · have h' : ¬ l.length < (0 + 1) * size := by simpa using h
      have h'' : ¬ l.length < size := by omega
      simp [h', h'']
  · apply List.map_congr_left
    intro i _
    simp only [Function.comp, Nat.succ_eq_add_one]
    have e1 : (i + 1 + 1) * size = (i + 1) * size + size := by ring
    have e2 : (i + 1) * size = size + i * size := by ring
    by_cases h : l.length < (i + 1 + 1) * size
    · have h' : l.length - size < (i + 1) * size := by omega
      rw [if_pos h, if_pos h', e2, ← List.drop_drop, List.drop_take]
    · have h' : ¬ l.length - size < (i + 1) * size := by omega
      rw [if_neg h, if_neg h', e2, ← List.drop_drop, List.drop_take]
      congr 2
      rw [e1, e2]
      omega

theorem chunkList_join {α : Type} (size : Nat) (hs : 0 < size) :
    ∀ (n : Nat) (l : List α), l.length ≤ n → (chunkList l size).flatten = l := by
  intro n
  induction n with
  | zero =>
    intro l h
    have : l = [] := List.length_eq_zero.mp (Nat.le_zero.mp h)
    subst this
    simp [chunkList_nil]
  | succ n ih =>
    intro l h
    by_cases hl : l = []
    · subst hl; simp [chunkList_nil]
    · have hL : 0 < l.length := List.length_pos.mpr hl
      rw [chunkList_cons l size hs hl, List.flatten_cons,
        ih (l.drop size) (by rw [List.length_drop]; omega), List.take_append_drop]

theorem chunkList_mem {α : Type} (size : Nat) (hs : 0 < size) :
    ∀ (n : Nat) (l : List α), l.length ≤ n →
      ∀ b ∈ chunkList l size, b ≠ [] ∧ b.length ≤ size := by
  intro n
  induction n with
  | zero =>
    intro l h b hb
    have : l = [] := List.length_eq_zero.mp (Nat.le_zero.mp h)
    subst this
    simp [chunkList_nil] at hb
  | succ n ih =>
    intro l h b hb
    by_cases hl : l = []
    · subst hl; simp [chunkList_nil] at hb
    · have hL : 0 < l.length := List.length_pos.mpr hl
      rw [chunkList_cons l size hs hl, List.mem_cons] at hb
      rcases hb with hb | hb
      · subst hb
        refine ⟨?_, by rw [List.length_take]; omega⟩
        intro h0
        rcases List.take_eq_nil_iff.mp h0 with h1 | h1
        · omega
        · exact hl h1
      · exact ih (l.drop size) (by rw [List.length_drop]; omega) b hb

theorem chunkList_length {α : Type} (l : List α) (size : Nat) (hs : 0 < size) :
    (chunkList l size).length = (l.length + size - 1) / size := by
  simp only [chunkList, List.length_map, List.length_range]
  have hdm := Nat.div_add_mod l.length size
  have hlt := Nat.mod_lt l.length hs
  by_cases h : l.length % size = 0
  · have e : l.length + size - 1 = size - 1 + size * (l.length / size) := by omega
    have h3 : (size - 1) / size = 0 := Nat.div_eq_of_lt (by omega)
    rw [e, Nat.add_mul_div_left _ _ hs, h3]
    simp [h]
  · have e : l.length + size - 1 = (l.length % size - 1) + size * (l.length / size + 1) := by
      rw [Nat.mul_add]; omega
    have h3 : (l.length % size - 1) / size = 0 := Nat.div_eq_of_lt (by omega)
    rw [e, Nat.add_mul_div_left _ _ hs, h3]
    simp [h]

/-! ## Lemmas: the flat walk -/

theorem nextLoop_eq (n : Nat) (E : List (String × Bytes)) :
    ∀ (R : List (String × Bytes)) (acc : Batch),
      nextLoop n ⟨E, R⟩ acc =
        (acc ++ (R.take n).map pairTuple, ⟨E, R.drop n⟩, decide (R.length < n)) := by
  induction n with
  | zero => intro R acc; simp [nextLoop]
  | succ n ih =>
    intro R acc
    cases R with
    | nil => simp [nextLoop, Cursor.Next]
    | cons p t =>
      obtain ⟨k, v⟩ := p
      simp [nextLoop, Cursor.Next, ih, pairTuple]

theorem flatLoop_started {σ : Type} (chunk : Nat) (hc : 0 < chunk) (d : Driver σ)
    (ins : Batch → Call) (E : List (String × Bytes)) :
    ∀ (fuel : Nat) (R : List (String × Bytes)) (st : Run σ), R.length < fuel →
      flatLoop chunk d ins fuel true ⟨E, R⟩ st =
        some (insertSeq d ins (chunkList (R.map pairTuple) chunk) st) := by
  intro fuel
  induction fuel with
  | zero => intro R st h; omega
  | succ fuel ih =>
    intro R st h
    by_cases hR : R = []
    · subst hR
      simp [flatLoop, nextLoop_eq, chunkList_nil, insertSeq, hc]
    · have hne : R.map pairTuple ≠ [] := by simpa using hR
      have hpos : 0 < R.length := List.length_pos.mpr hR
      have htake : 0 < (List.take chunk R).length := by
        rw [List.length_take]; omega
      rw [chunkList_cons _ chunk hc hne]
      simp only [flatLoop, nextLoop_eq, if_true, List.nil_append, List.length_map, htake,
        insertSeq, ← List.map_take, ← List.map_drop]
      cases hinv : (invoke d (ins (List.map pairTuple (List.take chunk R))) st).1 with
      | some e => simp
      | none =>
        simp only []
        by_cases hend : R.length < chunk
        · have hdrop : List.drop chunk R = [] := List.drop_eq_nil_of_le (Nat.le_of_lt hend)
          simp [hend, hdrop, chunkList_nil, insertSeq]
        · simp only [hend, decide_False, Bool.false_eq_true, if_false]
          exact ih (List.drop chunk R) _ (by rw [List.length_drop]; omega)

theorem flatLoop_eq {σ : Type} (chunk : Nat) (hc : 0 < chunk) (d : Driver σ)
    (ins : Batch → Call) (E R : List (String × Bytes)) (fuel : Nat) (st : Run σ)
    (hfuel : E.length < fuel) :
    flatLoop chunk d ins fuel false ⟨E, R⟩ st = some (insertSeq d ins (flatBatches chunk E) st) := by
  cases fuel with
  | zero => omega
  | succ fuel =>
    cases E with
    | nil =>
      simp [flatLoop, Cursor.First, nextLoop_eq, flatBatches, insertSeq, hc]
      cases hinv : (invoke d (ins [[none, none]]) st).1 <;> simp
    | cons p t =>
      obtain ⟨k, v⟩ := p
      simp only [flatLoop, Cursor.First, nextLoop_eq, flatBatches, insertSeq, pairTuple,
        Bool.false_eq_true, if_false, List.cons_append, List.nil_append, List.length_cons,
        Nat.zero_lt_succ, if_true]
      cases hinv : (invoke d (ins ([some k, v] :: List.map pairTuple (List.take chunk t))) st).1 with
      | some e => simp [pairTuple]
      | none =>
        by_cases hend : t.length < chunk
        · have hdrop : List.drop chunk t = [] := List.drop_eq_nil_of_le (Nat.le_of_lt hend)
          simp [hend, hdrop, chunkList_nil, insertSeq, pairTuple, hinv]
        · simp only [hend, decide_False, Bool.false_eq_true, if_false]
          have := flatLoop_started chunk hc d ins ((k, v) :: t) fuel (List.drop chunk t)
            (invoke d (ins ([some k, v] :: List.map pairTuple (List.take chunk t))) st).2
            (by rw [List.length_drop]; simp at hfuel; omega)
          simpa [pairTuple, hinv] using this

/-! ## Lemmas: a refresh on a driver that never fails -/

theorem invoke_ok {σ : Type} (d : Driver σ) (hd : d.neverFails) (c : Call) (st : Run σ) :
    (invoke d c st).1 = none ∧ (invoke d c st).2.trace = st.trace ++ [Event.call c] :=
  ⟨hd c st.db, rfl⟩

theorem insertSeq_ok {σ : Type} (d : Driver σ) (hd : d.neverFails) (ins : Batch → Call) :
    ∀ (bs : List Batch) (st : Run σ),
      (insertSeq d ins bs st).1 = none ∧
      (insertSeq d ins bs st).2.trace = st.trace ++ bs.map fun b => Event.call (ins b) := by
  intro bs
  induction bs with
  | nil => intro st; simp [insertSeq]
  | cons b rest ih =>
    intro st
    obtain ⟨h1, h2⟩ := invoke_ok d hd (ins b) st
    simp only [insertSeq, h1]
    obtain ⟨h3, h4⟩ := ih (invoke d (ins b) st).2
    exact ⟨h3, by rw [h4, h2]; simp⟩

theorem insertChunks_eq {σ : Type} (d : Driver σ) :
    ∀ (bs : List Batch) (st : Run σ),
      insertChunks d bs st = insertSeq d Call.InsertVulnAdvisory bs st := by
  intro bs
  induction bs with
  | nil => intro st; rfl
  | cons b rest ih =>
    intro st
    simp only [insertChunks, insertSeq]
    cases h : invoke d (Call.InsertVulnAdvisory b) st with
    | mk e st1 =>
      cases e with
      | none => simp [ih]
      | some e => simp

theorem walkSource_ok {σ : Type} (chunk : Nat) (hc : 0 < chunk) (d : Driver σ)
    (hd : d.neverFails) (sourceRe : List Regexp) (s : String) (b : Bucket) (st : Run σ) :
    (walkSource chunk d sourceRe s b st).1 = Outcome.returned none ∧
    (walkSource chunk d sourceRe s b st).2.trace =
      st.trace ++ walkEvents chunk sourceRe (s, b) := by
  unfold walkSource walkEvents
  by_cases h1 : s = vulnBucket
  · simp [h1]
  · by_cases h2 : (0 < sourceRe.length && !foundIn sourceRe s) = true
    · simp [h1, h2]
    · have hne : chunk ≠ 0 := by omega
      simp only [h1, h2, if_false, Chunk, hne, insertChunks_eq, Bucket.pairs]
      obtain ⟨h3, h4⟩ := insertSeq_ok d hd Call.InsertVulnAdvisory
        (chunkList (walkPackages s b b.newCursor.entries []) chunk)
        ⟨st.db, st.trace ++ [Event.writing s]⟩
      simp only [Bool.false_eq_true, if_false]
      exact ⟨by rw [h3], by rw [h4]; simp⟩

theorem forEach_ok {σ : Type} (chunk : Nat) (hc : 0 < chunk) (d : Driver σ)
    (hd : d.neverFails) (sourceRe : List Regexp) :
    ∀ (bs : List (String × Bucket)) (st : Run σ),
      (forEach (walkSource chunk d sourceRe) bs st).1 = Outcome.returned none ∧
      (forEach (walkSource chunk d sourceRe) bs st).2.trace =
        st.trace ++ bs.flatMap (walkEvents chunk sourceRe) := by
  intro bs
  induction bs with
  | nil => intro st; simp [forEach]
  | cons p rest ih =>
    intro st
    obtain ⟨s, b⟩ := p
    obtain ⟨h1, h2⟩ := walkSource_ok chunk hc d hd sourceRe s b st
    simp only [forEach]
    cases h : walkSource chunk d sourceRe s b st with
    | mk o st1 =>
      rw [h] at h1 h2
      simp only at h1 h2
      subst h1
      simp only []
      obtain ⟨h3, h4⟩ := ih st1
      exact ⟨h3, by rw [h4, h2]; simp⟩

theorem updateAdvisories_ok {σ : Type} (chunk : Nat) (hc : 0 < chunk) (d : Driver σ)
    (hd : d.neverFails) (Compile : String → Except Error Regexp) (tx : Tx)
    (targetSources : List String) (sourceRe : List Regexp)
    (hre : compileAll Compile targetSources = Except.ok sourceRe) (st : Run σ) :
    (updateAdvisories chunk d Compile tx targetSources st).1 = Outcome.returned none ∧
    (updateAdvisories chunk d Compile tx targetSources st).2.trace =
      st.trace ++ Event.call Call.TruncateVulnAdvisories ::
        tx.buckets.flatMap (walkEvents chunk sourceRe) := by
  obtain ⟨h1, h2⟩ := invoke_ok d hd Call.TruncateVulnAdvisories st
  obtain ⟨h3, h4⟩ := forEach_ok chunk hc d hd sourceRe tx.buckets
    (invoke d Call.TruncateVulnAdvisories st).2
  unfold updateAdvisories
  simp only [hre]
  cases h : invoke d Call.TruncateVulnAdvisories st with
  | mk e st1 =>
    rw [h] at h1 h2 h3 h4
    simp only at h1 h2 h3 h4
    subst h1
    exact ⟨h3, by rw [h4, h2]; simp⟩

/-! ## Lemmas: the advisory part issues advisory events only -/

theorem insertSeq_trace {σ : Type} (d : Driver σ) (ins : Batch → Call) :
    ∀ (bs : List Batch) (st : Run σ),
      ∃ ext, (insertSeq d ins bs st).2.trace = st.trace ++ ext ∧
        ∀ e ∈ ext, ∃ b ∈ bs, e = Event.call (ins b) := by
  intro bs
  induction bs with
  | nil => intro st; exact ⟨[], by simp [insertSeq]⟩
  | cons b rest ih =>
    intro st
    simp only [insertSeq]
    cases h : (invoke d (ins b) st).1 with
    | some e =>
      exact ⟨[Event.call (ins b)], rfl, by simp⟩
    | none =>
      obtain ⟨ext, h1, h2⟩ := ih (invoke d (ins b) st).2
      refine ⟨Event.call (ins b) :: ext, ?_, ?_⟩
      · simp only [h1]; simp [invoke]
      · intro e he
        rcases List.mem_cons.mp he with he | he
        · exact ⟨b, by simp, he⟩
        · obtain ⟨b', hb', hb⟩ := h2 e he
          exact ⟨b', List.mem_cons_of_mem _ hb', hb⟩

theorem walkSource_trace {σ : Type} (chunk : Nat) (d : Driver σ) (sourceRe : List Regexp)
    (s : String) (b : Bucket) (st : Run σ) :
    ∃ ext, (walkSource chunk d sourceRe s b st).2.trace = st.trace ++ ext ∧
      ∀ e ∈ ext, e.isAdvisory = true := by
  unfold walkSource
  by_cases h1 : s = vulnBucket
  · exact ⟨[], by simp [h1]⟩
  · by_cases h2 : (0 < sourceRe.length && !foundIn sourceRe s) = true
    · exact ⟨[], by simp [h1, h2]⟩
    · simp only [h1, h2, if_false, Bool.false_eq_true]
      cases hch : Chunk (walkPackages s b b.newCursor.entries []) chunk with
      | none => exact ⟨[Event.writing s], by simp [Event.isAdvisory]⟩
      | some chunked =>
        obtain ⟨ext, h3, h4⟩ := insertSeq_trace d Call.InsertVulnAdvisory chunked
          ⟨st.db, st.trace ++ [Event.writing s]⟩
        refine ⟨Event.writing s :: ext, ?_, ?_⟩
        · simp only [insertChunks_eq, h3]; simp
        · intro e he
          rcases List.mem_cons.mp he with he | he
          · subst he; rfl
          · obtain ⟨b', _, hb⟩ := h4 e he
            subst hb; rfl

theorem forEach_trace {σ : Type} (chunk : Nat) (d : Driver σ) (sourceRe : List Regexp) :
    ∀ (bs : List (String × Bucket)) (st : Run σ),
      ∃ ext, (forEach (walkSource chunk d sourceRe) bs st).2.trace = st.trace ++ ext ∧
        ∀ e ∈ ext, e.isAdvisory = true := by
  intro bs
  induction bs with
  | nil => intro st; exact ⟨[], by simp [forEach]⟩
  | cons p rest ih =>
    intro st
    obtain ⟨s, b⟩ := p
    obtain ⟨ext1, h1, h2⟩ := walkSource_trace chunk d sourceRe s b st
    simp only [forEach]
    cases h : walkSource chunk d sourceRe s b st with
    | mk o st1 =>
      rw [h] at h1
      simp only at h1
      have hstop : ∃ ext, st1.trace = st.trace ++ ext ∧ ∀ e ∈ ext, e.isAdvisory = true :=
        ⟨ext1, h1, h2⟩
      cases o with
      | returned r =>
        cases r with
        | none =>
          obtain ⟨ext2, h3, h4⟩ := ih st1
          refine ⟨ext1 ++ ext2, ?_, ?_⟩
          · simp only [h3, h1, List.append_assoc]
          · intro e he
            rcases List.mem_append.mp he with he | he
            · exact h2 e he
            · exact h4 e he
        | some e => exact hstop
      | fatal m => exact hstop
      | panic => exact hstop

theorem updateAdvisories_trace {σ : Type} (chunk : Nat) (d : Driver σ)
    (Compile : String → Except Error Regexp) (tx : Tx) (targetSources : List String)
    (st : Run σ) :
    ∃ ext, (updateAdvisories chunk d Compile tx targetSources st).2.trace = st.trace ++ ext ∧
      ∀ e ∈ ext, e.isAdvisory = true := by
  unfold updateAdvisories
  cases hre : compileAll Compile targetSources with
  | error e => exact ⟨[], by simp⟩
  | ok sourceRe =>
    simp only []
    cases h : invoke d Call.TruncateVulnAdvisories st with
    | mk e st1 =>
      have ht : st1.trace = st.trace ++ [Event.call Call.TruncateVulnAdvisories] := by
        have := congrArg (fun r => r.2.trace) h
        simpa [invoke] using this.symm
      cases e with
      | some e => exact ⟨[Event.call Call.TruncateVulnAdvisories], ht, by simp [Event.isAdvisory]⟩
      | none =>
        obtain ⟨ext, h3, h4⟩ := forEach_trace chunk d sourceRe tx.buckets st1
        refine ⟨Event.call Call.TruncateVulnAdvisories :: ext, ?_, ?_⟩
        · simp only [h3, ht]; simp
        · intro e he
          rcases List.mem_cons.mp he with he | he
          · subst he; rfl
          · exact h4 e he

theorem filterMap_eq_nil_of_advisory {β : Type} (f : Event → Option β)
    (hf : ∀ e, e.isAdvisory = true → f e = none) (ext : List Event)
    (h : ∀ e ∈ ext, e.isAdvisory = true) : ext.filterMap f = [] := by
  rw [List.filterMap_eq_nil_iff]
  intro e he
  exact hf e (h e he)

theorem vulnBatch_of_advisory (e : Event) (h : e.isAdvisory = true) : e.vulnBatch = none := by
  cases e with
  | call c => cases c <;> simp_all [Event.isAdvisory, Event.vulnBatch]
  | writing s => rfl

theorem dataSourceBatch_of_advisory (e : Event) (h : e.isAdvisory = true) :
    e.dataSourceBatch = none := by
  cases e with
  | call c => cases c <;> simp_all [Event.isAdvisory, Event.dataSourceBatch]
  | writing s => rfl

/-! ## Lemmas: the flat part of a refresh -/

theorem UpdateDBWith_flat {σ : Type} (chunk fuel : Nat) (hc : 0 < chunk) (d : Driver σ)
    (hd : d.neverFails) (Compile : String → Except Error Regexp) (tx : Tx)
    (targetSources : List String) (st : Run σ) (vb dsb : Bucket)
    (hv : tx.getBucket vulnBucket = some vb) (hds : tx.getBucket dataSourceBucket = some dsb)
    (hfv : vb.entries.length < fuel) (hfd : dsb.entries.length < fuel) :
    ∃ st3 : Run σ, st3.trace = st.trace ++ flatEvents chunk vb dsb ∧
      UpdateDBWith chunk fuel d Compile tx targetSources st =
        some (updateAdvisories chunk d Compile tx targetSources st3) := by
  obtain ⟨a1, a2⟩ := invoke_ok d hd Call.TruncateVulns st
  have hlv : vb.newCursor.entries.length < fuel := by simpa [Bucket.newCursor] using hfv
  have hld : dsb.newCursor.entries.length < fuel := by simpa [Bucket.newCursor] using hfd
  cases hi1 : invoke d Call.TruncateVulns st with
  | mk e1 st1 =>
    rw [hi1] at a1 a2
    simp only at a1 a2
    subst a1
    have hl1 : flatLoop chunk d Call.InsertVuln fuel false vb.newCursor st1 =
        some (insertSeq d Call.InsertVuln (flatBatches chunk vb.newCursor.entries) st1) :=
      flatLoop_eq chunk hc d Call.InsertVuln vb.newCursor.entries [] fuel st1 hlv
    obtain ⟨b1, b2⟩ := insertSeq_ok d hd Call.InsertVuln (flatBatches chunk vb.newCursor.entries) st1
    cases hs1 : insertSeq d Call.InsertVuln (flatBatches chunk vb.newCursor.entries) st1 with
    | mk e2 st2 =>
      rw [hs1] at b1 b2 hl1
      simp only at b1 b2
      subst b1
      obtain ⟨c1, c2⟩ := invoke_ok d hd Call.TruncateDataSource st2
      cases hi2 : invoke d Call.TruncateDataSource st2 with
      | mk e3 st3 =>
        rw [hi2] at c1 c2
        simp only at c1 c2
        subst c1
        have hl2 : flatLoop chunk d Call.InsertDataSource fuel false dsb.newCursor st3 =
            some (insertSeq d Call.InsertDataSource (flatBatches chunk dsb.newCursor.entries)
              st3) :=
          flatLoop_eq chunk hc d Call.InsertDataSource dsb.newCursor.entries [] fuel st3 hld
        obtain ⟨d1, d2⟩ := insertSeq_ok d hd Call.InsertDataSource
          (flatBatches chunk dsb.newCursor.entries) st3
        cases hs2 : insertSeq d Call.InsertDataSource (flatBatches chunk dsb.newCursor.entries) st3 with
        | mk e4 st4 =>
          rw [hs2] at d1 d2 hl2
          simp only at d1 d2
          subst d1
          refine ⟨st4, ?_, ?_⟩
          · rw [d2, c2, b2, a2]
            simp [flatEvents, Bucket.pairs]
          · simp only [UpdateDBWith, hi1, hv, hl1]
            simp only [updateDataSource, hi2, hds, hl2]

theorem UpdateDBWith_flat_batches {σ : Type} (chunk fuel : Nat) (hc : 0 < chunk) (d : Driver σ)
    (hd : d.neverFails) (Compile : String → Except Error Regexp) (tx : Tx)
    (targetSources : List String) (s0 : σ) (vb dsb : Bucket)
    (hv : tx.getBucket vulnBucket = some vb) (hds : tx.getBucket dataSourceBucket = some dsb)
    (hfv : vb.entries.length < fuel) (hfd : dsb.entries.length < fuel) :
    ∃ (o : Outcome) (st1 : Run σ),
      UpdateDBWith chunk fuel d Compile tx targetSources ⟨s0, []⟩ = some (o, st1) ∧
      vulnBatches st1.trace = flatBatches chunk vb.pairs ∧
      dataSourceBatches st1.trace = flatBatches chunk dsb.pairs := by
  obtain ⟨st3, h1, h2⟩ := UpdateDBWith_flat chunk fuel hc d hd Compile tx targetSources
    ⟨s0, []⟩ vb dsb hv hds hfv hfd
  obtain ⟨ext, h3, h4⟩ := updateAdvisories_trace chunk d Compile tx targetSources st3
  refine ⟨(updateAdvisories chunk d Compile tx targetSources st3).1,
    (updateAdvisories chunk d Compile tx targetSources st3).2, h2, ?_, ?_⟩
  · rw [h3, h1, vulnBatches, List.filterMap_append,
      filterMap_eq_nil_of_advisory _ vulnBatch_of_advisory ext h4]
    simp [flatEvents, List.filterMap_append, List.filterMap_map, Event.vulnBatch,
      Function.comp_def]
  · rw [h3, h1, dataSourceBatches, List.filterMap_append,
      filterMap_eq_nil_of_advisory _ dataSourceBatch_of_advisory ext h4]
    simp [flatEvents, List.filterMap_append, List.filterMap_map, Event.dataSourceBatch,
      Function.comp_def]

/-! ## The label parser: claims C1 and C2 -/

/-- C1: the parser gives ("alpine", "3.15") for "alpine 3.15", ("alpine", "edge")
for "alpine edge", ("debian", "") for "debian" and ("amazon linux", "2") for
"amazon linux 2". -/
theorem C1_parse_examples :
    parsePlatformAndSegment "alpine 3.15" = ("alpine", "3.15") ∧
    parsePlatformAndSegment "alpine edge" = ("alpine", "edge") ∧
    parsePlatformAndSegment "debian" = ("debian", "") ∧
    parsePlatformAndSegment "amazon linux 2" = ("amazon linux", "2") := by
  decide

/-- C2 as stated fails: "alpine 3.15" has two tokens and its last token "3.15"
is neither all digits nor "edge", yet the parser does not return the whole
label with an empty segment as the stated rule would. -/
theorem C2_only_digits_rule_fails :
    1 < (Split "alpine 3.15" ' ').length ∧
    parseAsSpecified "alpine 3.15" = ("alpine 3.15", "") ∧
    parsePlatformAndSegment "alpine 3.15" ≠ parseAsSpecified "alpine 3.15" := by
  decide

/-- C2 amended: for every label with two or more space-separated tokens, if the
last token contains at least one decimal digit or is exactly "edge", the parser
returns (the other tokens joined by single spaces, the last token); otherwise it
returns (the whole label, the empty string). -/
theorem C2_last_token_rule (s : String) (h : 1 < (Split s ' ').length) :
    parsePlatformAndSegment s =
      if ((Split s ' ').getLastD "").data.any Re.isDigit = true ∨
          (Split s ' ').getLastD "" = "edge" then
        (Join (Split s ' ').dropLast ' ', (Split s ' ').getLastD "")
      else (s, "") := by
  simp only [parsePlatformAndSegment, h, if_true, numRe_MatchString, alpineEdgeSegment,
    Bool.or_eq_true, beq_iff_eq, List.dropLast_eq_take]

/-- C2 amended, at the label "amazon linux 2". -/
theorem C2_last_token_rule_witness :
    1 < (Split "amazon linux 2" ' ').length ∧
    parsePlatformAndSegment "amazon linux 2" =
      if ((Split "amazon linux 2" ' ').getLastD "").data.any Re.isDigit = true ∨
          (Split "amazon linux 2" ' ').getLastD "" = "edge" then
        (Join (Split "amazon linux 2" ' ').dropLast ' ', (Split "amazon linux 2" ' ').getLastD "")
      else ("amazon linux 2", "") :=
  ⟨by decide, C2_last_token_rule "amazon linux 2" (by decide)⟩

/-! ## Lemmas: the batches of a flat walk -/

theorem okDriver_neverFails : okDriver.neverFails := fun _ _ => rfl

theorem flatBatches_length (chunk : Nat) (hc : 0 < chunk) (es : List (String × Bytes)) :
    (flatBatches chunk es).length = 1 + (es.length - (chunk + 1) + chunk - 1) / chunk := by
  cases es with
  | nil =>
    have : (chunk - 1) / chunk = 0 := Nat.div_eq_of_lt (by omega)
    simp [flatBatches, this]
  | cons e t =>
    simp only [flatBatches, List.length_cons, chunkList_length _ chunk hc, List.length_map,
      List.length_drop]
    have : t.length + 1 - (chunk + 1) = t.length - chunk := by omega
    rw [this]; omega

theorem flatBatches_flatten (chunk : Nat) (hc : 0 < chunk) (es : List (String × Bytes))
    (hes : es ≠ []) : (flatBatches chunk es).flatten = es.map pairTuple := by
  cases es with
  | nil => exact absurd rfl hes
  | cons e t =>
    simp only [flatBatches, List.flatten_cons, List.map_cons, List.cons_append]
    rw [chunkList_join chunk hc _ _ (Nat.le_refl _), ← List.map_append, List.take_append_drop]

theorem flatBatches_head (chunk : Nat) (e : String × Bytes) (t : List (String × Bytes))
    (ht : chunk ≤ t.length) :
    ∃ b ∈ flatBatches chunk (e :: t), b.length = chunk + 1 := by
  refine ⟨pairTuple e :: (t.take chunk).map pairTuple, by simp [flatBatches], ?_⟩
  simp [List.length_take, ht]

/-! ## The flat walks: claims C3, C4 and C6 -/

/-- C3 (the code departs from it): on a vulnerability bucket of 5001 records the
refresh, at the batch size 5000 of the program, issues one `InsertVuln` call and
not the two that ceil(5001/5000) asks for. -/
theorem C3_one_call_for_5001_records :
    ∃ (o : Outcome) (st1 : Run Unit),
      UpdateDB 5002 okDriver noCompile tx5001 [] ⟨(), []⟩ = some (o, st1) ∧
      (vulnBatches st1.trace).length = 1 ∧
      (5001 + chunkSize - 1) / chunkSize = 2 := by
  obtain ⟨o, st1, h1, h2, _⟩ := UpdateDBWith_flat_batches chunkSize 5002 (by decide) okDriver
    okDriver_neverFails noCompile tx5001 [] ()
    ⟨(List.range 5001).map fun i => ("CVE-2024-" ++ toString (10000 + i), Item.value "{}")⟩
    ⟨[("alpine 3.15", Item.value "\x7b\"ID\":\"alpine\"\x7d")]⟩ rfl rfl (by simp) (by simp)
  refine ⟨o, st1, h1, ?_, by decide⟩
  rw [h2, flatBatches_length chunkSize (by decide)]
  simp [Bucket.pairs, Bucket.newCursor, chunkSize]

/-- C4 (the code departs from it): on a vulnerability bucket of 5001 records the
refresh passes `InsertVuln` a batch of 5001 records, one more than `chunkSize`. -/
theorem C4_batch_of_5001_records :
    ∃ (o : Outcome) (st1 : Run Unit),
      UpdateDB 5002 okDriver noCompile tx5001 [] ⟨(), []⟩ = some (o, st1) ∧
      ∃ b ∈ vulnBatches st1.trace, b.length = chunkSize + 1 := by
  obtain ⟨o, st1, h1, h2, _⟩ := UpdateDBWith_flat_batches chunkSize 5002 (by decide) okDriver
    okDriver_neverFails noCompile tx5001 [] ()
    ⟨(List.range 5001).map fun i => ("CVE-2024-" ++ toString (10000 + i), Item.value "{}")⟩
    ⟨[("alpine 3.15", Item.value "\x7b\"ID\":\"alpine\"\x7d")]⟩ rfl rfl (by simp) (by simp)
  refine ⟨o, st1, h1, ?_⟩
  rw [h2]
  have hp : (Bucket.mk ((List.range 5001).map fun i =>
      ("CVE-2024-" ++ toString (10000 + i), Item.value "{}"))).pairs =
      ("CVE-2024-" ++ toString (10000 + 0), some "{}") ::
        (List.range 5000).map fun i => ("CVE-2024-" ++ toString (10000 + (i + 1)), some "{}") := by
    simp [Bucket.pairs, Bucket.newCursor, List.range_succ_eq_map 5000, Item.cursorValue,
      Function.comp_def]
  rw [hp]
  exact flatBatches_head chunkSize _ _ (by simp [chunkSize])

/-- C6: for a non-empty vulnerability bucket, and for a non-empty data-source
bucket, the batches passed to the insert operation, concatenated in call order,
are exactly the records `[key, document]` of the bucket in cursor order, so
every entry is submitted once and in order. -/
theorem C6_flat_batches_concat {σ : Type} (chunk fuel : Nat) (hc : 0 < chunk) (d : Driver σ)
    (hd : d.neverFails) (Compile : String → Except Error Regexp) (tx : Tx)
    (targetSources : List String) (s0 : σ) (vb dsb : Bucket)
    (hv : tx.getBucket vulnBucket = some vb) (hds : tx.getBucket dataSourceBucket = some dsb)
    (hfv : vb.entries.length < fuel) (hfd : dsb.entries.length < fuel) :
    ∃ (o : Outcome) (st1 : Run σ),
      UpdateDBWith chunk fuel d Compile tx targetSources ⟨s0, []⟩ = some (o, st1) ∧
      (vb.entries ≠ [] →
        (vulnBatches st1.trace).flatten = vb.pairs.map pairTuple ∧
        (vulnBatches st1.trace).flatten.length = vb.entries.length) ∧
      (dsb.entries ≠ [] →
        (dataSourceBatches st1.trace).flatten = dsb.pairs.map pairTuple ∧
        (dataSourceBatches st1.trace).flatten.length = dsb.entries.length) := by
  obtain ⟨o, st1, h1, h2, h3⟩ := UpdateDBWith_flat_batches chunk fuel hc d hd Compile tx
    targetSources s0 vb dsb hv hds hfv hfd
  have key : ∀ b : Bucket, b.entries ≠ [] →
      (flatBatches chunk b.pairs).flatten = b.pairs.map pairTuple ∧
      (flatBatches chunk b.pairs).flatten.length = b.entries.length := by
    intro b hb
    have hp : b.pairs ≠ [] := by simpa [Bucket.pairs, Bucket.newCursor] using hb
    rw [flatBatches_flatten chunk hc _ hp]
    exact ⟨rfl, by simp [Bucket.pairs, Bucket.newCursor]⟩
  exact ⟨o, st1, h1, fun hne => by rw [h2]; exact key vb hne,
    fun hne => by rw [h3]; exact key dsb hne⟩

/-- C6, on a small snapshot at the batch size of the program. -/
theorem C6_flat_batches_concat_witness :
    (Bucket.mk [("CVE-1", Item.value "v1"), ("CVE-2", Item.value "v2")]).entries ≠ [] ∧
    ∃ (o : Outcome) (st1 : Run Unit),
      UpdateDBWith chunkSize 3 okDriver noCompile
        ⟨[("data-source", ⟨[("alpine 3.15", Item.value "{}")]⟩),
          ("vulnerability", ⟨[("CVE-1", Item.value "v1"), ("CVE-2", Item.value "v2")]⟩)]⟩
        [] ⟨(), []⟩ = some (o, st1) ∧
      ((Bucket.mk [("CVE-1", Item.value "v1"), ("CVE-2", Item.value "v2")]).entries ≠ [] →
        (vulnBatches st1.trace).flatten =
          (Bucket.mk [("CVE-1", Item.value "v1"), ("CVE-2", Item.value "v2")]).pairs.map pairTuple ∧
        (vulnBatches st1.trace).flatten.length =
          (Bucket.mk [("CVE-1", Item.value "v1"), ("CVE-2", Item.value "v2")]).entries.length) ∧
      ((Bucket.mk [("alpine 3.15", Item.value "{}")]).entries ≠ [] →
        (dataSourceBatches st1.trace).flatten =
          (Bucket.mk [("alpine 3.15", Item.value "{}")]).pairs.map pairTuple ∧
        (dataSourceBatches st1.trace).flatten.length =
          (Bucket.mk [("alpine 3.15", Item.value "{}")]).entries.length) :=
  ⟨by simp,
    C6_flat_batches_concat chunkSize 3 (by decide) okDriver okDriver_neverFails noCompile
      ⟨[("data-source", ⟨[("alpine 3.15", Item.value "{}")]⟩),
        ("vulnerability", ⟨[("CVE-1", Item.value "v1"), ("CVE-2", Item.value "v2")]⟩)]⟩
      [] () ⟨[("CVE-1", Item.value "v1"), ("CVE-2", Item.value "v2")]⟩
      ⟨[("alpine 3.15", Item.value "{}")]⟩ rfl rfl (by decide) (by decide)⟩

/-! ## Lemmas: the nested walk -/

theorem walkVulns_eq (s pkg : String) :
    ∀ (es : List (String × Bytes)) (acc : Batch),
      walkVulns s pkg es acc = acc ++ itemTuples s (pkg, Item.bucket es) := by
  intro es
  induction es with
  | nil => intro acc; simp [walkVulns, itemTuples]
  | cons q rest ih =>
    intro acc
    obtain ⟨vID, v⟩ := q
    rw [walkVulns, ih]
    simp [itemTuples]

theorem find_of_mem_nodup {β : Type} :
    ∀ (l : List (String × β)) (k : String) (x : β), (l.map Prod.fst).Nodup → (k, x) ∈ l →
      l.find? (fun p => p.1 == k) = some (k, x) := by
  intro l
  induction l with
  | nil => intro k x _ h; simp at h
  | cons p rest ih =>
    intro k x hnd hmem
    obtain ⟨k1, x1⟩ := p
    rw [List.map_cons, List.nodup_cons] at hnd
    rcases List.mem_cons.mp hmem with h | h
    · cases h; simp
    · have hne : k1 ≠ k := by
        intro heq
        subst heq
        exact hnd.1 (List.mem_map.mpr ⟨(k1, x), h, rfl⟩)
      have hb : (k1 == k) = false := by simp [hne]
      rw [List.find?_cons]
      simp only [hb]
      exact ih k x hnd.2 h

theorem getBucket_of_mem (b : Bucket) (hnd : (b.entries.map Prod.fst).Nodup) (pkg : String)
    (item : Item) (hmem : (pkg, item) ∈ b.entries) :
    b.getBucket pkg = match item with
      | Item.value _ => none
      | Item.bucket es => some es := by
  unfold Bucket.getBucket
  rw [find_of_mem_nodup b.entries pkg item hnd hmem]
  cases item <;> rfl

theorem walkPackages_eq (s : String) (b : Bucket) (hnd : (b.entries.map Prod.fst).Nodup) :
    ∀ (suf : List (String × Item)) (acc : Batch), (∀ p ∈ suf, p ∈ b.entries) →
      walkPackages s b (suf.map fun p => (p.1, p.2.cursorValue)) acc =
        acc ++ suf.flatMap (itemTuples s) := by
  intro suf
  induction suf with
  | nil => intro acc _; simp [walkPackages]
  | cons p rest ih =>
    intro acc hmem
    obtain ⟨pkg, item⟩ := p
    have h1 := getBucket_of_mem b hnd pkg item (hmem _ (List.mem_cons_self _ _))
    have h2 : ∀ q ∈ rest, q ∈ b.entries := fun q hq => hmem q (List.mem_cons_of_mem _ hq)
    simp only [List.map_cons, walkPackages, h1]
    cases item with
    | value v => simp [ih acc h2, itemTuples]
    | bucket es =>
      simp only []
      rw [ih _ h2, walkVulns_eq]
      simp

theorem walkPackages_tuples (s : String) (b : Bucket) (hnd : (b.entries.map Prod.fst).Nodup) :
    walkPackages s b b.pairs [] = advisoryTuples s b := by
  have := walkPackages_eq s b hnd b.entries [] (fun _ h => h)
  simpa [Bucket.pairs, Bucket.newCursor, advisoryTuples] using this

theorem foundIn_iff (sourceRe : List Regexp) (s : String) :
    foundIn sourceRe s = true ↔ ∃ re ∈ sourceRe, re.MatchString s = true := by
  induction sourceRe with
  | nil => simp [foundIn]
  | cons re rest ih =>
    by_cases h : re.MatchString s = true
    · simp [foundIn, h]
    · simp [foundIn, h, ih]

theorem walkEvents_of_walked (chunk : Nat) (sourceRe : List Regexp) (s : String) (b : Bucket)
    (h1 : s ≠ vulnBucket) (h2 : sourceRe = [] ∨ ∃ re ∈ sourceRe, re.MatchString s = true) :
    walkEvents chunk sourceRe (s, b) =
      Event.writing s ::
        (chunkList (walkPackages s b b.pairs []) chunk).map
          fun c => Event.call (Call.InsertVulnAdvisory c) := by
  have h3 : ¬ ((0 < sourceRe.length && !foundIn sourceRe s) = true) := by
    rcases h2 with h2 | h2
    · subst h2; simp
    · simp [(foundIn_iff sourceRe s).mpr h2]
  simp only [walkEvents, h1, h3, if_false, Bool.false_eq_true]

theorem walkEvents_of_skipped (chunk : Nat) (sourceRe : List Regexp) (s : String) (b : Bucket)
    (h : ¬ (s ≠ vulnBucket ∧ (sourceRe = [] ∨ ∃ re ∈ sourceRe, re.MatchString s = true))) :
    walkEvents chunk sourceRe (s, b) = [] := by
  by_cases h1 : s = vulnBucket
  · simp [walkEvents, h1]
  · have h2 : ¬ (sourceRe = [] ∨ ∃ re ∈ sourceRe, re.MatchString s = true) :=
      fun h2 => h ⟨h1, h2⟩
    rw [not_or] at h2
    have h3 : 0 < sourceRe.length := List.length_pos.mpr h2.1
    have h4 : foundIn sourceRe s = false := by
      rw [← Bool.not_eq_true, foundIn_iff]; exact h2.2
    simp [walkEvents, h1, h3, h4]

theorem advisoryBatches_inserts (bs : List Batch) :
    advisoryBatches (Event.writing s ::
      bs.map fun c => Event.call (Call.InsertVulnAdvisory c)) = bs := by
  simp [advisoryBatches, List.filterMap_cons, Event.advisoryBatch, List.filterMap_map,
    Function.comp_def]

/-! ## Lemmas: a whole refresh on a driver that never fails -/

theorem UpdateDBWith_ok {σ : Type} (chunk fuel : Nat) (hc : 0 < chunk) (d : Driver σ)
    (hd : d.neverFails) (Compile : String → Except Error Regexp) (tx : Tx)
    (targetSources : List String) (sourceRe : List Regexp) (st : Run σ) (vb dsb : Bucket)
    (hv : tx.getBucket vulnBucket = some vb) (hds : tx.getBucket dataSourceBucket = some dsb)
    (hfv : vb.entries.length < fuel) (hfd : dsb.entries.length < fuel)
    (hre : compileAll Compile targetSources = Except.ok sourceRe) :
    ∃ st1 : Run σ,
      UpdateDBWith chunk fuel d Compile tx targetSources st = some (Outcome.returned none, st1) ∧
      st1.trace = st.trace ++ flatEvents chunk vb dsb ++
        Event.call Call.TruncateVulnAdvisories ::
          tx.buckets.flatMap (walkEvents chunk sourceRe) := by
  obtain ⟨st3, h1, h2⟩ := UpdateDBWith_flat chunk fuel hc d hd Compile tx targetSources st
    vb dsb hv hds hfv hfd
  obtain ⟨h3, h4⟩ := updateAdvisories_ok chunk hc d hd Compile tx targetSources sourceRe hre st3
  refine ⟨(updateAdvisories chunk d Compile tx targetSources st3).2, ?_, ?_⟩
  · rw [h2, ← h3]
  · rw [h4, h1]

theorem compileAll_nil_iff (Compile : String → Except Error Regexp) :
    ∀ (targetSources : List String) (sourceRe : List Regexp),
      compileAll Compile targetSources = Except.ok sourceRe →
      (targetSources = [] ↔ sourceRe = []) := by
  intro ts
  cases ts with
  | nil => intro re h; simp [compileAll] at h; simp [← h]
  | cons t rest =>
    intro re h
    simp only [compileAll] at h
    cases h1 : Compile t with
    | error e => simp [h1] at h
    | ok r =>
      cases h2 : compileAll Compile rest with
      | error e => simp [h1, h2] at h
      | ok rs =>
        simp [h1, h2] at h
        simp [← h]

theorem walked_flatEvents (chunk : Nat) (vb dsb : Bucket) :
    walked (flatEvents chunk vb dsb) = [] := by
  simp [walked, flatEvents, List.filterMap_append, List.filterMap_map, Event.source,
    Function.comp_def]

theorem advisoryBatches_flatEvents (chunk : Nat) (vb dsb : Bucket) :
    advisoryBatches (flatEvents chunk vb dsb) = [] := by
  simp [advisoryBatches, flatEvents, List.filterMap_append, List.filterMap_map,
    Event.advisoryBatch, Function.comp_def]

theorem walked_walkEvents (chunk : Nat) (sourceRe : List Regexp) (s : String) (b : Bucket) :
    (s ≠ vulnBucket ∧ (sourceRe = [] ∨ ∃ re ∈ sourceRe, re.MatchString s = true) →
      walked (walkEvents chunk sourceRe (s, b)) = [s] ∧
      (advisoryBatches (walkEvents chunk sourceRe (s, b))).flatten =
        if 0 < chunk then walkPackages s b b.pairs [] else
          (chunkList (walkPackages s b b.pairs []) chunk).flatten) ∧
    (¬ (s ≠ vulnBucket ∧ (sourceRe = [] ∨ ∃ re ∈ sourceRe, re.MatchString s = true)) →
      walked (walkEvents chunk sourceRe (s, b)) = [] ∧
      advisoryBatches (walkEvents chunk sourceRe (s, b)) = []) := by
  constructor
  · intro h
    rw [walkEvents_of_walked chunk sourceRe s b h.1 h.2, advisoryBatches_inserts]
    constructor
    · simp [walked, List.filterMap_cons, Event.source, List.filterMap_map, Function.comp_def]
    · by_cases hc : 0 < chunk
      · rw [if_pos hc, chunkList_join chunk hc _ _ (Nat.le_refl _)]
      · rw [if_neg hc]
  · intro h
    rw [walkEvents_of_skipped chunk sourceRe s b h]
    exact ⟨rfl, rfl⟩

theorem walked_flatMap_mem (chunk : Nat) (sourceRe : List Regexp) (L : String) :
    ∀ bs : List (String × Bucket),
      L ∈ walked (bs.flatMap (walkEvents chunk sourceRe)) ↔
        L ∈ bs.map Prod.fst ∧ L ≠ vulnBucket ∧
          (sourceRe = [] ∨ ∃ re ∈ sourceRe, re.MatchString L = true) := by
  intro bs
  induction bs with
  | nil => simp [walked]
  | cons p rest ih =>
    obtain ⟨s, b⟩ := p
    have happ : walked (((s, b) :: rest).flatMap (walkEvents chunk sourceRe)) =
        walked (walkEvents chunk sourceRe (s, b)) ++
          walked (rest.flatMap (walkEvents chunk sourceRe)) := by
      simp [walked, List.filterMap_append]
    rw [happ, List.mem_append, ih, List.map_cons, List.mem_cons]
    obtain ⟨hw, hs⟩ := walked_walkEvents chunk sourceRe s b
    by_cases hcond : s ≠ vulnBucket ∧ (sourceRe = [] ∨ ∃ re ∈ sourceRe, re.MatchString s = true)
    · rw [(hw hcond).1, List.mem_singleton]
      constructor
      · rintro (h | h)
        · subst h; exact ⟨Or.inl rfl, hcond⟩
        · exact ⟨Or.inr h.1, h.2⟩
      · rintro ⟨h | h, h2⟩
        · exact Or.inl h
        · exact Or.inr ⟨h, h2⟩
    · rw [(hs hcond).1]
      constructor
      · rintro (h | h)
        · simp at h
        · exact ⟨Or.inr h.1, h.2⟩
      · rintro ⟨h | h, h2⟩
        · subst h; exact absurd h2 hcond
        · exact Or.inr ⟨h, h2⟩

theorem advisoryBatches_flatMap (chunk : Nat) (hc : 0 < chunk) (sourceRe : List Regexp)
    (W : List String) :
    ∀ bs : List (String × Bucket),
      (∀ p ∈ bs, (p.1 ∈ W ↔
        p.1 ≠ vulnBucket ∧ (sourceRe = [] ∨ ∃ re ∈ sourceRe, re.MatchString p.1 = true))) →
      (advisoryBatches (bs.flatMap (walkEvents chunk sourceRe))).flatten =
        bs.flatMap fun p => if p.1 ∈ W then walkPackages p.1 p.2 p.2.pairs [] else [] := by
  intro bs
  induction bs with
  | nil => intro _; simp [advisoryBatches]
  | cons p rest ih =>
    intro hW
    obtain ⟨s, b⟩ := p
    have happ : advisoryBatches (((s, b) :: rest).flatMap (walkEvents chunk sourceRe)) =
        advisoryBatches (walkEvents chunk sourceRe (s, b)) ++
          advisoryBatches (rest.flatMap (walkEvents chunk sourceRe)) := by
      simp [advisoryBatches, List.filterMap_append]
    have hrest := ih (fun p hp => hW p (List.mem_cons_of_mem _ hp))
    have hhead := hW (s, b) (List.mem_cons_self _ _)
    obtain ⟨hw, hs⟩ := walked_walkEvents chunk sourceRe s b
    rw [happ, List.flatten_append, hrest, List.flatMap_cons]
    congr 1
    by_cases hcond : s ≠ vulnBucket ∧ (sourceRe = [] ∨ ∃ re ∈ sourceRe, re.MatchString s = true)
    · rw [(hw hcond).2, if_pos hc, if_pos (hhead.mpr hcond)]
    · have hn : ¬ s ∈ W := fun h => hcond (hhead.mp h)
      rw [(hs hcond).2]
      simp [hn]

/-! ## The nested walk: claim C8 -/

/-- C8: in a refresh, the nested walk goes into a top-level label L exactly when
L is not "vulnerability" and the allow-list is empty or one of its patterns
matches a substring of L; the advisory records loaded are those of the labels
walked, and of no other. -/
theorem C8_walked_labels {σ : Type} (chunk fuel : Nat) (hc : 0 < chunk) (d : Driver σ)
    (hd : d.neverFails) (Compile : String → Except Error Regexp) (tx : Tx)
    (targetSources : List String) (sourceRe : List Regexp) (s0 : σ) (vb dsb : Bucket)
    (hv : tx.getBucket vulnBucket = some vb) (hds : tx.getBucket dataSourceBucket = some dsb)
    (hfv : vb.entries.length < fuel) (hfd : dsb.entries.length < fuel)
    (hre : compileAll Compile targetSources = Except.ok sourceRe) :
    ∃ st1 : Run σ,
      UpdateDBWith chunk fuel d Compile tx targetSources ⟨s0, []⟩ =
        some (Outcome.returned none, st1) ∧
      (∀ L : String, L ∈ walked st1.trace ↔
        L ∈ tx.buckets.map Prod.fst ∧ L ≠ "vulnerability" ∧
          (targetSources = [] ∨ ∃ re ∈ sourceRe, re.MatchString L = true)) ∧
      (advisoryBatches st1.trace).flatten =
        tx.buckets.flatMap fun p =>
          if p.1 ∈ walked st1.trace then walkPackages p.1 p.2 p.2.pairs [] else [] := by
  obtain ⟨st1, h1, h2⟩ := UpdateDBWith_ok chunk fuel hc d hd Compile tx targetSources sourceRe
    ⟨s0, []⟩ vb dsb hv hds hfv hfd hre
  have hnil := compileAll_nil_iff Compile targetSources sourceRe hre
  have hwalked : walked st1.trace = walked (tx.buckets.flatMap (walkEvents chunk sourceRe)) := by
    rw [h2]
    simp only [List.nil_append, walked, List.filterMap_append, List.filterMap_cons]
    have := walked_flatEvents chunk vb dsb
    simp only [walked] at this
    rw [this]
    simp [Event.source]
  have hadv : advisoryBatches st1.trace =
      advisoryBatches (tx.buckets.flatMap (walkEvents chunk sourceRe)) := by
    rw [h2]
    simp only [List.nil_append, advisoryBatches, List.filterMap_append, List.filterMap_cons]
    have := advisoryBatches_flatEvents chunk vb dsb
    simp only [advisoryBatches] at this
    rw [this]
    simp [Event.advisoryBatch]
  have hiff : ∀ L : String, L ∈ walked st1.trace ↔
      L ∈ tx.buckets.map Prod.fst ∧ L ≠ vulnBucket ∧
        (sourceRe = [] ∨ ∃ re ∈ sourceRe, re.MatchString L = true) := by
    intro L
    rw [hwalked]
    exact walked_flatMap_mem chunk sourceRe L tx.buckets
  refine ⟨st1, h1, ?_, ?_⟩
  · intro L
    rw [hiff L, hnil]
    rfl
  · rw [hadv]
    apply advisoryBatches_flatMap chunk hc sourceRe (walked st1.trace) tx.buckets
    intro p hp
    rw [hiff p.1]
    constructor
    · exact fun h => h.2
    · exact fun h => ⟨List.mem_map.mpr ⟨p, hp, rfl⟩, h⟩

/-- C8, on the labels "alpine 3.15", "data-source", "debian 10" and
"vulnerability": with the allow-list `alpine.*` only "alpine 3.15" is walked and
only its records are loaded; with the allow-list `.*`, which matches every
label, "vulnerability" is still left out. -/
theorem C8_walked_labels_witness :
    (UpdateDB 6 okDriver exampleCompile txSmall ["alpine.*"] ⟨(), []⟩).map
        (fun r => (r.1, walked r.2.trace, (advisoryBatches r.2.trace).flatten)) =
      some (Outcome.returned none, ["alpine 3.15"],
        [[some "CVE-1", some "alpine", some "3.15", some "musl", some "a1"],
         [some "CVE-2", some "alpine", some "3.15", some "musl", some "a2"],
         [some "CVE-3", some "alpine", some "3.15", some "zlib", some "a3"]]) ∧
    (UpdateDB 6 okDriver exampleCompile txSmall [".*"] ⟨(), []⟩).map
        (fun r => walked r.2.trace) =
      some ["alpine 3.15", "data-source", "debian 10"] ∧
    ∃ st1 : Run Unit,
      UpdateDBWith chunkSize 6 okDriver exampleCompile txSmall ["alpine.*"] ⟨(), []⟩ =
        some (Outcome.returned none, st1) ∧
      (∀ L : String, L ∈ walked st1.trace ↔
        L ∈ txSmall.buckets.map Prod.fst ∧ L ≠ "vulnerability" ∧
          (["alpine.*"] = ([] : List String) ∨
            ∃ re ∈ [Regexp.ofRe (Re.cat (Re.lits "alpine".data) (Re.star Re.any))],
              re.MatchString L = true)) ∧
      (advisoryBatches st1.trace).flatten =
        txSmall.buckets.flatMap fun p =>
          if p.1 ∈ walked st1.trace then walkPackages p.1 p.2 p.2.pairs [] else [] :=
  ⟨by decide, by decide,
    C8_walked_labels chunkSize 6 (by decide) okDriver okDriver_neverFails exampleCompile txSmall
      ["alpine.*"] [Regexp.ofRe (Re.cat (Re.lits "alpine".data) (Re.star Re.any))] ()
      ⟨[("CVE-1", Item.value "v1"), ("CVE-2", Item.value "v2"), ("CVE-3", Item.value "v3"),
        ("CVE-4", Item.value "v4"), ("CVE-5", Item.value "v5")]⟩
      ⟨[("alpine 3.15", Item.value "\x7b\"ID\":\"alpine\"\x7d")]⟩ rfl rfl (by decide) (by decide) rfl⟩


/-! ## Schema migration: claims C9 and C10 -/

theorem Migrate_one_table (backend : Backend) (m : Names) (c : Conn)
    (h : countTables c [m.vulnerabilitiesTableName, m.advisoryTableName,
      m.dataSourceTableName] = 1) :
    Migrate backend m c = (some "invalid table schema", c) := by
  cases backend <;> simp [Migrate, Mysql.Migrate, Postgres.Migrate, Sqlite.Migrate, h]

/-- C9 (the code departs from it): when two of the three tables exist (here all
but the vulnerabilities table of a migrated destination), `Migrate` of every
backend goes on to its `CREATE` statements instead of stopping, and on sqlite,
with `IF NOT EXISTS`, it even returns no error. -/
theorem C9_two_tables_reach_create :
    (∀ backend : Backend,
      countTables (twoTableConn backend "vulnerabilities")
        [exampleNames.vulnerabilitiesTableName, exampleNames.advisoryTableName,
         exampleNames.dataSourceTableName] = 2 ∧
      (Migrate backend exampleNames (twoTableConn backend "vulnerabilities")).2.statements.any
        Stmt.isDDL = true ∧
      (Migrate backend exampleNames (twoTableConn backend "vulnerabilities")).2.db ≠
        (twoTableConn backend "vulnerabilities").db) ∧
    (Migrate Backend.sqlite exampleNames (twoTableConn Backend.sqlite "vulnerabilities")).1 =
      none := by
  refine ⟨fun backend => ?_, by decide⟩
  cases backend <;> decide

/-- C10 (the code departs from it on sqlite): from a destination with no table,
two runs of `Migrate` return no error on any backend, and on mysql and postgres
the second run leaves the schema of the first; on sqlite the second run rebuilds
the three tables without their `NOT NULL` and `DEFAULT` constraints and without
any index, so the schema differs from the one the first run created. -/
theorem C10_sqlite_second_migrate_changes_schema :
    (∀ backend : Backend,
      (Migrate backend exampleNames emptyConn).1 = none ∧
      (Migrate backend exampleNames (Migrate backend exampleNames emptyConn).2).1 = none) ∧
    (Migrate Backend.mysql exampleNames (Migrate Backend.mysql exampleNames emptyConn).2).2.db =
      (Migrate Backend.mysql exampleNames emptyConn).2.db ∧
    (Migrate Backend.postgres exampleNames
        (Migrate Backend.postgres exampleNames emptyConn).2).2.db =
      (Migrate Backend.postgres exampleNames emptyConn).2.db ∧
    (Migrate Backend.sqlite exampleNames (Migrate Backend.sqlite exampleNames emptyConn).2).2.db ≠
      (Migrate Backend.sqlite exampleNames emptyConn).2.db ∧
    (Migrate Backend.sqlite exampleNames emptyConn).2.db.tables.map
        (fun t => (t.name, t.indexes.length, t.columns.map fun k => k.constraints)) =
      [("vulnerabilities", 1,
          ["PRIMARY KEY AUTOINCREMENT", "NOT NULL", "NOT NULL", "DEFAULT CURRENT_TIMESTAMP"]),
       ("vulnerability_advisories", 5,
          ["PRIMARY KEY AUTOINCREMENT", "NOT NULL", "NOT NULL", "NOT NULL", "NOT NULL",
           "NOT NULL", "DEFAULT CURRENT_TIMESTAMP"]),
       ("data_sources", 1,
          ["PRIMARY KEY AUTOINCREMENT", "NOT NULL", "NOT NULL", "NOT NULL", "NOT NULL",
           "DEFAULT CURRENT_TIMESTAMP"])] ∧
    (Migrate Backend.sqlite exampleNames
        (Migrate Backend.sqlite exampleNames emptyConn).2).2.db.tables.map
        (fun t => (t.name, t.indexes.length, t.columns.map fun k => k.constraints)) =
      [("vulnerabilities", 0, ["PRIMARY KEY AUTOINCREMENT", "", "", ""]),
       ("vulnerability_advisories", 0, ["PRIMARY KEY AUTOINCREMENT", "", "", "", "", "", ""]),
       ("data_sources", 0, ["PRIMARY KEY AUTOINCREMENT", "", "", "", "", ""])] := by
  refine ⟨fun backend => ?_, by decide, by decide, by decide, by decide, by decide⟩
  cases backend <;> decide

/-! ## Lemmas: splitting and joining -/

theorem splitChars_ne_nil (sep : Char) (cs : List Char) : splitChars sep cs ≠ [] := by
  cases cs with
  | nil => simp [splitChars]
  | cons c cs =>
    by_cases h : c = sep
    · simp [splitChars, h]
    · cases hs : splitChars sep cs <;> simp [splitChars, h, hs]

theorem joinChars_splitChars (sep : Char) (cs : List Char) :
    joinChars sep (splitChars sep cs) = cs := by
  induction cs with
  | nil => simp [splitChars, joinChars]
  | cons c cs ih =>
    cases hs : splitChars sep cs with
    | nil => exact absurd hs (splitChars_ne_nil sep cs)
    | cons h t =>
      rw [hs] at ih
      by_cases hc : c = sep
      · simp [splitChars, hc, hs, joinChars, ih]
      · cases t with
        | nil =>
          simp only [joinChars] at ih
          simp [splitChars, hc, hs, joinChars, ih]
        | cons y r =>
          simp only [joinChars] at ih
          simp [splitChars, hc, hs, joinChars, ih]

theorem splitChars_no_sep (sep : Char) (cs : List Char) :
    ∀ t ∈ splitChars sep cs, sep ∉ t := by
  induction cs with
  | nil => simp [splitChars]
  | cons c cs ih =>
    intro t ht
    by_cases hc : c = sep
    · simp only [splitChars, hc, if_true, List.mem_cons] at ht
      rcases ht with ht | ht
      · subst ht; simp
      · exact ih t ht
    · cases hs : splitChars sep cs with
      | nil => exact absurd hs (splitChars_ne_nil sep cs)
      | cons h r =>
        rw [hs] at ih
        simp only [splitChars, hc, if_false, hs, List.mem_cons] at ht
        rcases ht with ht | ht
        · subst ht
          have := ih h (List.mem_cons_self _ _)
          simp only [List.mem_cons, not_or]
          exact ⟨fun e => hc e.symm, this⟩
        · exact ih t (List.mem_cons_of_mem _ ht)

theorem joinChars_concat (sep : Char) (init : List (List Char)) (last : List Char)
    (h : init ≠ []) :
    joinChars sep (init ++ [last]) = joinChars sep init ++ sep :: last := by
  induction init with
  | nil => exact absurd rfl h
  | cons x rest ih =>
    cases rest with
    | nil => simp [joinChars]
    | cons y r =>
      have := ih (by simp)
      simp only [List.cons_append] at this
      simp [joinChars, this]

/-! ## The label parser: claim C17 -/

/-- C17: for every label, either the parsed segment is empty and the platform is
the label itself, or the segment is non-empty, holds no space, and platform,
a space and the segment put together give the label back. -/
theorem C17_label_reconstructed (s : String) :
    ((parsePlatformAndSegment s).2 = "" ∧ (parsePlatformAndSegment s).1 = s) ∨
    ((parsePlatformAndSegment s).2 ≠ "" ∧ ' ' ∉ (parsePlatformAndSegment s).2.data ∧
      (parsePlatformAndSegment s).1 ++ " " ++ (parsePlatformAndSegment s).2 = s) := by
  have hne := splitChars_ne_nil ' ' s.data
  have hjoin := joinChars_splitChars ' ' s.data
  have hsep := splitChars_no_sep ' ' s.data
  obtain ⟨init, last, hL⟩ : ∃ init last, splitChars ' ' s.data = init ++ [last] :=
    ⟨_, _, (List.dropLast_append_getLast hne).symm⟩
  rw [hL] at hjoin hsep
  have hlast : (List.map String.mk (init ++ [last])).getLastD "" = String.mk last := by
    simp
  have htake : (List.map String.mk (init ++ [last])).take
      ((List.map String.mk (init ++ [last])).length - 1) = List.map String.mk init := by
    simp
  unfold parsePlatformAndSegment Split
  simp only [hL]
  by_cases hlen : 1 < (List.map String.mk (init ++ [last])).length
  · by_cases hcond : (numRe.MatchString ((List.map String.mk (init ++ [last])).getLastD "") ||
        (List.map String.mk (init ++ [last])).getLastD "" == alpineEdgeSegment) = true
    · right
      simp only [hlen, hcond, if_true]
      rw [hlast] at hcond ⊢
      rw [htake]
      have hinit : init ≠ [] := by
        intro h0
        subst h0
        simp at hlen
      refine ⟨?_, ?_, ?_⟩
      · intro h0
        have hl : last = [] := by
          have := congrArg String.data h0
          simpa using this
        subst hl
        revert hcond
        decide
      · exact hsep last (by simp)
      · apply String.ext
        rw [joinChars_concat ' ' init last hinit] at hjoin
        simp [Join, Function.comp_def, hjoin]
    · left
      simp only [hlen, hcond, if_true]
      simp
  · left
    simp only [hlen, if_false]
    simp

/-! ## Lemmas: the shape of the events of a refresh -/

theorem mem_of_mem_chunkList {α : Type} (size : Nat) (hs : 0 < size) (l : List α) (b : List α)
    (hb : b ∈ chunkList l size) : ∀ t ∈ b, t ∈ l := by
  intro t ht
  have h := chunkList_join size hs l.length l (Nat.le_refl _)
  rw [← h]
  exact List.mem_flatten.mpr ⟨b, hb, ht⟩

theorem flatBatches_good (chunk : Nat) (hc : 0 < chunk) (es : List (String × Bytes)) :
    ∀ b ∈ flatBatches chunk es, goodBatch 2 b := by
  intro b hb
  cases es with
  | nil =>
    simp only [flatBatches, List.mem_singleton] at hb
    subst hb
    exact ⟨by simp, by simp⟩
  | cons e t =>
    simp only [flatBatches, List.mem_cons] at hb
    rcases hb with hb | hb
    · subst hb
      refine ⟨by simp, ?_⟩
      intro x hx
      simp only [List.mem_cons, List.mem_map] at hx
      rcases hx with hx | ⟨p, _, hx⟩
      · subst hx; rfl
      · subst hx; rfl
    · refine ⟨(chunkList_mem chunk hc _ _ (Nat.le_refl _) b hb).1, ?_⟩
      intro x hx
      have := mem_of_mem_chunkList chunk hc _ b hb x hx
      simp only [List.mem_map] at this
      obtain ⟨p, _, hp⟩ := this
      subst hp; rfl

theorem walkVulns_arity (s pkg : String) :
    ∀ (es : List (String × Bytes)) (acc : Batch), (∀ t ∈ acc, t.length = 5) →
      ∀ t ∈ walkVulns s pkg es acc, t.length = 5 := by
  intro es
  induction es with
  | nil => intro acc h; simpa [walkVulns] using h
  | cons q rest ih =>
    intro acc h
    obtain ⟨vID, v⟩ := q
    rw [walkVulns]
    apply ih
    intro t ht
    rcases List.mem_append.mp ht with ht | ht
    · exact h t ht
    · simp only [List.mem_singleton] at ht
      subst ht; rfl

theorem walkPackages_arity (s : String) (b : Bucket) :
    ∀ (l : List (String × Bytes)) (acc : Batch), (∀ t ∈ acc, t.length = 5) →
      ∀ t ∈ walkPackages s b l acc, t.length = 5 := by
  intro l
  induction l with
  | nil => intro acc h; simpa [walkPackages] using h
  | cons q rest ih =>
    intro acc h
    obtain ⟨pkg, v⟩ := q
    rw [walkPackages]
    cases hb : b.getBucket pkg with
    | none => exact ih acc h
    | some cb => exact ih _ (walkVulns_arity s pkg cb acc h)

theorem advisoryChunks_good (chunk : Nat) (hc : 0 < chunk) (s : String) (b : Bucket) :
    ∀ c ∈ chunkList (walkPackages s b b.newCursor.entries []) chunk, goodBatch 5 c := by
  intro c hcm
  refine ⟨(chunkList_mem chunk hc _ _ (Nat.le_refl _) c hcm).1, ?_⟩
  intro t ht
  exact walkPackages_arity s b _ [] (by simp) t (mem_of_mem_chunkList chunk hc _ c hcm t ht)

theorem invoke_trace {σ : Type} (d : Driver σ) (c : Call) (st : Run σ) :
    (invoke d c st).2.trace = st.trace ++ [Event.call c] := rfl

theorem walkSource_shape {σ : Type} (chunk : Nat) (hc : 0 < chunk) (d : Driver σ)
    (sourceRe : List Regexp) (s : String) (b : Bucket) (st : Run σ) :
    ∃ ext, (walkSource chunk d sourceRe s b st).2.trace = st.trace ++ ext ∧
      ∀ e ∈ ext, advisoryEvent e := by
  unfold walkSource
  by_cases h1 : s = vulnBucket
  · exact ⟨[], by simp [h1]⟩
  · by_cases h2 : (0 < sourceRe.length && !foundIn sourceRe s) = true
    · exact ⟨[], by simp [h1, h2]⟩
    · have hne : chunk ≠ 0 := by omega
      simp only [h1, h2, if_false, Bool.false_eq_true, Chunk, hne, insertChunks_eq]
      obtain ⟨ext, h3, h4⟩ := insertSeq_trace d Call.InsertVulnAdvisory
        (chunkList (walkPackages s b b.newCursor.entries []) chunk)
        ⟨st.db, st.trace ++ [Event.writing s]⟩
      refine ⟨Event.writing s :: ext, ?_, ?_⟩
      · simp only [h3]; simp
      · intro e he
        rcases List.mem_cons.mp he with he | he
        · exact Or.inl ⟨s, he⟩
        · obtain ⟨c, hcm, hce⟩ := h4 e he
          exact Or.inr ⟨c, hce, advisoryChunks_good chunk hc s b c hcm⟩

theorem forEach_shape {σ : Type} (chunk : Nat) (hc : 0 < chunk) (d : Driver σ)
    (sourceRe : List Regexp) :
    ∀ (bs : List (String × Bucket)) (st : Run σ),
      ∃ ext, (forEach (walkSource chunk d sourceRe) bs st).2.trace = st.trace ++ ext ∧
        ∀ e ∈ ext, advisoryEvent e := by
  intro bs
  induction bs with
  | nil => intro st; exact ⟨[], by simp [forEach]⟩
  | cons p rest ih =>
    intro st
    obtain ⟨s, b⟩ := p
    obtain ⟨ext1, h1, h2⟩ := walkSource_shape chunk hc d sourceRe s b st
    simp only [forEach]
    cases h : walkSource chunk d sourceRe s b st with
    | mk o st1 =>
      rw [h] at h1
      simp only at h1
      have hstop : ∃ ext, st1.trace = st.trace ++ ext ∧ ∀ e ∈ ext, advisoryEvent e :=
        ⟨ext1, h1, h2⟩
      cases o with
      | returned r =>
        cases r with
        | none =>
          obtain ⟨ext2, h3, h4⟩ := ih st1
          refine ⟨ext1 ++ ext2, ?_, ?_⟩
          · simp only [h3, h1, List.append_assoc]
          · intro e he
            rcases List.mem_append.mp he with he | he
            · exact h2 e he
            · exact h4 e he
        | some e => exact hstop
      | fatal m => exact hstop
      | panic => exact hstop

theorem updateAdvisories_shape {σ : Type} (chunk : Nat) (hc : 0 < chunk) (d : Driver σ)
    (Compile : String → Except Error Regexp) (tx : Tx) (targetSources : List String)
    (st : Run σ) :
    ∃ A, (updateAdvisories chunk d Compile tx targetSources st).2.trace = st.trace ++ A ∧
      (A = [] ∨ ∃ A1, A = Event.call Call.TruncateVulnAdvisories :: A1 ∧
        ∀ e ∈ A1, advisoryEvent e) := by
  unfold updateAdvisories
  cases hre : compileAll Compile targetSources with
  | error e => exact ⟨[], by simp⟩
  | ok sourceRe =>
    simp only []
    cases h : invoke d Call.TruncateVulnAdvisories st with
    | mk e st1 =>
      have ht : st1.trace = st.trace ++ [Event.call Call.TruncateVulnAdvisories] := by
        have := invoke_trace d Call.TruncateVulnAdvisories st
        rw [h] at this
        exact this
      cases e with
      | some e =>
        exact ⟨[Event.call Call.TruncateVulnAdvisories], ht, Or.inr ⟨[], rfl, by simp⟩⟩
      | none =>
        obtain ⟨ext, h3, h4⟩ := forEach_shape chunk hc d sourceRe tx.buckets st1
        refine ⟨Event.call Call.TruncateVulnAdvisories :: ext, ?_, Or.inr ⟨ext, rfl, h4⟩⟩
        simp only [h3, ht]; simp

theorem getBucket_mem (tx : Tx) (name : String) (b : Bucket)
    (h : tx.getBucket name = some b) : ∃ p ∈ tx.buckets, p.2 = b := by
  unfold Tx.getBucket at h
  cases hf : tx.buckets.find? (fun p => p.1 == name) with
  | none => simp [hf] at h
  | some p =>
    rw [hf] at h
    simp only [Option.map_some', Option.some.injEq] at h
    exact ⟨p, List.mem_of_find?_eq_some hf, h⟩

theorem flatLoop_shape {σ : Type} (chunk fuel : Nat) (hc : 0 < chunk) (d : Driver σ)
    (ins : Batch → Call) (b : Bucket) (hf : b.entries.length < fuel) (st : Run σ) :
    ∃ (e : Option Error) (st1 : Run σ) (ext : List Event),
      flatLoop chunk d ins fuel false b.newCursor st = some (e, st1) ∧
      st1.trace = st.trace ++ ext ∧
      ∀ ev ∈ ext, ∃ bt, ev = Event.call (ins bt) ∧ goodBatch 2 bt := by
  have hl : b.newCursor.entries.length < fuel := by simpa [Bucket.newCursor] using hf
  have h1 : flatLoop chunk d ins fuel false b.newCursor st =
      some (insertSeq d ins (flatBatches chunk b.newCursor.entries) st) :=
    flatLoop_eq chunk hc d ins b.newCursor.entries [] fuel st hl
  obtain ⟨ext, h2, h3⟩ := insertSeq_trace d ins (flatBatches chunk b.newCursor.entries) st
  refine ⟨(insertSeq d ins (flatBatches chunk b.newCursor.entries) st).1,
    (insertSeq d ins (flatBatches chunk b.newCursor.entries) st).2, ext, h1, h2, ?_⟩
  intro ev hev
  obtain ⟨bt, hbt, he⟩ := h3 ev hev
  exact ⟨bt, he, flatBatches_good chunk hc _ bt hbt⟩

theorem refreshShape_intro (V D A : List Event) (hV : ∀ e ∈ V, vulnEvent e)
    (hD : D = [] ∨ ∃ D1, D = Event.call Call.TruncateDataSource :: D1 ∧
      ∀ e ∈ D1, dataSourceEvent e)
    (hA : A = [] ∨ ∃ A1, A = Event.call Call.TruncateVulnAdvisories :: A1 ∧
      ∀ e ∈ A1, advisoryEvent e)
    (trace : List Event) (h : trace = Event.call Call.TruncateVulns :: (V ++ (D ++ A))) :
    refreshShape trace :=
  ⟨V, D, A, h, hV, hD, hA⟩

theorem UpdateDBWith_shape {σ : Type} (chunk fuel : Nat) (hc : 0 < chunk) (d : Driver σ)
    (Compile : String → Except Error Regexp) (tx : Tx) (targetSources : List String) (s0 : σ)
    (hfuel : ∀ p ∈ tx.buckets, p.2.entries.length < fuel) :
    ∃ (o : Outcome) (st1 : Run σ),
      UpdateDBWith chunk fuel d Compile tx targetSources ⟨s0, []⟩ = some (o, st1) ∧
      refreshShape st1.trace := by
  unfold UpdateDBWith
  cases hi1 : invoke d Call.TruncateVulns ⟨s0, []⟩ with
  | mk e1 st1 =>
    have t1 : st1.trace = [Event.call Call.TruncateVulns] := by
      have := invoke_trace d Call.TruncateVulns ⟨s0, []⟩
      rw [hi1] at this
      simpa using this
    have stop1 : refreshShape st1.trace :=
      refreshShape_intro [] [] [] (by simp) (Or.inl rfl) (Or.inl rfl) _ (by simp [t1])
    cases e1 with
    | some e => exact ⟨_, _, rfl, stop1⟩
    | none =>
      simp only []
      cases hv : tx.getBucket vulnBucket with
      | none => exact ⟨_, _, rfl, stop1⟩
      | some vb =>
        simp only []
        obtain ⟨p, hp, hpb⟩ := getBucket_mem tx vulnBucket vb hv
        have hfv : vb.entries.length < fuel := hpb ▸ hfuel p hp
        obtain ⟨e2, st2, V, hl1, t2, hV⟩ := flatLoop_shape chunk fuel hc d Call.InsertVuln vb hfv st1
        rw [hl1]
        have stop2 : refreshShape st2.trace :=
          refreshShape_intro V [] [] hV (Or.inl rfl) (Or.inl rfl) _ (by simp [t2, t1])
        cases e2 with
        | some e => exact ⟨_, _, rfl, stop2⟩
        | none =>
          simp only [updateDataSource]
          cases hi2 : invoke d Call.TruncateDataSource st2 with
          | mk e3 st3 =>
            have t3 : st3.trace = st2.trace ++ [Event.call Call.TruncateDataSource] := by
              have := invoke_trace d Call.TruncateDataSource st2
              rw [hi2] at this
              exact this
            have stop3 : refreshShape st3.trace :=
              refreshShape_intro V [Event.call Call.TruncateDataSource] [] hV
                (Or.inr ⟨[], rfl, by simp⟩) (Or.inl rfl) _ (by simp [t3, t2, t1])
            cases e3 with
            | some e => exact ⟨_, _, rfl, stop3⟩
            | none =>
              simp only []
              cases hds : tx.getBucket dataSourceBucket with
              | none => exact ⟨_, _, rfl, stop3⟩
              | some dsb =>
                simp only []
                obtain ⟨q, hq, hqb⟩ := getBucket_mem tx dataSourceBucket dsb hds
                have hfd : dsb.entries.length < fuel := hqb ▸ hfuel q hq
                obtain ⟨e4, st4, D1, hl2, t4, hD⟩ :=
                  flatLoop_shape chunk fuel hc d Call.InsertDataSource dsb hfd st3
                rw [hl2]
                have hDs : ∀ e ∈ D1, dataSourceEvent e := hD
                have stop4 : refreshShape st4.trace :=
                  refreshShape_intro V (Event.call Call.TruncateDataSource :: D1) [] hV
                    (Or.inr ⟨D1, rfl, hDs⟩) (Or.inl rfl) _ (by simp [t4, t3, t2, t1])
                cases e4 with
                | some e => exact ⟨_, _, rfl, stop4⟩
                | none =>
                  simp only []
                  obtain ⟨A, hA1, hA2⟩ := updateAdvisories_shape chunk hc d Compile tx
                    targetSources st4
                  refine ⟨(updateAdvisories chunk d Compile tx targetSources st4).1,
                    (updateAdvisories chunk d Compile tx targetSources st4).2, rfl, ?_⟩
                  exact refreshShape_intro V (Event.call Call.TruncateDataSource :: D1) A hV
                    (Or.inr ⟨D1, rfl, hDs⟩) hA2 _ (by rw [hA1, t4, t3, t2, t1]; simp)

theorem prefix_split {α : Type} (x : α) :
    ∀ (L1 L2 pre post : List α), x ∉ L1 → L1 ++ L2 = pre ++ x :: post →
      ∃ pre1, pre = L1 ++ pre1 ∧ L2 = pre1 ++ x :: post := by
  intro L1
  induction L1 with
  | nil => intro L2 pre post _ h; exact ⟨pre, rfl, by simpa using h⟩
  | cons a rest ih =>
    intro L2 pre post hx h
    cases pre with
    | nil =>
      simp only [List.cons_append, List.nil_append, List.cons.injEq] at h
      exact absurd (h.1 ▸ List.mem_cons_self a rest) hx
    | cons p pre0 =>
      simp only [List.cons_append, List.cons.injEq] at h
      obtain ⟨pre1, h1, h2⟩ := ih L2 pre0 post (fun hm => hx (List.mem_cons_of_mem _ hm)) h.2
      exact ⟨pre1, by rw [h.1, h1]; rfl, h2⟩

theorem head_mem_of_split {α : Type} (t x : α) (hne : t ≠ x) (L pre post : List α)
    (h : t :: L = pre ++ x :: post) : t ∈ pre := by
  cases pre with
  | nil =>
    simp only [List.nil_append, List.cons.injEq] at h
    exact absurd h.1 hne
  | cons p pre0 =>
    simp only [List.cons_append, List.cons.injEq] at h
    rw [h.1]
    exact List.mem_cons_self _ _

theorem refreshShape_truncate_first (trace : List Event) (hs : refreshShape trace)
    (pre post : List Event) (b : Batch) :
    (trace = pre ++ Event.call (Call.InsertVuln b) :: post →
      Event.call Call.TruncateVulns ∈ pre) ∧
    (trace = pre ++ Event.call (Call.InsertDataSource b) :: post →
      Event.call Call.TruncateDataSource ∈ pre) ∧
    (trace = pre ++ Event.call (Call.InsertVulnAdvisory b) :: post →
      Event.call Call.TruncateVulnAdvisories ∈ pre) := by
  obtain ⟨V, D, A, ht, hV, hD, hA⟩ := hs
  have notV : ∀ x : Event, (∀ bt, x ≠ Event.call (Call.InsertVuln bt)) → x ∉ V := by
    intro x hx hm
    obtain ⟨bt, hbt, _⟩ := hV x hm
    exact hx bt hbt
  have notD : ∀ x : Event, x ≠ Event.call Call.TruncateDataSource →
      (∀ bt, x ≠ Event.call (Call.InsertDataSource bt)) → x ∉ D := by
    intro x hx1 hx2 hm
    rcases hD with hD | ⟨D1, hD, hD1⟩
    · rw [hD] at hm; simp at hm
    · rw [hD] at hm
      rcases List.mem_cons.mp hm with hm | hm
      · exact hx1 hm
      · obtain ⟨bt, hbt, _⟩ := hD1 x hm
        exact hx2 bt hbt
  have notA : ∀ x : Event, x ≠ Event.call Call.TruncateVulnAdvisories →
      (∀ s, x ≠ Event.writing s) → (∀ bt, x ≠ Event.call (Call.InsertVulnAdvisory bt)) →
      x ∉ A := by
    intro x hx1 hx2 hx3 hm
    rcases hA with hA | ⟨A1, hA, hA1⟩
    · rw [hA] at hm; simp at hm
    · rw [hA] at hm
      rcases List.mem_cons.mp hm with hm | hm
      · exact hx1 hm
      · rcases hA1 x hm with ⟨s, hs⟩ | ⟨bt, hbt, _⟩
        · exact hx2 s hs
        · exact hx3 bt hbt
  refine ⟨?_, ?_, ?_⟩
  · intro h
    rw [ht] at h
    exact head_mem_of_split _ _ (by simp) _ pre post h
  · intro h
    rw [ht] at h
    have hx : Event.call (Call.InsertDataSource b) ∉ Event.call Call.TruncateVulns :: V := by
      intro hm
      rcases List.mem_cons.mp hm with hm | hm
      · simp at hm
      · exact notV _ (by simp) hm
    obtain ⟨pre1, h1, h2⟩ := prefix_split _ (Event.call Call.TruncateVulns :: V) (D ++ A)
      pre post hx (by simpa using h)
    rw [h1]
    apply List.mem_append_right
    rcases hD with hD | ⟨D1, hD, _⟩
    · rw [hD, List.nil_append] at h2
      have : Event.call (Call.InsertDataSource b) ∈ A := by rw [h2]; simp
      exact absurd this (notA _ (by simp) (by simp) (by simp))
    · rw [hD, List.cons_append] at h2
      exact head_mem_of_split _ _ (by simp) _ pre1 post h2
  · intro h
    rw [ht] at h
    have hx : Event.call (Call.InsertVulnAdvisory b) ∉
        Event.call Call.TruncateVulns :: (V ++ D) := by
      intro hm
      rcases List.mem_cons.mp hm with hm | hm
      · simp at hm
      · rcases List.mem_append.mp hm with hm | hm
        · exact notV _ (by simp) hm
        · exact notD _ (by simp) (by simp) hm
    obtain ⟨pre1, h1, h2⟩ := prefix_split _ (Event.call Call.TruncateVulns :: (V ++ D)) A
      pre post hx (by simpa using h)
    rw [h1]
    apply List.mem_append_right
    rcases hA with hA | ⟨A1, hA, _⟩
    · rw [hA] at h2
      simp at h2
    · rw [hA] at h2
      exact head_mem_of_split _ _ (by simp) _ pre1 post h2

/-! ## The order and the form of the driver calls: claim C15 -/

/-- C15: in the events of a refresh, whatever the driver answers and however the
refresh ends, every `InsertVuln` call comes after a `TruncateVulns` call, every
`InsertDataSource` call after a `TruncateDataSource` call, and every
`InsertVulnAdvisory` call after a `TruncateVulnAdvisories` call. -/
theorem C15_truncate_before_insert {σ : Type} (chunk fuel : Nat) (hc : 0 < chunk)
    (d : Driver σ) (Compile : String → Except Error Regexp) (tx : Tx)
    (targetSources : List String) (s0 : σ)
    (hfuel : ∀ p ∈ tx.buckets, p.2.entries.length < fuel) :
    ∃ (o : Outcome) (st1 : Run σ),
      UpdateDBWith chunk fuel d Compile tx targetSources ⟨s0, []⟩ = some (o, st1) ∧
      ∀ (pre post : List Event) (b : Batch),
        (st1.trace = pre ++ Event.call (Call.InsertVuln b) :: post →
          Event.call Call.TruncateVulns ∈ pre) ∧
        (st1.trace = pre ++ Event.call (Call.InsertDataSource b) :: post →
          Event.call Call.TruncateDataSource ∈ pre) ∧
        (st1.trace = pre ++ Event.call (Call.InsertVulnAdvisory b) :: post →
          Event.call Call.TruncateVulnAdvisories ∈ pre) := by
  obtain ⟨o, st1, h1, h2⟩ := UpdateDBWith_shape chunk fuel hc d Compile tx targetSources s0 hfuel
  exact ⟨o, st1, h1, fun pre post b => refreshShape_truncate_first st1.trace h2 pre post b⟩

/-- C15, on a small snapshot at the batch size of the program. -/
theorem C15_truncate_before_insert_witness :
    (∀ p ∈ txSmall.buckets, p.2.entries.length < 6) ∧
    ∃ (o : Outcome) (st1 : Run Unit),
      UpdateDBWith chunkSize 6 okDriver exampleCompile txSmall ["alpine.*"] ⟨(), []⟩ =
        some (o, st1) ∧
      ∀ (pre post : List Event) (b : Batch),
        (st1.trace = pre ++ Event.call (Call.InsertVuln b) :: post →
          Event.call Call.TruncateVulns ∈ pre) ∧
        (st1.trace = pre ++ Event.call (Call.InsertDataSource b) :: post →
          Event.call Call.TruncateDataSource ∈ pre) ∧
        (st1.trace = pre ++ Event.call (Call.InsertVulnAdvisory b) :: post →
          Event.call Call.TruncateVulnAdvisories ∈ pre) :=
  ⟨by decide,
    C15_truncate_before_insert chunkSize 6 (by decide) okDriver exampleCompile txSmall
      ["alpine.*"] () (by decide)⟩


/-! ## Lemmas: the values an insert gathers -/

theorem length_two {α : Type} (t : List α) (h : t.length = 2) : ∃ a b, t = [a, b] := by
  match t, h with
  | [a, b], _ => exact ⟨a, b, rfl⟩

theorem length_five {α : Type} (t : List α) (h : t.length = 5) :
    ∃ a b c d e, t = [a, b, c, d, e] := by
  match t, h with
  | [a, b, c, d, e], _ => exact ⟨a, b, c, d, e, rfl⟩

theorem vulnValues_good (b : Batch) (h : ∀ t ∈ b, t.length = 2) :
    vulnValues b = Gathered.values (boundValues b) := by
  induction b with
  | nil => rfl
  | cons t rest ih =>
    obtain ⟨x, y, ht⟩ := length_two t (h t (List.mem_cons_self _ _))
    subst ht
    have := ih (fun t ht => h t (List.mem_cons_of_mem _ ht))
    simp [vulnValues, this, boundValues]

theorem advisoryValues_good (b : Batch) (h : ∀ t ∈ b, t.length = 5) :
    advisoryValues b = Gathered.values (boundValues b) := by
  induction b with
  | nil => rfl
  | cons t rest ih =>
    obtain ⟨x1, x2, x3, x4, x5, ht⟩ := length_five t (h t (List.mem_cons_self _ _))
    subst ht
    have := ih (fun t ht => h t (List.mem_cons_of_mem _ ht))
    simp [advisoryValues, this, boundValues]

theorem dataSourceValues_decoded (decode : Bytes → Except Error Document) (b : Batch)
    (h : ∀ t ∈ b, t.length = 2)
    (hd : ∀ t ∈ b, ∃ doc, decode (t.getD 1 none) = Except.ok doc) :
    dataSourceValues decode b = Gathered.values (b.flatMap (boundRow decode)) := by
  induction b with
  | nil => rfl
  | cons t rest ih =>
    obtain ⟨x, y, ht⟩ := length_two t (h t (List.mem_cons_self _ _))
    subst ht
    obtain ⟨doc, hdoc⟩ := hd _ (List.mem_cons_self _ _)
    simp only [List.getD_cons_succ, List.getD_cons_zero] at hdoc
    have := ih (fun t ht => h t (List.mem_cons_of_mem _ ht))
      (fun t ht => hd t (List.mem_cons_of_mem _ ht))
    simp [dataSourceValues, Unmarshal, hdoc, this, boundRow, docOf]

theorem dataSourceValues_undecoded (decode : Bytes → Except Error Document) (b : Batch)
    (h : ∀ t ∈ b, t.length = 2)
    (hd : ∃ t ∈ b, ∃ err, decode (t.getD 1 none) = Except.error err) :
    ∃ err, dataSourceValues decode b = Gathered.error err := by
  induction b with
  | nil => simp at hd
  | cons t rest ih =>
    obtain ⟨x, y, ht⟩ := length_two t (h t (List.mem_cons_self _ _))
    subst ht
    cases hdec : decode y with
    | error err => exact ⟨err, by simp [dataSourceValues, Unmarshal, hdec]⟩
    | ok doc =>
      have hrest : ∃ t ∈ rest, ∃ err, decode (t.getD 1 none) = Except.error err := by
        obtain ⟨t, ht, err, herr⟩ := hd
        rcases List.mem_cons.mp ht with ht | ht
        · subst ht
          simp only [List.getD_cons_succ, List.getD_cons_zero] at herr
          rw [hdec] at herr
          cases herr
        · exact ⟨t, ht, err, herr⟩
      obtain ⟨err, herr⟩ := ih (fun t ht => h t (List.mem_cons_of_mem _ ht)) hrest
      exact ⟨err, by simp [dataSourceValues, Unmarshal, hdec, herr]⟩

theorem Repeat_of_ne_nil (s : String) (b : Batch) (h : b ≠ []) :
    Repeat s ((b.length : Int) - 1) = some (repeatString s (b.length - 1)) := by
  have hpos : 0 < b.length := List.length_pos.mpr h
  have h1 : ¬ ((b.length : Int) - 1 < 0) := by omega
  have h2 : ((b.length : Int) - 1).toNat = b.length - 1 := by omega
  simp [Repeat, h1, h2]

theorem prepareAndExec_values (db : SqlDB) (query : String) (values : List Value) :
    (prepareAndExec db query (Gathered.values values)).outcome =
        Outcome.returned (match db.Prepare query with
          | some err => some err
          | none => db.Exec query values) ∧
    (prepareAndExec db query (Gathered.values values)).ops =
      SqlOp.prepare query ::
        (match db.Prepare query with
          | some _ => []
          | none => [SqlOp.exec query values]) := by
  unfold prepareAndExec
  cases db.Prepare query <;> simp

theorem prepareAndExec_error (db : SqlDB) (query : String) (err : Error) :
    (∃ e, (prepareAndExec db query (Gathered.error err)).outcome = Outcome.returned (some e)) ∧
    (prepareAndExec db query (Gathered.error err)).ops = [SqlOp.prepare query] := by
  unfold prepareAndExec
  cases db.Prepare query <;> simp

theorem dataSourceValues_no_panic (decode : Bytes → Except Error Document) (b : Batch)
    (h : ∀ t ∈ b, t.length = 2) : dataSourceValues decode b ≠ Gathered.panic := by
  induction b with
  | nil => simp [dataSourceValues]
  | cons t rest ih =>
    obtain ⟨x, y, ht⟩ := length_two t (h t (List.mem_cons_self _ _))
    subst ht
    have hrest := ih (fun t ht => h t (List.mem_cons_of_mem _ ht))
    cases hdec : decode y with
    | error err => simp [dataSourceValues, Unmarshal, hdec]
    | ok doc =>
      cases hr : dataSourceValues decode rest with
      | panic => exact absurd hr hrest
      | error err => simp [dataSourceValues, Unmarshal, hdec, hr]
      | values vs => simp [dataSourceValues, Unmarshal, hdec, hr]

theorem prepareAndExec_no_panic (db : SqlDB) (query : String) (g : Gathered)
    (hg : g ≠ Gathered.panic) : (prepareAndExec db query g).outcome ≠ Outcome.panic := by
  unfold prepareAndExec
  cases db.Prepare query with
  | some err => simp
  | none =>
    cases g with
    | panic => exact absurd rfl hg
    | error err => simp
    | values vs => simp

theorem InsertVuln_no_panic (backend : Backend) (m : Names) (db : SqlDB) (b : Batch)
    (h : goodBatch 2 b) : (InsertVuln backend m db b).outcome ≠ Outcome.panic := by
  have hg : vulnValues b ≠ Gathered.panic := by rw [vulnValues_good b h.2]; simp
  cases backend
  · simp only [InsertVuln, Mysql.InsertVuln, Repeat_of_ne_nil _ b h.1]
    exact prepareAndExec_no_panic db _ _ hg
  · exact prepareAndExec_no_panic db _ _ hg
  · exact prepareAndExec_no_panic db _ _ hg

theorem InsertVulnAdvisory_no_panic (backend : Backend) (m : Names) (db : SqlDB) (b : Batch)
    (h : goodBatch 5 b) : (InsertVulnAdvisory backend m db b).outcome ≠ Outcome.panic := by
  have hg : advisoryValues b ≠ Gathered.panic := by rw [advisoryValues_good b h.2]; simp
  cases backend
  · simp only [InsertVulnAdvisory, Mysql.InsertVulnAdvisory, Repeat_of_ne_nil _ b h.1]
    exact prepareAndExec_no_panic db _ _ hg
  · exact prepareAndExec_no_panic db _ _ hg
  · exact prepareAndExec_no_panic db _ _ hg

theorem InsertDataSource_no_panic (backend : Backend) (m : Names) (db : SqlDB)
    (decode : Bytes → Except Error Document) (b : Batch) (h : goodBatch 2 b) :
    (InsertDataSource backend m db decode b).outcome ≠ Outcome.panic := by
  have hg := dataSourceValues_no_panic decode b h.2
  cases backend
  · simp only [InsertDataSource, Mysql.InsertDataSource, Repeat_of_ne_nil _ b h.1]
    exact prepareAndExec_no_panic db _ _ hg
  · exact prepareAndExec_no_panic db _ _ hg
  · exact prepareAndExec_no_panic db _ _ hg

theorem refreshShape_good (trace : List Event) (hs : refreshShape trace) (b : Batch) :
    (Event.call (Call.InsertVuln b) ∈ trace → goodBatch 2 b) ∧
    (Event.call (Call.InsertDataSource b) ∈ trace → goodBatch 2 b) ∧
    (Event.call (Call.InsertVulnAdvisory b) ∈ trace → goodBatch 5 b) := by
  obtain ⟨V, D, A, ht, hV, hD, hA⟩ := hs
  have inV : ∀ x : Event, x ∈ V → ∃ bt, x = Event.call (Call.InsertVuln bt) ∧ goodBatch 2 bt :=
    hV
  have inD : ∀ x : Event, x ∈ D → x = Event.call Call.TruncateDataSource ∨
      ∃ bt, x = Event.call (Call.InsertDataSource bt) ∧ goodBatch 2 bt := by
    intro x hm
    rcases hD with hD | ⟨D1, hD, hD1⟩
    · rw [hD] at hm; simp at hm
    · rw [hD] at hm
      rcases List.mem_cons.mp hm with hm | hm
      · exact Or.inl hm
      · exact Or.inr (hD1 x hm)
  have inA : ∀ x : Event, x ∈ A → x = Event.call Call.TruncateVulnAdvisories ∨
      (∃ s, x = Event.writing s) ∨
      ∃ bt, x = Event.call (Call.InsertVulnAdvisory bt) ∧ goodBatch 5 bt := by
    intro x hm
    rcases hA with hA | ⟨A1, hA, hA1⟩
    · rw [hA] at hm; simp at hm
    · rw [hA] at hm
      rcases List.mem_cons.mp hm with hm | hm
      · exact Or.inl hm
      · exact Or.inr (hA1 x hm)
  have split : ∀ x : Event, x ∈ trace →
      x = Event.call Call.TruncateVulns ∨ x ∈ V ∨ x ∈ D ∨ x ∈ A := by
    intro x hx
    rw [ht] at hx
    simpa [List.mem_cons, List.mem_append] using hx
  refine ⟨?_, ?_, ?_⟩
  · intro hm
    rcases split _ hm with h | h | h | h
    · cases h
    · obtain ⟨bt, h1, h2⟩ := inV _ h
      cases h1; exact h2
    · rcases inD _ h with h1 | ⟨bt, h1, _⟩ <;> cases h1
    · rcases inA _ h with h1 | ⟨s, h1⟩ | ⟨bt, h1, _⟩ <;> cases h1
  · intro hm
    rcases split _ hm with h | h | h | h
    · cases h
    · obtain ⟨bt, h1, _⟩ := inV _ h
      cases h1
    · rcases inD _ h with h1 | ⟨bt, h1, h2⟩
      · cases h1
      · cases h1; exact h2
    · rcases inA _ h with h1 | ⟨s, h1⟩ | ⟨bt, h1, _⟩ <;> cases h1
  · intro hm
    rcases split _ hm with h | h | h | h
    · cases h
    · obtain ⟨bt, h1, _⟩ := inV _ h
      cases h1
    · rcases inD _ h with h1 | ⟨bt, h1, _⟩ <;> cases h1
    · rcases inA _ h with h1 | ⟨s, h1⟩ | ⟨bt, h1, h2⟩
      · cases h1
      · cases h1
      · cases h1; exact h2

/-! ## The batches fit the drivers: claim C16 -/

/-- C16: every batch a refresh passes to `InsertVuln` or `InsertDataSource` is
non-empty with records of two fields, and every batch it passes to
`InsertVulnAdvisory` is non-empty with records of five fields; so in the drivers
of all three backends the repeat count `len(batch)-1` is not negative and no
index into a record is out of range: the insert operation does not panic. -/
theorem C16_batches_fit_the_drivers {σ : Type} (chunk fuel : Nat) (hc : 0 < chunk)
    (d : Driver σ) (Compile : String → Except Error Regexp) (tx : Tx)
    (targetSources : List String) (s0 : σ)
    (hfuel : ∀ p ∈ tx.buckets, p.2.entries.length < fuel) :
    ∃ (o : Outcome) (st1 : Run σ),
      UpdateDBWith chunk fuel d Compile tx targetSources ⟨s0, []⟩ = some (o, st1) ∧
      ∀ b : Batch,
        (Event.call (Call.InsertVuln b) ∈ st1.trace →
          goodBatch 2 b ∧ 0 ≤ (b.length : Int) - 1 ∧
          ∀ (backend : Backend) (m : Names) (db : SqlDB),
            (InsertVuln backend m db b).outcome ≠ Outcome.panic) ∧
        (Event.call (Call.InsertDataSource b) ∈ st1.trace →
          goodBatch 2 b ∧ 0 ≤ (b.length : Int) - 1 ∧
          ∀ (backend : Backend) (m : Names) (db : SqlDB)
            (decode : Bytes → Except Error Document),
            (InsertDataSource backend m db decode b).outcome ≠ Outcome.panic) ∧
        (Event.call (Call.InsertVulnAdvisory b) ∈ st1.trace →
          goodBatch 5 b ∧ 0 ≤ (b.length : Int) - 1 ∧
          ∀ (backend : Backend) (m : Names) (db : SqlDB),
            (InsertVulnAdvisory backend m db b).outcome ≠ Outcome.panic) := by
  obtain ⟨o, st1, h1, h2⟩ := UpdateDBWith_shape chunk fuel hc d Compile tx targetSources s0 hfuel
  refine ⟨o, st1, h1, fun b => ?_⟩
  obtain ⟨g1, g2, g3⟩ := refreshShape_good st1.trace h2 b
  have hlen : ∀ w, goodBatch w b → 0 ≤ (b.length : Int) - 1 := by
    intro w hg
    have := List.length_pos.mpr hg.1
    omega
  exact ⟨fun hm => ⟨g1 hm, hlen 2 (g1 hm), fun backend m db =>
      InsertVuln_no_panic backend m db b (g1 hm)⟩,
    fun hm => ⟨g2 hm, hlen 2 (g2 hm), fun backend m db decode =>
      InsertDataSource_no_panic backend m db decode b (g2 hm)⟩,
    fun hm => ⟨g3 hm, hlen 5 (g3 hm), fun backend m db =>
      InsertVulnAdvisory_no_panic backend m db b (g3 hm)⟩⟩

/-- C16, on the snapshot with empty vulnerability and data-source buckets at the
batch size of the program. -/
theorem C16_batches_fit_the_drivers_witness :
    (∀ p ∈ txEmpty.buckets, p.2.entries.length < 1) ∧
    ∃ (o : Outcome) (st1 : Run Unit),
      UpdateDBWith chunkSize 1 okDriver noCompile txEmpty [] ⟨(), []⟩ = some (o, st1) ∧
      ∀ b : Batch,
        (Event.call (Call.InsertVuln b) ∈ st1.trace →
          goodBatch 2 b ∧ 0 ≤ (b.length : Int) - 1 ∧
          ∀ (backend : Backend) (m : Names) (db : SqlDB),
            (InsertVuln backend m db b).outcome ≠ Outcome.panic) ∧
        (Event.call (Call.InsertDataSource b) ∈ st1.trace →
          goodBatch 2 b ∧ 0 ≤ (b.length : Int) - 1 ∧
          ∀ (backend : Backend) (m : Names) (db : SqlDB)
            (decode : Bytes → Except Error Document),
            (InsertDataSource backend m db decode b).outcome ≠ Outcome.panic) ∧
        (Event.call (Call.InsertVulnAdvisory b) ∈ st1.trace →
          goodBatch 5 b ∧ 0 ≤ (b.length : Int) - 1 ∧
          ∀ (backend : Backend) (m : Names) (db : SqlDB),
            (InsertVulnAdvisory backend m db b).outcome ≠ Outcome.panic) :=
  ⟨by decide,
    C16_batches_fit_the_drivers chunkSize 1 (by decide) okDriver noCompile txEmpty [] ()
      (by decide)⟩

/-! ## `InsertDataSource`: claim C12 -/

theorem InsertDataSource_eq (backend : Backend) (m : Names) (db : SqlDB)
    (decode : Bytes → Except Error Document) (b : Batch) (h : b ≠ []) :
    ∃ query, InsertDataSource backend m db decode b =
      prepareAndExec db query (dataSourceValues decode b) := by
  cases backend
  · simp only [InsertDataSource, Mysql.InsertDataSource, Repeat_of_ne_nil _ b h]
    exact ⟨_, rfl⟩
  · exact ⟨_, rfl⟩
  · exact ⟨_, rfl⟩

/-- C12: on a batch of records `[source key, document]`, for each backend: if
some document fails to decode, `InsertDataSource` returns an error and never
executes the statement; if every document decodes, the values bound are, record
after record, the source key and the ID, Name and URL of the document, a field
the document lacks being the empty string. -/
theorem C12_decode_before_exec (backend : Backend) (m : Names) (db : SqlDB)
    (decode : Bytes → Except Error Document) (dataSources : Batch)
    (hgood : goodBatch 2 dataSources) :
    ((∃ t ∈ dataSources, ∃ err, decode (t.getD 1 none) = Except.error err) →
      (∃ err, (InsertDataSource backend m db decode dataSources).outcome =
        Outcome.returned (some err)) ∧
      ∀ q vs, SqlOp.exec q vs ∉ (InsertDataSource backend m db decode dataSources).ops) ∧
    ((∀ t ∈ dataSources, ∃ doc, decode (t.getD 1 none) = Except.ok doc) →
      ∃ query, (InsertDataSource backend m db decode dataSources).ops =
        SqlOp.prepare query ::
          (match db.Prepare query with
            | some _ => []
            | none => [SqlOp.exec query (dataSources.flatMap (boundRow decode))])) := by
  obtain ⟨query, hq⟩ := InsertDataSource_eq backend m db decode dataSources hgood.1
  rw [hq]
  constructor
  · intro hbad
    obtain ⟨err, herr⟩ := dataSourceValues_undecoded decode dataSources hgood.2 hbad
    rw [herr]
    obtain ⟨h1, h2⟩ := prepareAndExec_error db query err
    exact ⟨h1, by rw [h2]; simp⟩
  · intro hall
    rw [dataSourceValues_decoded decode dataSources hgood.2 hall]
    exact ⟨query, (prepareAndExec_values db query _).2⟩

/-- C12, on a batch whose second document does not decode, and on a batch whose
one document has the key `ID` only. -/
theorem C12_decode_before_exec_witness :
    (InsertDataSource Backend.mysql exampleNames okSqlDB exampleDecode
        [[some "alpine 3.15", some "\x7b\"ID\":\"alpine\"\x7d"],
         [some "debian 10", some "\x7b"]]).ops =
      [SqlOp.prepare ("INSERT INTO data_sources(source_key,source_id,source_name,source_url) " ++
        "VALUES (?,?,?,?), (?,?,?,?)")] ∧
    (InsertDataSource Backend.sqlite exampleNames okSqlDB exampleDecode
        [[some "alpine 3.15", some "\x7b\"ID\":\"alpine\"\x7d"]]).ops =
      [SqlOp.prepare ("INSERT INTO data_sources(source_key,source_id,source_name,source_url) " ++
          "VALUES ($1, $2, $3, $4)"),
       SqlOp.exec ("INSERT INTO data_sources(source_key,source_id,source_name,source_url) " ++
          "VALUES ($1, $2, $3, $4)")
        [Value.bytes (some "alpine 3.15"), Value.str "alpine", Value.str "", Value.str ""]] ∧
    ((∃ t ∈ [[some "alpine 3.15", some "\x7b\"ID\":\"alpine\"\x7d"], [some "debian 10", some "\x7b"]],
        ∃ err, exampleDecode (t.getD 1 none) = Except.error err) →
      (∃ err, (InsertDataSource Backend.mysql exampleNames okSqlDB exampleDecode
          [[some "alpine 3.15", some "\x7b\"ID\":\"alpine\"\x7d"],
           [some "debian 10", some "\x7b"]]).outcome = Outcome.returned (some err)) ∧
      ∀ q vs, SqlOp.exec q vs ∉ (InsertDataSource Backend.mysql exampleNames okSqlDB exampleDecode
          [[some "alpine 3.15", some "\x7b\"ID\":\"alpine\"\x7d"],
           [some "debian 10", some "\x7b"]]).ops) :=
  ⟨by decide, by decide,
    (C12_decode_before_exec Backend.mysql exampleNames okSqlDB exampleDecode
      [[some "alpine 3.15", some "\x7b\"ID\":\"alpine\"\x7d"], [some "debian 10", some "\x7b"]]
      ⟨by decide, by decide⟩).1⟩

/-! ## Lemmas: the text of the insert statement -/

theorem joinWith_replicate (sep g : String) (n : Nat) :
    joinWith sep (List.replicate (n + 1) g) = g ++ repeatString (sep ++ g) n := by
  induction n with
  | zero => simp [joinWith, repeatString]
  | succ n ih =>
    have h : List.replicate (n + 1 + 1) g = g :: g :: List.replicate n g := rfl
    have h1 : List.replicate (n + 1) g = g :: List.replicate n g := rfl
    rw [h, joinWith, ← h1, ih, repeatString]
    simp only [String.append_assoc]

theorem Join_eq_joinWith (l : List String) : Join l ',' = joinWith "," l := by
  induction l with
  | nil => rfl
  | cons x rest ih =>
    cases rest with
    | nil => simp [Join, joinChars, joinWith]
    | cons y r =>
      have h : (joinWith "," (y :: r)).data = joinChars ',' ((y :: r).map String.data) := by
        rw [← ih]; rfl
      apply String.ext
      simp only [Join, joinWith, List.map_cons, joinChars, String.data_append, h]
      simp

theorem range_two {β : Type} (f : Nat → β) : (List.range 2).map f = [f 0, f 1] := rfl

theorem range_five {β : Type} (f : Nat → β) :
    (List.range 5).map f = [f 0, f 1, f 2, f 3, f 4] := rfl

theorem mysql_groups (n w : Nat) :
    (placeholderGroups Backend.mysql n w).map (fun g => "(" ++ joinWith "," g ++ ")") =
      List.replicate n ("(" ++ joinWith "," (List.replicate w "?") ++ ")") := by
  simp only [placeholderGroups, placeholder, List.map_map, Function.comp_def, List.map_const',
    List.length_range, List.map_replicate]

theorem mysql_query (table columns head tail : String) (w n : Nat)
    (hhead : head = "(" ++ columns ++ ") VALUES " ++
      ("(" ++ joinWith "," (List.replicate w "?") ++ ")"))
    (htail : tail = ", " ++ ("(" ++ joinWith "," (List.replicate w "?") ++ ")")) :
    "INSERT INTO " ++ table ++ head ++ repeatString tail n =
      insertQuery Backend.mysql table columns (n + 1) w := by
  simp only [insertQuery, renderGroups]
  rw [mysql_groups, joinWith_replicate, hhead, htail]
  simp only [String.append_assoc]

theorem dollar_group_two (backend : Backend) (hb : backend ≠ Backend.mysql) (i : Nat) :
    "(" ++ joinWith ", " ((List.range 2).map fun j => placeholder backend (i * 2 + j)) ++ ")" =
      "($" ++ toString (i * 2 + 1) ++ ", $" ++ toString (i * 2 + 2) ++ ")" := by
  have e1 : ("($" : String) = "(" ++ "$" := rfl
  have e2 : (", $" : String) = ", " ++ "$" := rfl
  cases backend with
  | mysql => exact absurd rfl hb
  | postgres =>
    simp only [range_two, placeholder, joinWith]
    rw [e1, e2]
    simp only [String.append_assoc]
  | sqlite =>
    simp only [range_two, placeholder, joinWith]
    rw [e1, e2]
    simp only [String.append_assoc]

theorem dollar_group_five (backend : Backend) (hb : backend ≠ Backend.mysql) (i : Nat) :
    "(" ++ joinWith ", " ((List.range 5).map fun j => placeholder backend (i * 5 + j)) ++ ")" =
      "($" ++ toString (i * 5 + 1) ++ ", $" ++ toString (i * 5 + 2) ++ ", $" ++
        toString (i * 5 + 3) ++ ", $" ++ toString (i * 5 + 4) ++ ", $" ++
        toString (i * 5 + 5) ++ ")" := by
  have e1 : ("($" : String) = "(" ++ "$" := rfl
  have e2 : (", $" : String) = ", " ++ "$" := rfl
  cases backend with
  | mysql => exact absurd rfl hb
  | postgres =>
    simp only [range_five, placeholder, joinWith]
    rw [e1, e2]
    simp only [String.append_assoc]
  | sqlite =>
    simp only [range_five, placeholder, joinWith]
    rw [e1, e2]
    simp only [String.append_assoc]

theorem dollar_query (backend : Backend) (hb : backend ≠ Backend.mysql)
    (table columns head : String) (w n : Nat) (group : Nat → String)
    (hhead : head = "(" ++ columns ++ ") VALUES ")
    (hgroup : ∀ i, "(" ++ joinWith ", "
      ((List.range w).map fun j => placeholder backend (i * w + j)) ++ ")" = group i) :
    "INSERT INTO " ++ table ++ head ++ Join ((List.range n).map group) ',' =
      insertQuery backend table columns n w := by
  have hr : renderGroups backend (placeholderGroups backend n w) =
      joinWith "," ((List.range n).map group) := by
    cases backend with
    | mysql => exact absurd rfl hb
    | postgres =>
      simp only [renderGroups, placeholderGroups, List.map_map, Function.comp_def, hgroup]
    | sqlite =>
      simp only [renderGroups, placeholderGroups, List.map_map, Function.comp_def, hgroup]
  rw [insertQuery, hr, Join_eq_joinWith, hhead]
  simp only [String.append_assoc]

theorem flatten_uniform_getElem {α : Type} (w : Nat) :
    ∀ (L : List (List α)), (∀ t ∈ L, t.length = w) → ∀ i j : Nat, j < w →
      L.flatten[i * w + j]? = (L[i]?).bind fun t => t[j]? := by
  intro L
  induction L with
  | nil => intro _ i j _; simp
  | cons t rest ih =>
    intro h i j hj
    have ht : t.length = w := h t (List.mem_cons_self _ _)
    have hrest : ∀ t ∈ rest, t.length = w := fun t hm => h t (List.mem_cons_of_mem _ hm)
    cases i with
    | zero =>
      simp only [Nat.zero_mul, Nat.zero_add, List.flatten_cons, List.getElem?_cons_zero,
        Option.some_bind]
      exact List.getElem?_append_left (by omega)
    | succ i =>
      have hidx : (i + 1) * w + j = t.length + (i * w + j) := by
        rw [ht, Nat.succ_mul]; omega
      rw [List.flatten_cons, hidx, List.getElem?_append_right (by omega)]
      simp only [Nat.add_sub_cancel_left, List.getElem?_cons_succ]
      exact ih hrest i j hj

theorem flatten_uniform_length {α : Type} (w : Nat) :
    ∀ (L : List (List α)), (∀ t ∈ L, t.length = w) → L.flatten.length = L.length * w := by
  intro L
  induction L with
  | nil => intro _; simp
  | cons t rest ih =>
    intro h
    rw [List.flatten_cons, List.length_append, h t (List.mem_cons_self _ _),
      ih (fun t hm => h t (List.mem_cons_of_mem _ hm)), List.length_cons, Nat.succ_mul]
    omega

theorem placeholderGroups_get (backend : Backend) (hb : backend ≠ Backend.mysql) (n w i j : Nat)
    (hi : i < n) (hj : j < w) :
    ((placeholderGroups backend n w)[i]?).bind (fun g => g[j]?) =
      some ("$" ++ toString (i * w + j + 1)) := by
  cases backend with
  | mysql => exact absurd rfl hb
  | postgres =>
    simp [placeholderGroups, List.getElem?_map, List.getElem?_range hi,
      List.getElem?_range hj, placeholder]
  | sqlite =>
    simp [placeholderGroups, List.getElem?_map, List.getElem?_range hi,
      List.getElem?_range hj, placeholder]

theorem insertsRowMajor_of_ops (backend : Backend) (table columns : String) (w : Nat)
    (db : SqlDB) (b : Batch) (run : InsertRun) (hw : ∀ t ∈ b, t.length = w)
    (hops : run.ops =
      SqlOp.prepare (insertQuery backend table columns b.length w) ::
        (match db.Prepare (insertQuery backend table columns b.length w) with
          | some _ => []
          | none => [SqlOp.exec (insertQuery backend table columns b.length w)
              (boundValues b)])) :
    insertsRowMajor backend table columns w db b run := by
  refine ⟨hops, by simp [placeholderGroups], ?_, ?_, ?_⟩
  · intro g hg
    simp only [placeholderGroups, List.mem_map] at hg
    obtain ⟨i, _, hi⟩ := hg
    rw [← hi]; simp
  · rw [boundValues, List.length_map, flatten_uniform_length w b hw]
  · intro i j hi hj
    refine ⟨?_, fun hb => placeholderGroups_get backend hb b.length w i j hi hj⟩
    rw [boundValues, List.getElem?_map, flatten_uniform_getElem w b hw i j hj]

theorem length_pred_succ (b : Batch) (h : b ≠ []) : b.length - 1 + 1 = b.length := by
  have := List.length_pos.mpr h
  omega

theorem InsertVuln_ops (backend : Backend) (m : Names) (db : SqlDB) (vulns : Batch)
    (h : goodBatch 2 vulns) :
    (InsertVuln backend m db vulns).ops =
      SqlOp.prepare (insertQuery backend m.vulnerabilitiesTableName "vulnerability_id,value"
        vulns.length 2) ::
        (match db.Prepare (insertQuery backend m.vulnerabilitiesTableName
            "vulnerability_id,value" vulns.length 2) with
          | some _ => []
          | none => [SqlOp.exec (insertQuery backend m.vulnerabilitiesTableName
              "vulnerability_id,value" vulns.length 2) (boundValues vulns)]) := by
  cases backend with
  | mysql =>
    have hq := mysql_query m.vulnerabilitiesTableName "vulnerability_id,value"
      "(vulnerability_id,value) VALUES (?,?)" ", (?,?)" 2 (vulns.length - 1) rfl rfl
    rw [length_pred_succ vulns h.1] at hq
    simp only [InsertVuln, Mysql.InsertVuln, Repeat_of_ne_nil _ vulns h.1,
      vulnValues_good vulns h.2, hq]
    exact (prepareAndExec_values db _ _).2
  | postgres =>
    have hq := dollar_query Backend.postgres (by decide) m.vulnerabilitiesTableName
      "vulnerability_id,value" "(vulnerability_id,value) VALUES " 2 vulns.length
      (fun i => "($" ++ toString (i * 2 + 1) ++ ", $" ++ toString (i * 2 + 2) ++ ")") rfl
      (dollar_group_two Backend.postgres (by decide))
    simp only [InsertVuln, Postgres.InsertVuln, vulnValues_good vulns h.2, hq]
    exact (prepareAndExec_values db _ _).2
  | sqlite =>
    have hq := dollar_query Backend.sqlite (by decide) m.vulnerabilitiesTableName
      "vulnerability_id,value" "(vulnerability_id,value) VALUES " 2 vulns.length
      (fun i => "($" ++ toString (i * 2 + 1) ++ ", $" ++ toString (i * 2 + 2) ++ ")") rfl
      (dollar_group_two Backend.sqlite (by decide))
    simp only [InsertVuln, Sqlite.InsertVuln, Postgres.InsertVuln, vulnValues_good vulns h.2, hq]
    exact (prepareAndExec_values db _ _).2

theorem InsertVulnAdvisory_ops (backend : Backend) (m : Names) (db : SqlDB)
    (secAdvisories : Batch) (h : goodBatch 5 secAdvisories) :
    (InsertVulnAdvisory backend m db secAdvisories).ops =
      SqlOp.prepare (insertQuery backend m.advisoryTableName
        "vulnerability_id,platform,segment,package,value" secAdvisories.length 5) ::
        (match db.Prepare (insertQuery backend m.advisoryTableName
            "vulnerability_id,platform,segment,package,value" secAdvisories.length 5) with
          | some _ => []
          | none => [SqlOp.exec (insertQuery backend m.advisoryTableName
              "vulnerability_id,platform,segment,package,value" secAdvisories.length 5)
              (boundValues secAdvisories)]) := by
  cases backend with
  | mysql =>
    have hq := mysql_query m.advisoryTableName "vulnerability_id,platform,segment,package,value"
      "(vulnerability_id,platform,segment,package,value) VALUES (?,?,?,?,?)" ", (?,?,?,?,?)" 5
      (secAdvisories.length - 1) rfl rfl
    rw [length_pred_succ secAdvisories h.1] at hq
    simp only [InsertVulnAdvisory, Mysql.InsertVulnAdvisory,
      Repeat_of_ne_nil _ secAdvisories h.1, advisoryValues_good secAdvisories h.2, hq]
    exact (prepareAndExec_values db _ _).2
  | postgres =>
    have hq := dollar_query Backend.postgres (by decide) m.advisoryTableName
      "vulnerability_id,platform,segment,package,value"
      "(vulnerability_id,platform,segment,package,value) VALUES " 5 secAdvisories.length
      (fun i => "($" ++ toString (i * 5 + 1) ++ ", $" ++ toString (i * 5 + 2) ++ ", $" ++
        toString (i * 5 + 3) ++ ", $" ++ toString (i * 5 + 4) ++ ", $" ++
        toString (i * 5 + 5) ++ ")") rfl
      (dollar_group_five Backend.postgres (by decide))
    simp only [InsertVulnAdvisory, Postgres.InsertVulnAdvisory,
      advisoryValues_good secAdvisories h.2, hq]
    exact (prepareAndExec_values db _ _).2
  | sqlite =>
    have hq := dollar_query Backend.sqlite (by decide) m.advisoryTableName
      "vulnerability_id,platform,segment,package,value"
      "(vulnerability_id,platform,segment,package,value) VALUES " 5 secAdvisories.length
      (fun i => "($" ++ toString (i * 5 + 1) ++ ", $" ++ toString (i * 5 + 2) ++ ", $" ++
        toString (i * 5 + 3) ++ ", $" ++ toString (i * 5 + 4) ++ ", $" ++
        toString (i * 5 + 5) ++ ")") rfl
      (dollar_group_five Backend.sqlite (by decide))
    simp only [InsertVulnAdvisory, Sqlite.InsertVulnAdvisory, Postgres.InsertVulnAdvisory,
      advisoryValues_good secAdvisories h.2, hq]
    exact (prepareAndExec_values db _ _).2

/-! ## The insert statements: claim C13 -/

/-- C13: for a non-empty batch of `n` records of two fields (`InsertVuln`) or of
five fields (`InsertVulnAdvisory`), every backend prepares one `INSERT`
statement with `n` groups of that many placeholders and, unless preparing fails,
executes it once with `n * w` values, field `j` of record `i` at position
`i * w + j`; in PostgreSQL and SQLite the placeholder at that position is
`$(i*w+j+1)`. -/
theorem C13_one_statement_row_major (backend : Backend) (m : Names) (db : SqlDB)
    (vulns secAdvisories : Batch) (hv : goodBatch 2 vulns) (ha : goodBatch 5 secAdvisories) :
    insertsRowMajor backend m.vulnerabilitiesTableName "vulnerability_id,value" 2 db vulns
      (InsertVuln backend m db vulns) ∧
    insertsRowMajor backend m.advisoryTableName
      "vulnerability_id,platform,segment,package,value" 5 db secAdvisories
      (InsertVulnAdvisory backend m db secAdvisories) :=
  ⟨insertsRowMajor_of_ops backend _ _ 2 db vulns _ hv.2 (InsertVuln_ops backend m db vulns hv),
    insertsRowMajor_of_ops backend _ _ 5 db secAdvisories _ ha.2
      (InsertVulnAdvisory_ops backend m db secAdvisories ha)⟩

/-- C13, on a batch of two vulnerability records and a batch of one advisory
record: the statements built by the sqlite and mysql drivers, and the
row-major binding on postgres. -/
theorem C13_one_statement_row_major_witness :
    (InsertVuln Backend.sqlite exampleNames okSqlDB
        [[some "CVE-1", some "v1"], [some "CVE-2", some "v2"]]).ops =
      [SqlOp.prepare "INSERT INTO vulnerabilities(vulnerability_id,value) VALUES ($1, $2),($3, $4)",
       SqlOp.exec "INSERT INTO vulnerabilities(vulnerability_id,value) VALUES ($1, $2),($3, $4)"
        [Value.bytes (some "CVE-1"), Value.bytes (some "v1"),
         Value.bytes (some "CVE-2"), Value.bytes (some "v2")]] ∧
    (InsertVuln Backend.mysql exampleNames okSqlDB
        [[some "CVE-1", some "v1"], [some "CVE-2", some "v2"]]).ops =
      [SqlOp.prepare "INSERT INTO vulnerabilities(vulnerability_id,value) VALUES (?,?), (?,?)",
       SqlOp.exec "INSERT INTO vulnerabilities(vulnerability_id,value) VALUES (?,?), (?,?)"
        [Value.bytes (some "CVE-1"), Value.bytes (some "v1"),
         Value.bytes (some "CVE-2"), Value.bytes (some "v2")]] ∧
    insertsRowMajor Backend.postgres exampleNames.vulnerabilitiesTableName
      "vulnerability_id,value" 2 okSqlDB [[some "CVE-1", some "v1"], [some "CVE-2", some "v2"]]
      (InsertVuln Backend.postgres exampleNames okSqlDB
        [[some "CVE-1", some "v1"], [some "CVE-2", some "v2"]]) ∧
    insertsRowMajor Backend.postgres exampleNames.advisoryTableName
      "vulnerability_id,platform,segment,package,value" 5 okSqlDB
      [[some "CVE-1", some "alpine", some "3.15", some "musl", some "a1"]]
      (InsertVulnAdvisory Backend.postgres exampleNames okSqlDB
        [[some "CVE-1", some "alpine", some "3.15", some "musl", some "a1"]]) :=
  ⟨by decide, by decide,
    C13_one_statement_row_major Backend.postgres exampleNames okSqlDB
      [[some "CVE-1", some "v1"], [some "CVE-2", some "v2"]]
      [[some "CVE-1", some "alpine", some "3.15", some "musl", some "a1"]]
      ⟨by decide, by decide⟩ ⟨by decide, by decide⟩⟩

/-! ## The sqlite truncate operations: claim C14 -/

/-- C14 (the code departs from it after a rebuild): on the sqlite schema left by
a full create, each truncate operation returns no error and leaves its table as
it was; on the schema left by the rebuild branch of `Migrate`, `TruncateVulns`
drops a table without `NOT NULL`, `DEFAULT` and index and leaves one that has
them, and so do the other two truncate operations. -/
theorem C14_sqlite_truncate_after_rebuild :
    ((Sqlite.TruncateVulns exampleNames sqliteCreated).1 = none ∧
      (Sqlite.TruncateVulns exampleNames sqliteCreated).2.db.table "vulnerabilities" =
        sqliteCreated.db.table "vulnerabilities") ∧
    ((Sqlite.TruncateVulnAdvisories exampleNames sqliteCreated).1 = none ∧
      (Sqlite.TruncateVulnAdvisories exampleNames sqliteCreated).2.db.table
          "vulnerability_advisories" =
        sqliteCreated.db.table "vulnerability_advisories") ∧
    ((Sqlite.TruncateDataSource exampleNames sqliteCreated).1 = none ∧
      (Sqlite.TruncateDataSource exampleNames sqliteCreated).2.db.table "data_sources" =
        sqliteCreated.db.table "data_sources") ∧
    (Sqlite.TruncateVulns exampleNames sqliteRebuilt).1 = none ∧
    sqliteRebuilt.db.table "vulnerabilities" =
      some ⟨"vulnerabilities",
        [⟨"id", "INTEGER", "PRIMARY KEY AUTOINCREMENT"⟩, ⟨"vulnerability_id", "TEXT", ""⟩,
         ⟨"value", "TEXT", ""⟩, ⟨"created_at", "TIMESTAMP", ""⟩], [], ""⟩ ∧
    (Sqlite.TruncateVulns exampleNames sqliteRebuilt).2.db.table "vulnerabilities" =
      some ⟨"vulnerabilities",
        [⟨"id", "INTEGER", "PRIMARY KEY AUTOINCREMENT"⟩,
         ⟨"vulnerability_id", "TEXT", "NOT NULL"⟩, ⟨"value", "TEXT", "NOT NULL"⟩,
         ⟨"created_at", "TIMESTAMP", "DEFAULT CURRENT_TIMESTAMP"⟩],
        [⟨"v_vulnerability_id_idx", ["vulnerability_id"]⟩], ""⟩ ∧
    (Sqlite.TruncateVulnAdvisories exampleNames sqliteRebuilt).2.db.table
        "vulnerability_advisories" ≠
      sqliteRebuilt.db.table "vulnerability_advisories" ∧
    (Sqlite.TruncateDataSource exampleNames sqliteRebuilt).2.db.table "data_sources" ≠
      sqliteRebuilt.db.table "data_sources" := by
  refine ⟨by decide, by decide, by decide, by decide, by decide, by decide, by decide, by decide⟩

/-! ## Errors of the driver: claim C11 -/

/-- C11 (the code departs from it for the data-source table): when
`TruncateDataSource` or `InsertDataSource` fails, the refresh makes no further
driver call but does not return: it ends in `log.Logger.Fatalf`, which exits the
process; a failing `InsertVuln` or `TruncateVulnAdvisories` is returned to the
caller as the claim says. -/
theorem C11_data_source_error_is_fatal :
    (UpdateDB 6 (failOn fun c => c == Call.TruncateDataSource) noCompile txSmall []
        ⟨(), []⟩).map (fun r => (r.1, r.2.trace.getLast?)) =
      some (Outcome.fatal "Failed to update data-source table:connection lost",
        some (Event.call Call.TruncateDataSource)) ∧
    (UpdateDB 6 (failOn fun c => c == Call.InsertDataSource
          [[some "alpine 3.15", some "\x7b\"ID\":\"alpine\"\x7d"]]) noCompile txSmall []
        ⟨(), []⟩).map (fun r => (r.1, r.2.trace.getLast?)) =
      some (Outcome.fatal "Failed to update data-source table:connection lost",
        some (Event.call (Call.InsertDataSource
          [[some "alpine 3.15", some "\x7b\"ID\":\"alpine\"\x7d"]]))) ∧
    (UpdateDB 6 (failOn fun c => c == Call.InsertVuln
          [[some "CVE-1", some "v1"], [some "CVE-2", some "v2"], [some "CVE-3", some "v3"],
           [some "CVE-4", some "v4"], [some "CVE-5", some "v5"]]) noCompile txSmall []
        ⟨(), []⟩).map (fun r => (r.1, r.2.trace.getLast?)) =
      some (Outcome.returned (some "connection lost"),
        some (Event.call (Call.InsertVuln
          [[some "CVE-1", some "v1"], [some "CVE-2", some "v2"], [some "CVE-3", some "v3"],
           [some "CVE-4", some "v4"], [some "CVE-5", some "v5"]]))) ∧
    (UpdateDB 6 (failOn fun c => c == Call.TruncateVulnAdvisories) noCompile txSmall []
        ⟨(), []⟩).map (fun r => (r.1, r.2.trace.getLast?)) =
      some (Outcome.returned (some "connection lost"),
        some (Event.call Call.TruncateVulnAdvisories)) := by
  refine ⟨by decide, by decide, by decide, by decide⟩

/-! ## The advisory records and their columns: claim C7 -/

theorem advisoryRows_tuples (s : String) (b : Bucket) :
    (advisoryTuples s b).map (fun t => advisoryColumns.zip (t.map Value.bytes)) =
      advisoryRows s b := by
  unfold advisoryTuples advisoryRows
  rw [List.map_flatMap]
  congr 1
  funext p
  obtain ⟨pkg, item⟩ := p
  cases item with
  | value v => simp [itemTuples]
  | bucket es => simp [itemTuples, advisoryColumns]

/-- C7: for a source label that is walked (not "vulnerability", and let through by
the allow-list), the batches passed to `InsertVulnAdvisory` for it, concatenated,
are one record `[vulnerability id, platform, segment, package, document]` per
entry under the label, packages outer and vulnerability ids inner in cursor order,
with (platform, segment) parsed from the label; and on each of these batches the
`InsertVulnAdvisory` of every backend prepares the statement whose column list is
vulnerability_id, platform, segment, package, value and binds field `j` of record
`i` at position `i * 5 + j`, so that each field falls under the column of its
position. -/
theorem C7_advisory_tuples {σ : Type} (chunk : Nat) (hc : 0 < chunk) (d : Driver σ)
    (hd : d.neverFails) (sourceRe : List Regexp) (label : String) (b : Bucket) (s0 : σ)
    (h1 : label ≠ vulnBucket)
    (h2 : sourceRe = [] ∨ ∃ re ∈ sourceRe, re.MatchString label = true)
    (hnd : (b.entries.map Prod.fst).Nodup) :
    (walkSource chunk d sourceRe label b ⟨s0, []⟩).1 = Outcome.returned none ∧
    walked (walkSource chunk d sourceRe label b ⟨s0, []⟩).2.trace = [label] ∧
    (advisoryBatches (walkSource chunk d sourceRe label b ⟨s0, []⟩).2.trace).flatten =
      advisoryTuples label b ∧
    (advisoryBatches (walkSource chunk d sourceRe label b ⟨s0, []⟩).2.trace).flatten.map
      (fun t => advisoryColumns.zip (t.map Value.bytes)) = advisoryRows label b ∧
    ∀ (backend : Backend) (m : Names) (db : SqlDB),
      ∀ c ∈ advisoryBatches (walkSource chunk d sourceRe label b ⟨s0, []⟩).2.trace,
        insertsRowMajor backend m.advisoryTableName (joinWith "," advisoryColumns) 5 db c
          (InsertVulnAdvisory backend m db c) := by
  obtain ⟨e1, e2⟩ := walkSource_ok chunk hc d hd sourceRe label b ⟨s0, []⟩
  rw [walkEvents_of_walked chunk sourceRe label b h1 h2] at e2
  simp only [List.nil_append] at e2
  have e3 : (advisoryBatches (walkSource chunk d sourceRe label b ⟨s0, []⟩).2.trace).flatten =
      advisoryTuples label b := by
    rw [e2, advisoryBatches_inserts, chunkList_join chunk hc _ _ (Nat.le_refl _),
      walkPackages_tuples label b hnd]
  have hcols : joinWith "," advisoryColumns =
      "vulnerability_id,platform,segment,package,value" := by decide
  refine ⟨e1, ?_, e3, ?_, ?_⟩
  · rw [e2]
    simp [walked, List.filterMap_cons, Event.source, List.filterMap_map, Function.comp_def]
  · rw [e3, advisoryRows_tuples]
  · intro backend m db c hcm
    rw [e2, advisoryBatches_inserts] at hcm
    have hgood : goodBatch 5 c := advisoryChunks_good chunk hc label b c hcm
    rw [hcols]
    exact insertsRowMajor_of_ops backend _ _ 5 db c _ hgood.2
      (InsertVulnAdvisory_ops backend m db c hgood)

set_option maxRecDepth 8000 in
/-- C7, on the source "alpine 3.15" of a small snapshot: the records passed, and
what the postgres driver prepares and binds for them. -/
theorem C7_advisory_tuples_witness :
    (advisoryBatches (walkSource chunkSize okDriver [] "alpine 3.15"
        ⟨[("musl", Item.bucket [("CVE-1", some "a1"), ("CVE-2", some "a2")]),
          ("zlib", Item.bucket [("CVE-3", some "a3")])]⟩ ⟨(), []⟩).2.trace).flatten =
      [[some "CVE-1", some "alpine", some "3.15", some "musl", some "a1"],
       [some "CVE-2", some "alpine", some "3.15", some "musl", some "a2"],
       [some "CVE-3", some "alpine", some "3.15", some "zlib", some "a3"]] ∧
    (advisoryBatches (walkSource chunkSize okDriver [] "alpine 3.15"
        ⟨[("musl", Item.bucket [("CVE-1", some "a1"), ("CVE-2", some "a2")]),
          ("zlib", Item.bucket [("CVE-3", some "a3")])]⟩ ⟨(), []⟩).2.trace).map
        (fun c => (InsertVulnAdvisory Backend.postgres exampleNames okSqlDB c).ops) =
      [[SqlOp.prepare ("INSERT INTO vulnerability_advisories" ++
          "(vulnerability_id,platform,segment,package,value) VALUES " ++
          "($1, $2, $3, $4, $5),($6, $7, $8, $9, $10),($11, $12, $13, $14, $15)"),
        SqlOp.exec ("INSERT INTO vulnerability_advisories" ++
          "(vulnerability_id,platform,segment,package,value) VALUES " ++
          "($1, $2, $3, $4, $5),($6, $7, $8, $9, $10),($11, $12, $13, $14, $15)")
          [Value.bytes (some "CVE-1"), Value.bytes (some "alpine"), Value.bytes (some "3.15"),
           Value.bytes (some "musl"), Value.bytes (some "a1"),
           Value.bytes (some "CVE-2"), Value.bytes (some "alpine"), Value.bytes (some "3.15"),
           Value.bytes (some "musl"), Value.bytes (some "a2"),
           Value.bytes (some "CVE-3"), Value.bytes (some "alpine"), Value.bytes (some "3.15"),
           Value.bytes (some "zlib"), Value.bytes (some "a3")]]] :=
  ⟨(C7_advisory_tuples chunkSize (by decide) okDriver okDriver_neverFails [] "alpine 3.15"
    ⟨[("musl", Item.bucket [("CVE-1", some "a1"), ("CVE-2", some "a2")]),
      ("zlib", Item.bucket [("CVE-3", some "a3")])]⟩ () (by decide) (Or.inl rfl)
    (by decide)).2.2.1.trans (by decide), by decide⟩

/-! ## Empty collections: claim C5 -/

theorem walkSource_emptyBucket {σ : Type} (chunk : Nat) (hc : 0 < chunk) (d : Driver σ)
    (sourceRe : List Regexp) (s : String) (st : Run σ) :
    (walkSource chunk d sourceRe s ⟨[]⟩ st).1 = Outcome.returned none ∧
    advisoryBatches (walkSource chunk d sourceRe s ⟨[]⟩ st).2.trace =
      advisoryBatches st.trace := by
  have hne : chunk ≠ 0 := by omega
  unfold walkSource
  by_cases h1 : s = vulnBucket
  · simp [h1]
  · by_cases h2 : (0 < sourceRe.length && !foundIn sourceRe s) = true
    · simp [h1, h2]
    · simp [h1, h2, Bucket.newCursor, walkPackages, Chunk, hne, chunkList_nil, insertChunks,
        advisoryBatches, List.filterMap_append, Event.advisoryBatch]

theorem forEach_emptyBuckets {σ : Type} (chunk : Nat) (hc : 0 < chunk) (d : Driver σ)
    (sourceRe : List Regexp) :
    ∀ (names : List String) (st : Run σ),
      advisoryBatches (forEach (walkSource chunk d sourceRe)
        (names.map fun n => (n, Bucket.mk [])) st).2.trace = advisoryBatches st.trace := by
  intro names
  induction names with
  | nil => intro st; rfl
  | cons n rest ih =>
    intro st
    obtain ⟨h1, h2⟩ := walkSource_emptyBucket chunk hc d sourceRe n st
    simp only [List.map_cons, forEach]
    cases h : walkSource chunk d sourceRe n ⟨[]⟩ st with
    | mk o st1 =>
      rw [h] at h1 h2
      simp only at h1 h2
      subst h1
      simp only []
      rw [ih st1, h2]

theorem updateAdvisories_txEmpty {σ : Type} (d : Driver σ)
    (Compile : String → Except Error Regexp) (targetSources : List String) (st : Run σ) :
    advisoryBatches (updateAdvisories chunkSize d Compile txEmpty targetSources st).2.trace =
      advisoryBatches st.trace := by
  unfold updateAdvisories
  cases hre : compileAll Compile targetSources with
  | error e => rfl
  | ok sourceRe =>
    simp only []
    have ht : advisoryBatches (invoke d Call.TruncateVulnAdvisories st).2.trace =
        advisoryBatches st.trace := by
      simp [invoke, advisoryBatches, List.filterMap_append, Event.advisoryBatch]
    cases h : invoke d Call.TruncateVulnAdvisories st with
    | mk e st1 =>
      rw [h] at ht
      simp only at ht
      cases e with
      | some e => exact ht
      | none =>
        have := forEach_emptyBuckets chunkSize (by decide) d sourceRe
          ["data-source", "vulnerability"] st1
        simp only [List.map_cons, List.map_nil] at this
        simp only [txEmpty]
        rw [this, ht]

theorem flatLoop_emptyBucket {σ : Type} (d : Driver σ) (ins : Batch → Call) (fuel : Nat)
    (hfuel : 0 < fuel) (st : Run σ) :
    flatLoop chunkSize d ins fuel false (Bucket.mk []).newCursor st =
      some ((invoke d (ins [[none, none]]) st).1, (invoke d (ins [[none, none]]) st).2) := by
  have h := flatLoop_eq chunkSize (by decide) d ins [] [] fuel st (by simpa using hfuel)
  have hc : (Bucket.mk []).newCursor = ⟨[], []⟩ := rfl
  rw [hc, h]
  simp only [flatBatches, insertSeq]
  cases (invoke d (ins [[none, none]]) st).1 <;> rfl

theorem flat_projections_updateAdvisories {σ : Type} (chunk : Nat) (d : Driver σ)
    (Compile : String → Except Error Regexp) (tx : Tx) (targetSources : List String)
    (st : Run σ) :
    vulnBatches (updateAdvisories chunk d Compile tx targetSources st).2.trace =
      vulnBatches st.trace ∧
    dataSourceBatches (updateAdvisories chunk d Compile tx targetSources st).2.trace =
      dataSourceBatches st.trace := by
  obtain ⟨ext, h1, h2⟩ := updateAdvisories_trace chunk d Compile tx targetSources st
  constructor
  · rw [h1, vulnBatches, List.filterMap_append,
      filterMap_eq_nil_of_advisory _ vulnBatch_of_advisory ext h2, List.append_nil]
    rfl
  · rw [h1, dataSourceBatches, List.filterMap_append,
      filterMap_eq_nil_of_advisory _ dataSourceBatch_of_advisory ext h2, List.append_nil]
    rfl

theorem invoke_cases {σ : Type} (d : Driver σ) (c : Call) (st : Run σ) (e : Option Error)
    (st1 : Run σ) (h : invoke d c st = (e, st1)) :
    e = (d.exec c st.db).1 ∧ st1.db = (d.exec c st.db).2 ∧
      st1.trace = st.trace ++ [Event.call c] := by
  simp only [invoke, Prod.mk.injEq] at h
  obtain ⟨h1, h2⟩ := h
  subst h1 h2
  exact ⟨rfl, rfl, rfl⟩

/-- C5 (the code departs from it for the two flat collections): on a snapshot
whose vulnerability and data-source buckets are empty, with any driver, the
refresh issues no `InsertVulnAdvisory` call; but once `TruncateVulns` has
succeeded it calls `InsertVuln` with the single record `[nil, nil]`, and once that
call and `TruncateDataSource` have succeeded it calls `InsertDataSource` with the
record `[nil, nil]`, whose failure ends the refresh in `log.Logger.Fatalf`. -/
theorem C5_empty_buckets_insert_nil_record {σ : Type} (d : Driver σ)
    (Compile : String → Except Error Regexp) (targetSources : List String) (s0 : σ)
    (fuel : Nat) (hfuel : 0 < fuel) :
    ∃ (o : Outcome) (st1 : Run σ),
      UpdateDB fuel d Compile txEmpty targetSources ⟨s0, []⟩ = some (o, st1) ∧
      advisoryBatches st1.trace = [] ∧
      ((d.exec Call.TruncateVulns s0).1 = none →
        vulnBatches st1.trace = [[[none, none]]] ∧
        ((d.exec (Call.InsertVuln [[none, none]]) (d.exec Call.TruncateVulns s0).2).1 = none →
          (d.exec Call.TruncateDataSource
            (d.exec (Call.InsertVuln [[none, none]]) (d.exec Call.TruncateVulns s0).2).2).1 =
              none →
          dataSourceBatches st1.trace = [[[none, none]]] ∧
          ∀ e, (d.exec (Call.InsertDataSource [[none, none]])
            (d.exec Call.TruncateDataSource
              (d.exec (Call.InsertVuln [[none, none]])
                (d.exec Call.TruncateVulns s0).2).2).2).1 = some e →
            o = Outcome.fatal ("Failed to update data-source table:" ++ e))) := by
  have hv : txEmpty.getBucket vulnBucket = some ⟨[]⟩ := rfl
  have hds : txEmpty.getBucket dataSourceBucket = some ⟨[]⟩ := rfl
  unfold UpdateDB UpdateDBWith
  cases hi1 : invoke d Call.TruncateVulns ⟨s0, []⟩ with
  | mk e1 st1 =>
    obtain ⟨a1, a2, a3⟩ := invoke_cases d _ _ e1 st1 hi1
    simp only [List.nil_append] at a2 a3
    cases e1 with
    | some e =>
      refine ⟨_, _, rfl, ?_, ?_⟩
      · rw [a3]; rfl
      · intro h; rw [← a1] at h; cases h
    | none =>
      simp only [hv]
      rw [flatLoop_emptyBucket d Call.InsertVuln fuel hfuel]
      cases hi2 : invoke d (Call.InsertVuln [[none, none]]) st1 with
      | mk e2 st2 =>
        obtain ⟨b1, b2, b3⟩ := invoke_cases d _ _ e2 st2 hi2
        rw [a2] at b1 b2
        rw [a3] at b3
        simp only [List.cons_append, List.nil_append] at b3
        cases e2 with
        | some e =>
          refine ⟨_, _, rfl, ?_, ?_⟩
          · rw [b3]; rfl
          · intro _
            refine ⟨by rw [b3]; rfl, fun h => ?_⟩
            rw [← b1] at h; cases h
        | none =>
          simp only [updateDataSource, hds]
          cases hi3 : invoke d Call.TruncateDataSource st2 with
          | mk e3 st3 =>
            obtain ⟨c1, c2, c3⟩ := invoke_cases d _ _ e3 st3 hi3
            rw [b2] at c1 c2
            rw [b3] at c3
            simp only [List.cons_append, List.nil_append] at c3
            cases e3 with
            | some e =>
              refine ⟨_, _, rfl, ?_, ?_⟩
              · rw [c3]; rfl
              · intro _
                refine ⟨by rw [c3]; rfl, fun _ h => ?_⟩
                rw [← c1] at h; cases h
            | none =>
              simp only []
              rw [flatLoop_emptyBucket d Call.InsertDataSource fuel hfuel]
              cases hi4 : invoke d (Call.InsertDataSource [[none, none]]) st3 with
              | mk e4 st4 =>
                obtain ⟨d1, d2, d3⟩ := invoke_cases d _ _ e4 st4 hi4
                rw [c2] at d1
                rw [c3] at d3
                simp only [List.cons_append, List.nil_append] at d3
                cases e4 with
                | some e =>
                  refine ⟨_, _, rfl, ?_, ?_⟩
                  · rw [d3]; rfl
                  · intro _
                    refine ⟨by rw [d3]; rfl, fun _ _ => ⟨by rw [d3]; rfl, ?_⟩⟩
                    intro e5 he
                    rw [← d1] at he
                    cases he
                    rfl
                | none =>
                  simp only []
                  obtain ⟨p1, p2⟩ := flat_projections_updateAdvisories chunkSize d Compile
                    txEmpty targetSources st4
                  refine ⟨(updateAdvisories chunkSize d Compile txEmpty targetSources st4).1,
                    (updateAdvisories chunkSize d Compile txEmpty targetSources st4).2,
                    rfl, ?_, ?_⟩
                  · rw [updateAdvisories_txEmpty, d3]; rfl
                  · intro _
                    refine ⟨by rw [p1, d3]; rfl, fun _ _ => ⟨by rw [p2, d3]; rfl, ?_⟩⟩
                    intro e5 he
                    rw [← d1] at he
                    cases he

/-- C5, with the drivers of the three backends on a destination that accepts
every statement: `InsertVuln` and `InsertDataSource` are each called with the
record `[nil, nil]`, decoding the `nil` document fails, and the refresh ends in
`log.Logger.Fatalf` before the advisory table is reached. -/
theorem C5_empty_buckets_insert_nil_record_witness :
    (∀ backend : Backend,
      UpdateDB 1 (backendDriver backend exampleNames decodeNil) noCompile txEmpty []
          ⟨(), []⟩ =
        some (Outcome.fatal "Failed to update data-source table:unexpected end of JSON input",
          ⟨(), [Event.call Call.TruncateVulns,
                Event.call (Call.InsertVuln [[none, none]]),
                Event.call Call.TruncateDataSource,
                Event.call (Call.InsertDataSource [[none, none]])]⟩)) ∧
    0 < 1 ∧
    ∃ (o : Outcome) (st1 : Run Unit),
      UpdateDB 1 (backendDriver Backend.mysql exampleNames decodeNil) noCompile txEmpty []
        ⟨(), []⟩ = some (o, st1) ∧
      advisoryBatches st1.trace = [] ∧
      vulnBatches st1.trace = [[[none, none]]] ∧
      dataSourceBatches st1.trace = [[[none, none]]] ∧
      o = Outcome.fatal "Failed to update data-source table:unexpected end of JSON input" := by
  refine ⟨fun backend => by cases backend <;> decide, by decide, ?_⟩
  obtain ⟨o, st1, h1, h2, h3⟩ := C5_empty_buckets_insert_nil_record
    (backendDriver Backend.mysql exampleNames decodeNil) noCompile [] () 1 (by decide)
  exact ⟨o, st1, h1, h2, (h3 rfl).1, ((h3 rfl).2 rfl rfl).1,
    ((h3 rfl).2 rfl rfl).2 "unexpected end of JSON input" rfl⟩

end TrivyDbTo
